import Mathlib

/-! # esxi_exporter: extraction and normalisation layer

A shallow embedding of `internal/metrics/metrics.go` and `internal/helpers/helper.go`.

Conventions of the embedding.

* Go strings are modelled by Lean strings (texts of Unicode scalar values), so inputs are
  taken to be valid UTF-8.
* A Go `map[string]T` is an association list with at most one entry per key: `StrMap.set`
  overwrites the entry of a key that is present and appends a new entry otherwise; reading an
  absent key gives `none` (Go's zero value is applied at the point of use).
* The attribute values of `parseSmartData` are `float64(x)` for integers `0 ≤ x < 2^48`; such a
  conversion is exact, and the embedding keeps the integer `x` itself (a `Nat`).
* The regular expressions of the source are embedded one by one as matchers on lists of
  characters, with Go's leftmost-first semantics (`\s` is tab, newline, form feed, carriage
  return and space; `.` is any character but newline; `$` is the end of the text).
* Library functions on `float64`, the JSON decoder and the case table for non-ASCII runes are
  parameters (`Lib`); the command runner is a parameter with a state of its own (`Runner`).
* A collection cycle is a state transformer on a `World` (machine state, commands run so far,
  sink) whose result is `none` when the Go code panics.
-/

namespace EsxiExporter

/-! ## Maps with string keys -/

/-- A Go map with string keys: an association list read from the front. -/
abbrev StrMap (α : Type) := List (String × α)

/-- Reading `m[k]` with the comma-ok form: `none` when the key is absent. -/
def StrMap.get? {α : Type} : StrMap α → String → Option α
  | [], _ => none
  | (k', v) :: t, k => if k' = k then some v else StrMap.get? t k

/-- The assignment `m[k] = v`: overwrite in place when the key exists, else add the key. -/
def StrMap.set {α : Type} : StrMap α → String → α → StrMap α
  | [], k, v => [(k, v)]
  | (k', v') :: t, k, v => if k' = k then (k, v) :: t else (k', v') :: StrMap.set t k v

/-- The keys of a map, in the order of first insertion. -/
def StrMap.keys {α : Type} (m : StrMap α) : List String := m.map Prod.fst

/-! ## SMART attribute decoder (`parseSmartData`) -/

/-- The character class `[0-9a-fA-F]`; `parseSmartData` deletes every character outside it. -/
def isHexChar (c : Char) : Bool :=
  ('0' ≤ c ∧ c ≤ '9') ∨ ('a' ≤ c ∧ c ≤ 'f') ∨ ('A' ≤ c ∧ c ≤ 'F')

/-- Value of one hexadecimal digit, as `strconv.ParseInt(_, 16, 32)` reads it. -/
def hexVal (c : Char) : Nat :=
  if '0' ≤ c ∧ c ≤ '9' then c.toNat - 48
  else if 'a' ≤ c ∧ c ≤ 'f' then c.toNat - 87
  else c.toNat - 55

/-- The loop `for i := 0; i < len(hexClean)-1; i += 2` of `parseSmartData`: every complete pair
of hex digits becomes one byte; a trailing single digit is dropped.  `ParseInt` cannot fail on
two hex digits, so every pair appends a byte. -/
def hexPairs : List Char → List Nat
  | c1 :: c2 :: rest => (16 * hexVal c1 + hexVal c2) :: hexPairs rest
  | _ => []

/-- The table `attrNameMap` of `parseSmartData`. -/
def attrNameMap : List (Nat × String) :=
  [ (0x01, "raw_read_error_rate"), (0x03, "spin_up_time"), (0x04, "start_stop_count"),
    (0x05, "reallocated_sector_count"), (0x07, "seek_error_rate"), (0x09, "power_on_hours"),
    (0x0C, "power_cycle_count"), (0x53, "initial_bad_block_count"),
    (0xB1, "wear_leveling_count"), (0xB3, "used_reserved_block_count_total"),
    (0xB4, "unused_reserved_block_count_total"), (0xB5, "program_fail_count_total"),
    (0xB6, "erase_fail_count_total"), (0xB7, "runtime_bad_block"), (0xB8, "end_to_end_error"),
    (0xBB, "uncorrectable_error_count"), (0xBE, "airflow_temperature_celsius"),
    (0xC2, "temperature_celsius"), (0xC3, "hardware_ecc_recovered"),
    (0xC5, "current_pending_sector_count"), (0xC6, "uncorrectable_sector_count"),
    (0xC7, "udma_crc_error_count"), (0xCA, "data_address_mark_errors"),
    (0xEB, "por_recovery_count"), (0xF1, "total_host_writes"), (0xF2, "total_host_reads"),
    (0xF3, "total_host_writes_expanded"), (0xF4, "total_host_reads_expanded"),
    (0xF5, "remaining_rated_write_endurance"), (0xF6, "cumulative_host_sectors_written"),
    (0xF7, "host_program_page_count"), (0xFB, "minimum_spares_remaining") ]

/-- The call `strconv.FormatInt(n, 16)` for `n ≥ 0`: lowercase digits, no leading zeros. -/
def formatHex (n : Nat) : String := String.mk (Nat.toDigits 16 n)

/-- The name of an attribute id: the table entry, or `"unknown_" + FormatInt(id, 16)`. -/
def attrName (attrID : Nat) : String :=
  match attrNameMap.lookup attrID with
  | some name => name
  | none => "unknown_" ++ formatHex attrID

/-- The inner loop `rawValue |= int64(byteVal) << (k * 8)` over `rawValueBytes`.  The bytes are
below 256 and there are six of them, so the `int64` never overflows. -/
def rawValueOf (rawValueBytes : List Nat) : Nat :=
  rawValueBytes.enum.foldl (fun rawValue kb => rawValue ||| (kb.2 <<< (kb.1 * 8))) 0

/-- The body of the scan loop for a record that passed the id test (source lines 157-191):
the assignments into `attributes` for one record whose id is `attrID`, whose byte `i+3` is
`normalizedValue` and whose bytes `i+5 .. i+10` are `rawValueBytes`. -/
def emitRecord (attributes : StrMap Nat) (attrID normalizedValue : Nat)
    (rawValueBytes : List Nat) : StrMap Nat :=
  let rawValue := rawValueOf rawValueBytes
  if attrID = 0xB1 then
    (attributes.set (attrName attrID ++ "_raw") rawValue).set
      (attrName attrID ++ "_value") normalizedValue
  else if attrID = 0xC2 then
    attributes.set (attrName attrID) (rawValueBytes.headD 0)
  else
    attributes.set (attrName attrID) rawValue

/-- The scan loop `for i+10 < len(byteArray)` of `parseSmartData`, on the bytes from index `i`
on.  The loop runs while at least eleven bytes remain; an id outside `1..255` advances by one
byte, a record advances by eleven. -/
def scanRecords : List Nat → StrMap Nat → StrMap Nat
  | b0 :: b1 :: b2 :: b3 :: b4 :: b5 :: b6 :: b7 :: b8 :: b9 :: b10 :: rest, attributes =>
    if ¬ (1 ≤ b0 ∧ b0 ≤ 255) then
      scanRecords (b1 :: b2 :: b3 :: b4 :: b5 :: b6 :: b7 :: b8 :: b9 :: b10 :: rest) attributes
    else
      scanRecords rest (emitRecord attributes b0 b3 [b5, b6, b7, b8, b9, b10])
  | _, attributes => attributes

/-- The header test of `parseSmartData`: `startIndex` is 2 when the array has at least two bytes
and begins `01 00` or `2F 00`, and 0 otherwise. -/
def startIndex (byteArray : List Nat) : Nat :=
  match byteArray with
  | b0 :: b1 :: _ => if (b0 = 0x01 ∧ b1 = 0x00) ∨ (b0 = 0x2f ∧ b1 = 0x00) then 2 else 0
  | _ => 0

/-- The byte array `parseSmartData` builds from its argument. -/
def byteArrayOf (smartDataHex : String) : List Nat :=
  hexPairs (smartDataHex.data.filter isHexChar)

/-- The function `parseSmartData`: SMART data hex string to attribute map. -/
def parseSmartData (smartDataHex : String) : StrMap Nat :=
  let byteArray := byteArrayOf smartDataHex
  scanRecords (byteArray.drop (startIndex byteArray)) []

/-- Two lowercase hex digits for a byte: the text form in which the claims about
`parseSmartData` present a byte sequence to the decoder. -/
def hexOfByte (b : Nat) : List Char := [Nat.digitChar (b / 16), Nat.digitChar (b % 16)]

/-- The hex text of a byte sequence (`hexOfByte` of each byte, concatenated). -/
def hexOf (bs : List Nat) : String := String.mk (bs.flatMap hexOfByte)

/-! ## Text helpers (`strings`, `regexp`) -/

/-- The predicate `unicode.IsSpace`, which `strings.TrimSpace` trims. -/
def goIsSpace (c : Char) : Bool :=
  let n := c.toNat
  (9 ≤ n ∧ n ≤ 13) ∨ n = 0x20 ∨ n = 0x85 ∨ n = 0xA0 ∨ n = 0x1680 ∨ (0x2000 ≤ n ∧ n ≤ 0x200A) ∨
    n = 0x2028 ∨ n = 0x2029 ∨ n = 0x202F ∨ n = 0x205F ∨ n = 0x3000

/-- The class `\s` of Go regular expressions: tab, newline, form feed, carriage return, space. -/
def reSpace (c : Char) : Bool :=
  c.toNat = 9 ∨ c.toNat = 10 ∨ c.toNat = 12 ∨ c.toNat = 13 ∨ c.toNat = 32

/-- The function `strings.TrimSpace`. -/
def trimSpace (s : List Char) : List Char :=
  ((s.dropWhile goIsSpace).reverse.dropWhile goIsSpace).reverse

/-- The call `strings.Split(s, "\n")`: the pieces between newlines; never an empty list. -/
def splitLines : List Char → List (List Char)
  | [] => [[]]
  | c :: rest =>
    if c = '\n' then [] :: splitLines rest
    else
      match splitLines rest with
      | [] => [[c]]
      | l :: ls => (c :: l) :: ls

/-- The rune map `unicode.ToLower` of `strings.ToLower`.  On ASCII it turns `A`-`Z` into
`a`-`z` and changes nothing else; on the other runes it is the case table of the Go library,
which is not part of this repository and is taken as the parameter `lower`. -/
def lowerRune (lower : Char → Char) (c : Char) : Char :=
  if c.toNat < 128 then c.toLower else lower c

/-- The function `strings.ToLower`. -/
def toLower (lower : Char → Char) (s : List Char) : List Char := s.map (lowerRune lower)

/-- Remove the literal `lit` from the front of `s`, if `s` starts with it. -/
def dropLit? : List Char → List Char → Option (List Char)
  | [], s => some s
  | _ :: _, [] => none
  | a :: lit, c :: s => if a = c then dropLit? lit s else none

/-- Leftmost search: the first position of `s` at which the literal `lit` occurs and the
continuation `k`, applied to the text after that occurrence, succeeds. -/
def findAfter {β : Type} (lit : List Char) (k : List Char → Option β) : List Char → Option β
  | [] => (dropLit? lit []).bind k
  | c :: t =>
    match (dropLit? lit (c :: t)).bind k with
    | some r => some r
    | none => findAfter lit k t

/-- The function `strings.Contains(s, lit)`. -/
def containsLit (lit : String) (s : List Char) : Bool :=
  (findAfter lit.data (fun _ => some ()) s).isSome

/-- The tail `\s*(.+)` of the two field patterns, matched at the start of `rest`; the result is
capture group 1.  The greedy `\s*` takes the whole run of `\s`; `.+` then takes everything up to
the next newline.  When nothing but `\s` follows, `\s*` gives back up to its last character that
is not a newline, and the group is that one character. -/
def captureField (rest : List Char) : Option (List Char) :=
  match rest.dropWhile reSpace with
  | c :: more => some ((c :: more).takeWhile (fun x => x ≠ '\n'))
  | [] =>
    match (rest.takeWhile reSpace).reverse.find? (fun x => x ≠ '\n') with
    | some c => some [c]
    | none => none

/-- The call `regexp.MustCompile(label + "\s*(.+)").FindStringSubmatch(line)`, with `label` one
of `Display Name:` and `Model:`: capture group 1 of the leftmost match, `none` without one. -/
def fieldSubmatch (label : String) (line : List Char) : Option (List Char) :=
  findAfter label.data captureField line

/-- The call `ReplaceAllString(s, "")` of the pattern `\s*\([^)]+\)$`.  A match has to end at
the end of the text, so the text ends with `)`; the `(` of the leftmost match is the first `(`
of the last stretch without `)` before that final `)`, and it must be followed by at least one
character; the match starts at the run of `\s` in front of that `(`. -/
def stripParenSuffix (s : List Char) : List Char :=
  match s.reverse with
  | [] => s
  | last :: revBody =>
    if last = ')' then
      let seg := (revBody.takeWhile (fun x => x ≠ ')')).reverse
      let head := (revBody.dropWhile (fun x => x ≠ ')')).reverse
      match seg.dropWhile (fun x => x ≠ '(') with
      | _ :: _ :: _ =>
        head ++ ((seg.takeWhile (fun x => x ≠ '(')).reverse.dropWhile reSpace).reverse
      | _ => s
    else s

/-! ## Device discovery (`discoverEsxcliDevices`) -/

/-- One alternative `lit\S+` of the device pattern, anchored at both ends. -/
def matchesIdWith (lit : String) (line : List Char) : Bool :=
  match dropLit? lit.data line with
  | some rest => rest ≠ [] ∧ rest.all (fun c => !reSpace c)
  | none => false

/-- The call `deviceRegex.MatchString(line)` for `^(naa\.\S+|t10\.\S+|mpx\.\S+)$`. -/
def deviceRegexMatch (line : List Char) : Bool :=
  matchesIdWith "naa." line || matchesIdWith "t10." line || matchesIdWith "mpx." line

/-- The call `ssdRegex.MatchString(s)` for the pattern `Is SSD:\s*true` (case-sensitive,
unanchored).  `true` starts with a character outside `\s`, so only the full run of `\s` can be
followed by it. -/
def ssdRegexMatch (s : List Char) : Bool :=
  (findAfter "Is SSD:".data
    (fun rest => (dropLit? "true".data (rest.dropWhile reSpace)).map (fun _ => ())) s).isSome

/-- Reading a `map[string]string` at a key: the empty string when the key is absent. -/
def StrMap.getStr (m : StrMap String) (k : String) : String := (m.get? k).getD ""

/-- The completeness test made at an identifier line and at the end of the input (source lines
218-231 and 263-276): a non-empty in-progress record is appended to the result when its `id`
and `display_name` are both non-empty, and dropped otherwise. -/
def flushDevice (detectedDevices : List (StrMap String)) (currentDeviceInfo : StrMap String) :
    List (StrMap String) :=
  if currentDeviceInfo.length > 0 then
    let deviceID := currentDeviceInfo.getStr "id"
    let displayName := currentDeviceInfo.getStr "display_name"
    let model := currentDeviceInfo.getStr "model"
    let protocol := currentDeviceInfo.getStr "protocol"
    if deviceID ≠ "" ∧ displayName ≠ "" then
      detectedDevices ++
        [[("id", deviceID), ("display_name", displayName), ("model", model),
          ("protocol", protocol)]]
    else detectedDevices
  else detectedDevices

/-- One iteration of the loop over the lines of the listing (source lines 213-261); the state is
the pair of `detectedDevices` and `currentDeviceInfo`. -/
def scanLine (lower : Char → Char) (st : List (StrMap String) × StrMap String)
    (rawLine : List Char) :
    List (StrMap String) × StrMap String :=
  let line := trimSpace rawLine
  if deviceRegexMatch line then
    (flushDevice st.1 st.2, [("id", String.mk line)])
  else if st.2.length > 0 then
    match fieldSubmatch "Display Name:" line with
    | some rawDisplayName =>
      (st.1, st.2.set "display_name" (String.mk (stripParenSuffix (trimSpace rawDisplayName))))
    | none =>
      match fieldSubmatch "Model:" line with
      | some model => (st.1, st.2.set "model" (String.mk (trimSpace model)))
      | none =>
        if ssdRegexMatch (toLower lower line) then (st.1, st.2.set "protocol" "SSD")
        else if containsLit "nvme" (toLower lower line) then (st.1, st.2.set "protocol" "NVMe")
        else st
  else st

/-- The part of `discoverEsxcliDevices` after the listing command succeeded: the devices found
in the listing text `output`. -/
def discoverFrom (lower : Char → Char) (output : String) : List (StrMap String) :=
  let st := (splitLines output.data).foldl (scanLine lower) ([], [])
  flushDevice st.1 st.2

/-! ## Tabular SMART parser (`parseEsxcliSmart`), text part -/

/-- The call `regexp.MustCompile("\s+").Split(line, -1)`: the pieces between the maximal runs
of `\s`; a run at the very start or end leaves an empty piece there.  The flag tells whether the
previous character belonged to a run. -/
def splitWsAux : Bool → List Char → List (List Char)
  | _, [] => [[]]
  | inRun, c :: rest =>
    if reSpace c then
      if inRun then splitWsAux true rest else [] :: splitWsAux true rest
    else
      match splitWsAux false rest with
      | [] => [[c]]
      | p :: ps => (c :: p) :: ps

/-- The tokens of a table row (see `splitWsAux`). -/
def splitWs (line : List Char) : List (List Char) := splitWsAux false line

/-- The key `strings.ToLower(strings.ReplaceAll(attrName, "-", "_"))`. -/
def attrKeyOf (lower : Char → Char) (name : List Char) : String :=
  String.mk (toLower lower (name.map (fun c => if c = '-' then '_' else c)))

/-- One iteration of the loop over the rows of the table (source lines 292-321).
`parseFloat` is `strconv.ParseFloat(_, 64)`, with `none` for an error. -/
def parseSmartRow {F : Type} (lower : Char → Char) (parseFloat : String → Option F)
    (smartAttributes : StrMap F) (rawLine : List Char) : StrMap F :=
  let line := trimSpace rawLine
  if (dropLit? "ID#".data line).isSome ∨ line = [] then smartAttributes
  else
    let tokens := splitWs line
    if tokens.length < 10 then smartAttributes
    else
      let name := tokens.getD 1 []
      let value := tokens.getD 3 []
      let rawValue := tokens.getD (tokens.length - 1) []
      match parseFloat (String.mk rawValue) with
      | none => smartAttributes
      | some rawFloat =>
        let attrKey := attrKeyOf lower name
        if attrKey = "wear_leveling_count" then
          match parseFloat (String.mk value) with
          | some valueFloat =>
            (smartAttributes.set "wear_leveling_count_value" valueFloat).set
              "wear_leveling_count_raw" rawFloat
          | none => smartAttributes
        else smartAttributes.set attrKey rawFloat

/-- The part of `parseEsxcliSmart` after the command succeeded: table text to attributes. -/
def parseSmartTable {F : Type} (lower : Char → Char) (parseFloat : String → Option F)
    (output : String) : StrMap F :=
  (splitLines output.data).foldl (parseSmartRow lower parseFloat) []

/-! ## Decoded JSON -/

/-- A value as `json.Unmarshal` stores it in an `interface`: `nil`, `bool`, `float64`, `string`,
a slice of values, or a `map[string]interface`. -/
inductive JVal (F : Type) where
  | null : JVal F
  | bool (b : Bool) : JVal F
  | num (x : F) : JVal F
  | str (s : String) : JVal F
  | arr (items : List (JVal F)) : JVal F
  | obj (fields : List (String × JVal F)) : JVal F

/-- The type assertion `v.(map[string]interface)` on the result of a map read, comma-ok form. -/
def asObj? {F : Type} : Option (JVal F) → Option (StrMap (JVal F))
  | some (.obj fields) => some fields
  | _ => none

/-- The type assertion `v.([]interface)` on the result of a map read, comma-ok form. -/
def asArr? {F : Type} : Option (JVal F) → Option (List (JVal F))
  | some (.arr items) => some items
  | _ => none

/-- The type assertion `v.(string)` on the result of a map read, comma-ok form. -/
def asStr? {F : Type} : Option (JVal F) → Option String
  | some (.str s) => some s
  | _ => none

/-- The comparison `v == lit` of an interface value with a string constant: true exactly when
the value holds that string. -/
def isStr {F : Type} (v : Option (JVal F)) (lit : String) : Bool :=
  match v with
  | some (.str s) => s = lit
  | _ => false

/-- The helper `helpers.GetString`: the string at `key`, or `defaultValue` when the key is
absent or holds something that is not a string. -/
def GetString {F : Type} (m : StrMap (JVal F)) (key defaultValue : String) : String :=
  match m.get? key with
  | some (.str s) => s
  | _ => defaultValue

/-- The call `strings.SplitN(s, sep, 2)` for a one-character separator: the text before the
first separator and, when there is a separator, the text after it. -/
def splitFirst (sep : Char) : List Char → List Char × Option (List Char)
  | [] => ([], none)
  | c :: rest =>
    if c = sep then ([], some rest)
    else ((c :: (splitFirst sep rest).1), (splitFirst sep rest).2)

/-! ## The measurement sink -/

/-- The ten gauges that `NewMetrics` registers; `m.metrics` has exactly these keys. -/
inductive Gauge where
  | controller_info | controller_status | controller_temperature | drive_status | drive_temp
  | drive_smart | virtual_drive_status | bbu_health | smartctl_info | smartctl_drive
  deriving DecidableEq, Repr

/-- One child of a gauge vector: the gauge, the label values given to `With`, and the value. -/
structure Sample (F : Type) where
  gauge : Gauge
  labels : List (String × String)
  value : F

/-- The contents of all gauge vectors.  A gauge vector holds at most one child per label set. -/
abbrev Sink (F : Type) := List (Sample F)

/-- The call `m.metrics[g].With(labels).Set(v)`. -/
def Sink.set {F : Type} : Sink F → Gauge → List (String × String) → F → Sink F
  | [], g, labels, v => [⟨g, labels, v⟩]
  | x :: t, g, labels, v =>
    if x.gauge = g ∧ x.labels = labels then ⟨g, labels, v⟩ :: t
    else x :: Sink.set t g labels v

/-- The value published for a gauge and label set, if any. -/
def Sink.get? {F : Type} : Sink F → Gauge → List (String × String) → Option F
  | [], _, _ => none
  | x :: t, g, labels =>
    if x.gauge = g ∧ x.labels = labels then some x.value else Sink.get? t g labels

/-- The loop `for _, metric := range m.metrics: metric.Reset()`: every gauge vector loses all
its children. -/
def Sink.resetAll {F : Type} (_ : Sink F) : Sink F := []

/-! ## Collection cycle -/

/-- The library functions the cycle calls that work on `float64` or come from packages outside
the repository.  `F` stands for `float64`. -/
structure Lib (F : Type) where
  /-- The case table `unicode.ToLower` on non-ASCII runes. -/
  unicodeLower : Char → Char
  /-- The call `strconv.ParseFloat(s, 64)`; `none` for an error. -/
  parseFloat : String → Option F
  /-- The conversion `float64(n)` of a non-negative integer below `2^53`. -/
  ofNat : Nat → F
  /-- The comparison `==` on `float64`. -/
  floatEq : F → F → Bool
  /-- The call `json.Unmarshal(text, &m)` into an empty `map[string]interface`; `none` for an
  error. -/
  jsonUnmarshal : String → Option (StrMap (JVal F))

/-- What a cycle can observe and change: the state `ext` of the machine the commands run on,
the commands handed to `runCmd` so far, and the sink. -/
structure World (σ F : Type) where
  ext : σ
  calls : List String
  sink : Sink F

/-- A step of the cycle: from a world to a result and the world after it.  The result `none`
is a Go run-time panic (failed type assertion, index out of range); the world is the one at the
moment of the panic. -/
def Cycle (σ F α : Type) : Type := World σ F → Option α × World σ F

instance {σ F : Type} : Monad (Cycle σ F) where
  pure a := fun w => (some a, w)
  bind m f := fun w =>
    match m w with
    | (some a, w1) => f a w1
    | (none, w1) => (none, w1)

/-- A run-time panic when the option is empty. -/
def orPanic {σ F α : Type} : Option α → Cycle σ F α
  | some a => fun w => (some a, w)
  | none => fun w => (none, w)

/-- A command runner: from the command text and the machine state to the standard output, or
`none` for an error (launch failure, non-zero exit, timeout), and the machine state after. -/
abbrev Runner (σ : Type) := String → σ → Option String × σ

/-- The method `runCmd`, as the cycle sees it: the command is recorded and the runner decides
the outcome. -/
def runCmd {σ F : Type} (run : Runner σ) (command : String) : Cycle σ F (Option String) :=
  fun w => (some (run command w.ext).1, ⟨(run command w.ext).2, w.calls ++ [command], w.sink⟩)

/-- The call `m.metrics[g].With(labels).Set(v)` as a step. -/
def setGauge {σ F : Type} (g : Gauge) (labels : List (String × String)) (v : F) :
    Cycle σ F Unit :=
  fun w => (some (), ⟨w.ext, w.calls, w.sink.set g labels v⟩)

/-- The loop `for _, metric := range m.metrics: metric.Reset()` as a step. -/
def resetMetrics {σ F : Type} : Cycle σ F Unit :=
  fun w => (some (), ⟨w.ext, w.calls, w.sink.resetAll⟩)

/-- A `for _, x := range xs` loop whose body is `f`. -/
def forEach {σ F β : Type} (f : β → Cycle σ F Unit) : List β → Cycle σ F Unit
  | [] => pure ()
  | x :: rest => do f x; forEach f rest

/-- The field `host` that `NewMetrics` sets. -/
def host : String := "localhost"

/-- The command of `discoverEsxcliDevices`. -/
def discoveryCmd : String := "esxcli storage core device list"

/-- The command of `CollectMetrics` for the structured source. -/
def perccliCmd : String := "cd /opt/lsi/perccli && ./perccli /cALL show all J"

/-- The method `discoverEsxcliDevices`. -/
def discoverEsxcliDevices {σ F : Type} (lib : Lib F) (run : Runner σ) :
    Cycle σ F (List (StrMap String)) := do
  match (← runCmd run discoveryCmd) with
  | none => pure []
  | some output => pure (discoverFrom lib.unicodeLower output)

/-- The method `parseEsxcliSmart`. -/
def parseEsxcliSmart {σ F : Type} (lib : Lib F) (run : Runner σ) (deviceID : String) :
    Cycle σ F (StrMap F) := do
  let cmd := "cd /opt/smartmontools && ./smartctl -a -d sat /dev/disks/" ++ deviceID ++
    " | awk \x27/ID# ATTRIBUTE_NAME/,/Total_LBAs_Written/\x27"
  match (← runCmd run cmd) with
  | none => pure []
  | some output => pure (parseSmartTable lib.unicodeLower lib.parseFloat output)

/-- The class `[0-9a-fA-F \n]` of the SMART block pattern. -/
def isSmartBlockChar (c : Char) : Bool := isHexChar c ∨ c = ' ' ∨ c = '\n'

/-- The part `.*? = \n([0-9a-fA-F \n]+)` of the SMART block pattern, matched at the start of
`rest`; the result is capture group 1.  The lazy `.*?` is extended one character at a time and
never over a newline; the group is the longest run of class characters and is not empty. -/
def captureSmartBlock : List Char → Option (List Char)
  | [] => none
  | c :: t =>
    match (dropLit? " = \n".data (c :: t)).map (fun r => r.takeWhile isSmartBlockChar) with
    | some (g :: gs) => some (g :: gs)
    | _ => if c = '\n' then none else captureSmartBlock t

/-- The text part of `getPerccliSmart`: capture group 1 of the leftmost match of
`Smart Data Info .*? = \n([0-9a-fA-F \n]+)` with its newlines removed, or the empty string. -/
def smartBlockOf (output : String) : String :=
  match findAfter "Smart Data Info ".data captureSmartBlock output.data with
  | some g => String.mk (g.filter (fun c => c ≠ '\n'))
  | none => ""

/-- The method `getPerccliSmart`. -/
def getPerccliSmart {σ F : Type} (run : Runner σ) (drivePath : String) : Cycle σ F String := do
  let cmd := "cd /opt/lsi/perccli && ./perccli " ++ drivePath ++ " show smart"
  match (← runCmd run cmd) with
  | none => pure ""
  | some output => pure (smartBlockOf output)

/-- The method `handleCommonController`. -/
def handleCommonController {σ F : Type} (lib : Lib F) (response : StrMap (JVal F)) :
    Cycle σ F Unit := do
  match asObj? (response.get? "Basics") with
  | none => pure ()
  | some basics =>
    let controllerIndex := GetString basics "Controller" "Unknown"
    let model := GetString basics "Model" "Unknown"
    let serial := GetString basics "Serial Number" "Unknown"
    let version ← orPanic (asObj? (response.get? "Version"))
    let fwversion := GetString version "Firmware Version" "Unknown"
    setGauge .controller_info
      [("controller", controllerIndex), ("model", model), ("serial", serial),
        ("fwversion", fwversion)] (lib.ofNat 1)
    match asObj? (response.get? "Status") with
    | some statusMap =>
      if isStr (statusMap.get? "Controller Status") "Optimal" then
        setGauge .controller_status [("controller", controllerIndex)] (lib.ofNat 1)
      else
        setGauge .controller_status [("controller", controllerIndex)] (lib.ofNat 0)
    | none => setGauge .controller_status [("controller", controllerIndex)] (lib.ofNat 0)
    match asObj? (response.get? "HwCfg") with
    | none => pure ()
    | some hwCfg =>
      match ["ROC temperature(Degree Celcius)", "ROC temperature(Degree Celsius)"].findSome?
          (fun key => hwCfg.get? key) with
      | none => pure ()
      | some temp =>
        let tempStr ← orPanic (asStr? (some temp))
        match lib.parseFloat tempStr with
        | some tempFloat =>
          setGauge .controller_temperature [("controller", controllerIndex)] tempFloat
        | none => pure ()

/-- The method `createMetricsOfPhysicalDrive`.  The SMART attributes are published in the order
of the association list; they go to different label sets, so the order does not show. -/
def createMetricsOfPhysicalDrive {σ F : Type} (lib : Lib F) (physicalDrive : StrMap (JVal F))
    (controllerIndex : String) (smartAttributes : StrMap Nat) : Cycle σ F Unit := do
  let eidSlt := GetString physicalDrive "EID:Slt" "0:0"
  let parts := splitFirst ':' eidSlt.data
  let enclosure := String.mk parts.1
  let slot ← orPanic (parts.2.map String.mk)
  let driveIdentifier := "Drive /c" ++ controllerIndex ++ "/e" ++ enclosure ++ "/s" ++ slot
  let state := GetString physicalDrive "State" "Unknown"
  let status := if state = "Onln" then lib.ofNat 1 else lib.ofNat 0
  let modelName := GetString physicalDrive "Model" "Unknown"
  let protocol := GetString physicalDrive "Intf" "Unknown"
  setGauge .drive_status
    [("controller", controllerIndex), ("drive", driveIdentifier), ("model_name", modelName),
      ("protocol", protocol)] status
  match physicalDrive.get? "Temp" with
  | none => pure ()
  | some temp =>
    let tempText ← orPanic (asStr? (some temp))
    let tempStr := String.mk (tempText.data.filter (fun c => c ≠ 'C'))
    match lib.parseFloat tempStr with
    | some tempFloat =>
      setGauge .drive_temp [("controller", controllerIndex), ("drive", driveIdentifier)]
        tempFloat
    | none => pure ()
  forEach (fun av : String × Nat =>
      setGauge .drive_smart
        [("controller", controllerIndex), ("drive", driveIdentifier), ("attribute", av.1)]
        (lib.ofNat av.2))
    smartAttributes

/-- The body of the loop over `PD LIST` in `handleMegaraidController` (source lines 463-473). -/
def handlePhysicalDrive {σ F : Type} (lib : Lib F) (run : Runner σ) (controllerIndex : String)
    (drive : JVal F) : Cycle σ F Unit := do
  match asObj? (some drive) with
  | none => pure ()
  | some driveMap =>
    let eidSlt := GetString driveMap "EID:Slt" "0:0"
    let parts := splitFirst ':' eidSlt.data
    let enclosure := String.mk parts.1
    let slot ← orPanic (parts.2.map String.mk)
    let drivePath := "/c" ++ controllerIndex ++ "/e" ++ enclosure ++ "/s" ++ slot
    let smartData ← getPerccliSmart run drivePath
    let smartAttributes := parseSmartData smartData
    createMetricsOfPhysicalDrive lib driveMap controllerIndex smartAttributes

/-- The body of the loop over `VD LIST` in `handleMegaraidController` (source lines 480-495). -/
def handleVirtualDrive {σ F : Type} (lib : Lib F) (controllerIndex : String) (vd : JVal F) :
    Cycle σ F Unit := do
  match asObj? (some vd) with
  | none => pure ()
  | some vdMap =>
    let vdPosition := GetString vdMap "DG/VD" "0/0"
    let parts := splitFirst '/' vdPosition.data
    let driveGroup := String.mk parts.1
    let volumeGroup ← orPanic (parts.2.map String.mk)
    let vdID := "DG" ++ driveGroup ++ "/VD" ++ volumeGroup
    let status := if GetString vdMap "State" "Unknown" = "Optl" then lib.ofNat 1 else lib.ofNat 0
    setGauge .virtual_drive_status [("controller", controllerIndex), ("vd", vdID)] status

/-- The method `handleMegaraidController`. -/
def handleMegaraidController {σ F : Type} (lib : Lib F) (run : Runner σ)
    (response : StrMap (JVal F)) : Cycle σ F Unit := do
  let basics ← orPanic (asObj? (response.get? "Basics"))
  let controllerIndex := GetString basics "Controller" "Unknown"
  match asArr? (response.get? "PD LIST") with
  | some pdList => forEach (handlePhysicalDrive lib run controllerIndex) pdList
  | none => pure ()
  match asArr? (response.get? "VD LIST") with
  | some vdList => forEach (handleVirtualDrive lib controllerIndex) vdList
  | none => pure ()
  let statusMap ← orPanic (asObj? (response.get? "Status"))
  match statusMap.get? "BBU Status" with
  | none => pure ()
  | some bbuStatus =>
    if isStr (some bbuStatus) "NA" then pure ()
    else
      let bbuText ← orPanic (asStr? (some bbuStatus))
      let bbuHealth :=
        match lib.parseFloat bbuText with
        | some bbuStatusFloat =>
          if lib.floatEq bbuStatusFloat (lib.ofNat 0) ∨ lib.floatEq bbuStatusFloat (lib.ofNat 8) ∨
              lib.floatEq bbuStatusFloat (lib.ofNat 4096) then lib.ofNat 1
          else lib.ofNat 0
        | none => lib.ofNat 0
      setGauge .bbu_health [("controller", controllerIndex)] bbuHealth

/-- The decision of `CollectMetrics` (source lines 332-359) from the outcome of the structured
command: the flag `perccliFailed` and the decoded `perccliData`.  The result `none` is the
panic of the assertion `commandStatus["Description"].(string)`. -/
def sourceDecision {F : Type} (lib : Lib F) (outcome : Option String) :
    Option (Bool × StrMap (JVal F)) :=
  match outcome with
  | none => some (true, [])
  | some stdout =>
    match lib.jsonUnmarshal stdout with
    | none => some (true, [])
    | some perccliData =>
      match asArr? (perccliData.get? "Controllers") with
      | none => some (true, perccliData)
      | some [] => some (true, perccliData)
      | some (first :: _) =>
        match asObj? (some first) with
        | none => some (false, perccliData)
        | some firstController =>
          match asObj? (firstController.get? "Command Status") with
          | none => some (false, perccliData)
          | some commandStatus =>
            if isStr (commandStatus.get? "Status") "Failure" then
              match asStr? (commandStatus.get? "Description") with
              | none => none
              | some description =>
                some (containsLit "No Controller found" description.data, perccliData)
            else some (false, perccliData)

/-- The body of the loop over the controllers on the primary path (source lines 364-374). -/
def handleController {σ F : Type} (lib : Lib F) (run : Runner σ) (controller : JVal F) :
    Cycle σ F Unit := do
  let controllerMap ← orPanic (asObj? (some controller))
  match asObj? (controllerMap.get? "Response Data") with
  | none => pure ()
  | some response =>
    handleCommonController lib response
    let version ← orPanic (asObj? (response.get? "Version"))
    let driverName := GetString version "Driver Name" "Unknown"
    if driverName = "megaraid_sas" ∨ driverName = "lsi-mr3" then
      handleMegaraidController lib run response
    else pure ()

/-- The body of the loop over the discovered devices on the fallback path (source lines
379-414). -/
def publishEsxcliDevice {σ F : Type} (lib : Lib F) (run : Runner σ) (device : StrMap String) :
    Cycle σ F Unit := do
  let deviceID := device.getStr "id"
  let displayName := device.getStr "display_name"
  let model := if device.getStr "model" = "" then "Unknown" else device.getStr "model"
  let protocol := if device.getStr "protocol" = "" then "Unknown" else device.getStr "protocol"
  setGauge .smartctl_drive
    [("host", host), ("drive", displayName), ("device_id", deviceID), ("model_name", model),
      ("protocol", protocol)] (lib.ofNat 1)
  setGauge .drive_status
    [("controller", "esxcli"), ("drive", displayName), ("model_name", model),
      ("protocol", protocol)] (lib.ofNat 1)
  let smartAttrs ← parseEsxcliSmart lib run deviceID
  forEach (fun av : String × F =>
      setGauge .drive_smart
        [("controller", "esxcli"), ("drive", displayName), ("attribute", av.1)] av.2)
    smartAttrs

/-- The primary path of `CollectMetrics` (source lines 362-374). -/
def primaryPath {σ F : Type} (lib : Lib F) (run : Runner σ) (perccliData : StrMap (JVal F)) :
    Cycle σ F Unit := do
  let controllers ← orPanic (asArr? (perccliData.get? "Controllers"))
  forEach (handleController lib run) controllers

/-- The fallback path of `CollectMetrics` (source lines 376-414). -/
def fallbackPath {σ F : Type} (lib : Lib F) (run : Runner σ) : Cycle σ F Unit := do
  setGauge .smartctl_info [("host", host)] (lib.ofNat 1)
  let esxcliDevices ← discoverEsxcliDevices lib run
  forEach (publishEsxcliDevice lib run) esxcliDevices

/-- The method `CollectMetrics`: one collection cycle. -/
def CollectMetrics {σ F : Type} (lib : Lib F) (run : Runner σ) : Cycle σ F Unit := do
  resetMetrics
  let outcome ← runCmd run perccliCmd
  let decision ← orPanic (sourceDecision lib outcome)
  if decision.1 = false then primaryPath lib run decision.2
  else fallbackPath lib run

/-! ## Notions used in the statements and proofs -/

/-- The assignments of a whole stream of records, in order. -/
def emitAll (rs : List (List Nat)) (m : StrMap Nat) : StrMap Nat :=
  rs.foldl (fun acc r => emitRecord acc (r.getD 0 0) (r.getD 3 0) (r.drop 5)) m

/-- The invariant of the scan behind the wear-levelling pair: the `_raw` key is present exactly
when the `_value` key is, and the bare name is absent. -/
def WearPaired (m : StrMap Nat) : Prop :=
  ((m.get? "wear_leveling_count_raw").isSome ↔ (m.get? "wear_leveling_count_value").isSome) ∧
    m.get? "wear_leveling_count" = none

/-- The digit `d` of the lowercase hexadecimal notation. -/
def lowerHexDigit (d : Nat) : Char := "0123456789abcdef".data.getD d '0'

/-- The lowercase hexadecimal notation, without leading zeros, of an id in `1..255`. -/
def lowerHexOfId (k : Nat) : String :=
  String.mk (if k < 16 then [lowerHexDigit k] else [lowerHexDigit (k / 16), lowerHexDigit (k % 16)])

/-- An identifier as the scanner records it: the trimmed form of a line of `L`, made of one of
the three prefixes and one or more characters outside `\s`. -/
def GoodId (L : List (List Char)) (i : String) : Prop :=
  i ≠ "" ∧ (∃ line ∈ L, i.data = trimSpace line) ∧
    ∃ p ∈ ["naa.", "t10.", "mpx."], ∃ rest : List Char,
      i.data = p.data ++ rest ∧ rest ≠ [] ∧ ∀ c ∈ rest, reSpace c = false

/-- A complete device record. -/
def GoodDevice (L : List (List Char)) (d : StrMap String) : Prop :=
  ∃ i n mo pr : String,
    d = [("id", i), ("display_name", n), ("model", mo), ("protocol", pr)] ∧ GoodId L i ∧ n ≠ ""

/-- The invariant of the scan: every emitted device is complete, and a started record carries a
well-formed identifier. -/
def ScanInv (L : List (List Char)) (st : List (StrMap String) × StrMap String) : Prop :=
  (∀ d ∈ st.1, GoodDevice L d) ∧ (st.2 = [] ∨ GoodId L (st.2.getStr "id"))

/-- A listing with one incomplete record (`t10.x`, no display name) between two complete
ones. -/
def sampleListing : String :=
  "naa.1\n  Display Name: Disk A (naa.1)\nt10.x\n  naa.2  \n Display Name: Disk B\n Model: M"

/-- A text without white space at either end. -/
def Trimmed (core : List Char) : Prop :=
  core.dropWhile goIsSpace = core ∧ core.reverse.dropWhile goIsSpace = core.reverse

/-- The display name a record holds after the lines `body` have been read, when it held
`start` before: each line that matches the display-name pattern replaces it by the cleaned
capture group. -/
def displayNameAfter (start : String) (body : List (List Char)) : String :=
  body.foldl
    (fun dn l =>
      match fieldSubmatch "Display Name:" (trimSpace l) with
      | some g => String.mk (stripParenSuffix (trimSpace g))
      | none => dn)
    start

/-- Whether the scanner takes a line for an identifier line. -/
def isIdLine (l : List Char) : Bool := deviceRegexMatch (trimSpace l)

/-- The ids the listing should yield, read off block by block: an identifier line opens a
block that runs up to the next identifier line or the end of the input, and its (trimmed)
identifier is listed exactly when the record holds a non-empty display name at the end of the
block. -/
def expectedIds : List (List Char) → List String
  | [] => []
  | l :: rest =>
    if isIdLine l then
      (if displayNameAfter "" (rest.takeWhile (fun x => !isIdLine x)) ≠ ""
        then [String.mk (trimSpace l)] else []) ++ expectedIds rest
    else expectedIds rest

/-- The ids of a sequence of devices. -/
def deviceIds (devs : List (StrMap String)) : List String := devs.map (fun d => d.getStr "id")

/-- The devices found from a scanner state onwards. -/
def scanFrom (lower : Char → Char) (st : List (StrMap String) × StrMap String)
    (ls : List (List Char)) : List (StrMap String) :=
  flushDevice (ls.foldl (scanLine lower) st).1 (ls.foldl (scanLine lower) st).2

/-- A step that neither writes the gauge `smartctl_info` nor runs the discovery command: the
children of `smartctl_info` are as before, and the commands it ran, appended to the record of
calls, do not include the discovery command. -/
def Avoids {σ F α : Type} (m : Cycle σ F α) : Prop :=
  ∀ w : World σ F,
    (∀ labels, (m w).2.sink.get? .smartctl_info labels = w.sink.get? .smartctl_info labels) ∧
      ∃ extra, (m w).2.calls = w.calls ++ extra ∧ discoveryCmd ∉ extra

/-- A step that never panics. -/
def Total {σ F α : Type} (m : Cycle σ F α) : Prop := ∀ w : World σ F, ∃ a, (m w).1 = some a

/-- The structured source is unusable, in the words of the specification: the command failed,
or its output could not be decoded, or the decoded object has no list under `Controllers`, or
that list is empty, or its first entry has a `Command Status` whose `Status` is `Failure` and
whose `Description` contains `No Controller found`. -/
def SourceUnusable {F : Type} (lib : Lib F) (outcome : Option String) : Prop :=
  outcome = none ∨
    ∃ stdout, outcome = some stdout ∧
      (lib.jsonUnmarshal stdout = none ∨
        ∃ data, lib.jsonUnmarshal stdout = some data ∧
          ((∀ items, data.get? "Controllers" ≠ some (.arr items)) ∨
            data.get? "Controllers" = some (.arr []) ∨
            ∃ (fc cs : StrMap (JVal F)) (rest : List (JVal F)) (d : String),
              data.get? "Controllers" = some (.arr (.obj fc :: rest)) ∧
                fc.get? "Command Status" = some (.obj cs) ∧
                cs.get? "Status" = some (.str "Failure") ∧
                cs.get? "Description" = some (.str d) ∧
                "No Controller found".data <:+: d.data))

/-- The structured source is usable: the command succeeded, its output was decoded, the list
under `Controllers` is not empty, and its first entry has no failing `Command Status` (if it is
an object with a `Command Status` object, the `Status` there is not `Failure`). -/
def SourceUsable {F : Type} (lib : Lib F) (outcome : Option String) : Prop :=
  ∃ stdout data first rest,
    outcome = some stdout ∧ lib.jsonUnmarshal stdout = some data ∧
      data.get? "Controllers" = some (.arr (first :: rest)) ∧
      ∀ fc cs : StrMap (JVal F), first = .obj fc → fc.get? "Command Status" = some (.obj cs) →
        cs.get? "Status" ≠ some (.str "Failure")

/-- A sample library: `float64` values are natural numbers, and two texts decode as JSON, one to
a `No Controller found` failure and one to a single optimal controller. -/
def sampleLib : Lib Nat where
  unicodeLower := fun c => c
  parseFloat := fun s => s.toNat?
  ofNat := fun n => n
  floatEq := fun a b => a == b
  jsonUnmarshal := fun s =>
    if s = "no-controller" then
      some [("Controllers", .arr [.obj [("Command Status",
        .obj [("Status", .str "Failure"), ("Description", .str "No Controller found")])]])]
    else if s = "one-controller" then
      some [("Controllers", .arr [.obj [
        ("Command Status", .obj [("Status", .str "Success")]),
        ("Response Data", .obj [
          ("Basics", .obj [("Controller", .str "0"), ("Model", .str "PERC H730")]),
          ("Version", .obj [("Driver Name", .str "lsi-mr3")]),
          ("Status", .obj [("Controller Status", .str "Optimal")])])]])]
    else none

/-- A sample runner on a machine whose state says whether a controller is present. -/
def sampleRun : Runner Bool := fun command present =>
  (if command = perccliCmd then some (if present then "one-controller" else "no-controller")
    else if command = discoveryCmd then some sampleListing
    else none, present)

/-! ## Notions used for the tabular parser and the controller handlers -/

/-- A sample `ParseFloat`: a non-empty text of decimal digits is the natural number it writes;
every other text is an error. -/
def parseDigits (s : String) : Option Nat :=
  if s.data ≠ [] ∧ s.data.all Char.isDigit then
    some (s.data.foldl (fun n c => 10 * n + (c.toNat - 48)) 0)
  else none

/-- A table whose single row names `Wear_Leveling_Count`, has ten tokens and a numeric last
token, but whose fourth token is not a number. -/
def wearRowBadValue : String :=
  "ID# ATTRIBUTE_NAME FLAG VALUE WORST THRESH TYPE UPDATED WHEN_FAILED RAW_VALUE\n" ++
    "177 Wear_Leveling_Count 0x0013 --- 099 000 Pre-fail Always - 5"

/-- A table with a `Power_On_Hours` row and a `Wear_Leveling_Count` row. -/
def sampleTable : String :=
  "ID# ATTRIBUTE_NAME FLAG VALUE WORST THRESH TYPE UPDATED WHEN_FAILED RAW_VALUE\n" ++
    "  9 Power_On_Hours 0x0032 099 099 000 Old_age Always - 1234\n" ++
    "177 Wear_Leveling_Count 0x0013 098 098 000 Pre-fail Always - 5\n"

/-- The value `handleCommonController` gives to `controller_status`: 1 when the `Status` group
is an object whose `Controller Status` is the string `Optimal`, else 0. -/
def controllerStatusValue {F : Type} (lib : Lib F) (response : StrMap (JVal F)) : F :=
  match asObj? (response.get? "Status") with
  | some statusMap =>
    if isStr (statusMap.get? "Controller Status") "Optimal" then lib.ofNat 1 else lib.ofNat 0
  | none => lib.ofNat 0

/-- The last part of `handleCommonController` (source lines 443-453): the temperature. -/
def controllerTemperatureStep {σ F : Type} (lib : Lib F) (response : StrMap (JVal F))
    (controllerIndex : String) : Cycle σ F Unit :=
  match asObj? (response.get? "HwCfg") with
  | none => pure ()
  | some hwCfg =>
    match ["ROC temperature(Degree Celcius)", "ROC temperature(Degree Celsius)"].findSome?
        (fun key => hwCfg.get? key) with
    | none => pure ()
    | some temp => do
      let tempStr ← orPanic (asStr? (some temp))
      match lib.parseFloat tempStr with
      | some tempFloat =>
        setGauge .controller_temperature [("controller", controllerIndex)] tempFloat
      | none => pure ()

/-- A relation between the world before a step and the world after it holds for every start. -/
def Steps {σ F α : Type} (R : World σ F → World σ F → Prop) (m : Cycle σ F α) : Prop :=
  ∀ w, R w (m w).2

/-- The step ran no command and wrote no gauge outside `gs`. -/
def Frame {σ F : Type} (gs : List Gauge) (w w1 : World σ F) : Prop :=
  w1.calls = w.calls ∧ ∀ g labels, g ∉ gs → w1.sink.get? g labels = w.sink.get? g labels

/-- A response for an allow-listed controller with three physical drives; the second has an
`EID:Slt` without a colon. -/
def badSlotResponse : StrMap (JVal Nat) :=
  [("Basics", .obj [("Controller", .str "0")]),
    ("Version", .obj [("Driver Name", .str "megaraid_sas")]),
    ("Status", .obj [("Controller Status", .str "Optimal")]),
    ("PD LIST", .arr [
      .obj [("EID:Slt", .str "32:0"), ("State", .str "Onln")],
      .obj [("EID:Slt", .str "32"), ("State", .str "Onln")],
      .obj [("EID:Slt", .str "32:1"), ("State", .str "Onln")]])]

/-- A response for a controller with another driver, with a physical drive, a virtual drive
and a battery status. -/
def gatedResponse : StrMap (JVal Nat) :=
  [("Basics", .obj [("Controller", .str "1")]),
    ("Version", .obj [("Driver Name", .str "mpt3sas")]),
    ("Status", .obj [("Controller Status", .str "Optimal"), ("BBU Status", .str "0")]),
    ("PD LIST", .arr [.obj [("EID:Slt", .str "32:0"), ("State", .str "Onln")]]),
    ("VD LIST", .arr [.obj [("DG/VD", .str "0/0"), ("State", .str "Optl")]])]

/-- A response for one optimal controller without drives, battery or temperature. -/
def plainResponse : StrMap (JVal Nat) :=
  [("Basics", .obj [("Controller", .str "0"), ("Model", .str "PERC H730"),
      ("Serial Number", .str "SN1")]),
    ("Version", .obj [("Firmware Version", .str "25.5"), ("Driver Name", .str "lsi-mr3")]),
    ("Status", .obj [("Controller Status", .str "Optimal")])]

/-- A sample library whose number parser is `parseDigits` and whose JSON decoder knows four
texts. -/
def fixtureLib : Lib Nat where
  unicodeLower := fun c => c
  parseFloat := parseDigits
  ofNat := fun n => n
  floatEq := fun a b => a == b
  jsonUnmarshal := fun s =>
    if s = "plain" then some [("Controllers", .arr [.obj [("Response Data", .obj plainResponse)]])]
    else if s = "no-controller-with-data" then
      some [("Controllers", .arr [.obj [
        ("Command Status",
          .obj [("Status", .str "Failure"), ("Description", .str "No Controller found")]),
        ("Response Data", .obj plainResponse)]])]
    else if s = "bad-slot" then
      some [("Controllers", .arr [.obj [("Response Data", .obj badSlotResponse)]])]
    else if s = "gated" then
      some [("Controllers", .arr [.obj [("Response Data", .obj gatedResponse)]])]
    else none

/-- A sample runner: the machine state is the text the structured command prints; the discovery
command prints `sampleListing`; every other command fails. -/
def fixtureRun : Runner String := fun command st =>
  (if command = perccliCmd then some st
    else if command = discoveryCmd then some sampleListing
    else none, st)

/-- The last part of the loop body on the fallback path (source lines 402-413): the SMART
attributes of one device. -/
def publishSmartStep {σ F : Type} (lib : Lib F) (run : Runner σ) (deviceID displayName : String) :
    Cycle σ F Unit := do
  let smartAttrs ← parseEsxcliSmart lib run deviceID
  forEach (fun av : String × F =>
      setGauge .drive_smart
        [("controller", "esxcli"), ("drive", displayName), ("attribute", av.1)] av.2)
    smartAttrs

/-- A child that holds the value 1 still holds it after the step. -/
def KeepsOne {σ F : Type} (lib : Lib F) (g : Gauge) (labels : List (String × String))
    (w w1 : World σ F) : Prop :=
  w.sink.get? g labels = some (lib.ofNat 1) → w1.sink.get? g labels = some (lib.ofNat 1)

/-- The first entry of the `Controllers` list reports that there is no controller: it is an
object with a `Command Status` object whose `Status` is `Failure` and whose `Description`, if
it is a string at all, contains `No Controller found`. -/
def ReportsNoController {F : Type} (first : JVal F) : Prop :=
  ∃ fc cs : StrMap (JVal F), first = .obj fc ∧ fc.get? "Command Status" = some (.obj cs) ∧
    cs.get? "Status" = some (.str "Failure") ∧
    ∀ d, cs.get? "Description" = some (.str d) → "No Controller found".data <:+: d.data

/-- The body of the loop over the controllers once `Response Data` is at hand (source lines
369-373). -/
def handleResponse {σ F : Type} (lib : Lib F) (run : Runner σ) (response : StrMap (JVal F)) :
    Cycle σ F Unit := do
  handleCommonController lib response
  let version ← orPanic (asObj? (response.get? "Version"))
  let driverName := GetString version "Driver Name" "Unknown"
  if driverName = "megaraid_sas" ∨ driverName = "lsi-mr3" then
    handleMegaraidController lib run response
  else pure ()

/-- The driver named in a `Version` group is not on the allow-list: the `Driver Name` field is
missing, or is not a string, or is a string other than `megaraid_sas` and `lsi-mr3`. -/
def DriverGated {F : Type} (version : StrMap (JVal F)) : Prop :=
  ∀ s, version.get? "Driver Name" = some (.str s) → s ≠ "megaraid_sas" ∧ s ≠ "lsi-mr3"

/-- A controller entry whose driver is not on the allow-list: an object whose `Response Data`,
if it has a `Version` group, names a gated driver there. -/
def ControllerGated {F : Type} (controller : JVal F) : Prop :=
  ∃ cm : StrMap (JVal F), controller = .obj cm ∧
    ∀ response version : StrMap (JVal F), cm.get? "Response Data" = some (.obj response) →
      response.get? "Version" = some (.obj version) → DriverGated version

/-- The keys the scan loop assigns for a record with id `attrID` (source lines 181-190): the
`_raw` and `_value` keys for `0xB1`, the name of the id otherwise. -/
def recordKeys (attrID : Nat) : List String :=
  if attrID = 0xB1 then [attrName attrID ++ "_raw", attrName attrID ++ "_value"]
  else [attrName attrID]

/-- The id read back from a name: the id of the table entry with that name, or else the
number written in hexadecimal after the first eight characters (`unknown_`). -/
def idOfName (name : String) : Nat :=
  match attrNameMap.find? (fun entry => entry.2 = name) with
  | some entry => entry.1
  | none => (name.data.drop 8).foldl (fun n c => 16 * n + hexVal c) 0

/-! # Theorems -/

/-! ## Lemmas on maps -/

theorem strMap_get_set {α : Type} (m : StrMap α) (k k' : String) (v : α) :
    (m.set k v).get? k' = if k = k' then some v else m.get? k' := by
  induction m with
  | nil => simp [StrMap.set, StrMap.get?]
  | cons x t ih =>
    obtain ⟨a, b⟩ := x
    simp only [StrMap.set]
    split_ifs with h1 h2 h2
    · simp [StrMap.get?, h2]
    · simp [StrMap.get?, h1, h2]
    · subst h2
      simp [StrMap.get?, h1, ih]
    · simp only [StrMap.get?, ih, if_neg h2]

/-! ## Lemmas on the hex text of a byte sequence -/

theorem digitChar_isHexChar : ∀ d, d < 16 → isHexChar (Nat.digitChar d) = true := by
  decide

theorem hexVal_digitChar : ∀ d, d < 16 → hexVal (Nat.digitChar d) = d := by
  decide

theorem hexOf_filter (bs : List Nat) (hb : ∀ b ∈ bs, b < 256) :
    (bs.flatMap hexOfByte).filter isHexChar = bs.flatMap hexOfByte := by
  rw [List.filter_eq_self]
  intro c hc
  rw [List.mem_flatMap] at hc
  obtain ⟨b, hbm, hc⟩ := hc
  have hlt := hb b hbm
  simp only [hexOfByte, List.mem_cons, List.mem_singleton, List.not_mem_nil, or_false] at hc
  rcases hc with rfl | rfl
  · exact digitChar_isHexChar _ (by omega)
  · exact digitChar_isHexChar _ (Nat.mod_lt _ (by decide))

theorem hexPairs_hexOfByte_append (b : Nat) (rest : List Char) :
    hexPairs (hexOfByte b ++ rest) =
      (16 * hexVal (Nat.digitChar (b / 16)) + hexVal (Nat.digitChar (b % 16))) ::
        hexPairs rest := rfl

theorem hexPairs_hexOf (bs : List Nat) (hb : ∀ b ∈ bs, b < 256) :
    hexPairs (bs.flatMap hexOfByte) = bs := by
  induction bs with
  | nil => rfl
  | cons b t ih =>
    have hlt : b < 256 := hb b (List.mem_cons_self _ _)
    have ht : ∀ x ∈ t, x < 256 := fun x hx => hb x (List.mem_cons_of_mem _ hx)
    rw [List.flatMap_cons, hexPairs_hexOfByte_append, ih ht,
      hexVal_digitChar _ (by omega), hexVal_digitChar _ (Nat.mod_lt _ (by decide))]
    congr 1
    omega

/-- The decoder reads back the bytes that `hexOf` wrote. -/
theorem byteArrayOf_hexOf (bs : List Nat) (hb : ∀ b ∈ bs, b < 256) :
    byteArrayOf (hexOf bs) = bs := by
  simp only [byteArrayOf, hexOf]
  rw [hexOf_filter bs hb, hexPairs_hexOf bs hb]

/-! ## Lemmas on the scan loop -/

theorem scanRecords_short (l : List Nat) (m : StrMap Nat) (h : l.length < 11) :
    scanRecords l m = m := by
  unfold scanRecords
  split
  · simp only [List.length_cons] at h
    omega
  · rfl

theorem scanRecords_skip (b : Nat) (l : List Nat) (m : StrMap Nat)
    (h : ¬ (1 ≤ b ∧ b ≤ 255)) : scanRecords (b :: l) m = scanRecords l m := by
  by_cases hl : l.length < 10
  · rw [scanRecords_short _ _ (by simp; omega), scanRecords_short _ _ (by omega)]
  · obtain ⟨b1, b2, b3, b4, b5, b6, b7, b8, b9, b10, rest, rfl⟩ :
        ∃ b1 b2 b3 b4 b5 b6 b7 b8 b9 b10 rest,
          l = b1 :: b2 :: b3 :: b4 :: b5 :: b6 :: b7 :: b8 :: b9 :: b10 :: rest := by
      match l, hl with
      | b1 :: b2 :: b3 :: b4 :: b5 :: b6 :: b7 :: b8 :: b9 :: b10 :: rest, _ =>
        exact ⟨b1, b2, b3, b4, b5, b6, b7, b8, b9, b10, rest, rfl⟩
      | [], h => simp at h
      | [_], h => simp at h
      | [_, _], h => simp at h
      | [_, _, _], h => simp at h
      | [_, _, _, _], h => simp at h
      | [_, _, _, _, _], h => simp at h
      | [_, _, _, _, _, _], h => simp at h
      | [_, _, _, _, _, _, _], h => simp at h
      | [_, _, _, _, _, _, _, _], h => simp at h
      | [_, _, _, _, _, _, _, _, _], h => simp at h
    rw [scanRecords]
    simp [h]

theorem eleven_bytes (r : List Nat) (h : r.length = 11) :
    ∃ b0 b1 b2 b3 b4 b5 b6 b7 b8 b9 b10, r = [b0, b1, b2, b3, b4, b5, b6, b7, b8, b9, b10] := by
  match r, h with
  | [b0, b1, b2, b3, b4, b5, b6, b7, b8, b9, b10], _ =>
    exact ⟨b0, b1, b2, b3, b4, b5, b6, b7, b8, b9, b10, rfl⟩
  | [], h => simp at h
  | [_], h => simp at h
  | [_, _], h => simp at h
  | [_, _, _], h => simp at h
  | [_, _, _, _], h => simp at h
  | [_, _, _, _, _], h => simp at h
  | [_, _, _, _, _, _], h => simp at h
  | [_, _, _, _, _, _, _], h => simp at h
  | [_, _, _, _, _, _, _, _], h => simp at h
  | [_, _, _, _, _, _, _, _, _], h => simp at h
  | [_, _, _, _, _, _, _, _, _, _], h => simp at h
  | _ :: _ :: _ :: _ :: _ :: _ :: _ :: _ :: _ :: _ :: _ :: _ :: _, h => simp at h

theorem scanRecords_record (r X : List Nat) (m : StrMap Nat) (hlen : r.length = 11)
    (hid : 1 ≤ r.headD 0 ∧ r.headD 0 ≤ 255) :
    scanRecords (r ++ X) m = scanRecords X (emitRecord m (r.getD 0 0) (r.getD 3 0) (r.drop 5)) := by
  obtain ⟨b0, b1, b2, b3, b4, b5, b6, b7, b8, b9, b10, rfl⟩ := eleven_bytes r hlen
  simp only [List.headD_cons] at hid
  simp only [List.cons_append, List.nil_append]
  rw [scanRecords]
  simp [hid]

theorem scanRecords_stream (rs : List (List Nat)) (X : List Nat) (m : StrMap Nat)
    (hrec : ∀ r ∈ rs, r.length = 11 ∧ r.headD 0 ≠ 0) (hb : ∀ b ∈ rs.flatten, b < 256) :
    scanRecords (rs.flatten ++ X) m = scanRecords X (emitAll rs m) := by
  induction rs generalizing m with
  | nil => rfl
  | cons r t ih =>
    obtain ⟨hlen, hne⟩ := hrec r (List.mem_cons_self _ _)
    have hhead : r.headD 0 < 256 := by
      obtain ⟨b0, b1, b2, b3, b4, b5, b6, b7, b8, b9, b10, rfl⟩ := eleven_bytes r hlen
      exact hb b0 (by simp)
    rw [List.flatten_cons, List.append_assoc,
      scanRecords_record r _ m hlen ⟨by omega, by omega⟩,
      ih _ (fun x hx => hrec x (List.mem_cons_of_mem _ hx))
        (fun b hbm => hb b (by simp only [List.flatten_cons, List.mem_append]; exact Or.inr hbm))]
    rfl

theorem startIndex_of_header (b : Nat) (bs : List Nat) (h : b = 0x01 ∨ b = 0x2f) :
    startIndex (b :: 0 :: bs) = 2 := by
  rcases h with rfl | rfl <;> rfl

theorem startIndex_of_no_header (bs : List Nat)
    (h : ¬ ([0x01, 0x00] <+: bs ∨ [0x2f, 0x00] <+: bs)) : startIndex bs = 0 := by
  match bs with
  | [] => rfl
  | [_] => rfl
  | b0 :: b1 :: t =>
    simp only [startIndex]
    split_ifs with hc
    · exfalso
      apply h
      rcases hc with ⟨rfl, rfl⟩ | ⟨rfl, rfl⟩
      · exact Or.inl ⟨t, rfl⟩
      · exact Or.inr ⟨t, rfl⟩
    · rfl

/-- Decoding the hex text of a headerless byte sequence scans it from its first byte. -/
theorem parseSmartData_no_header (bs : List Nat) (hb : ∀ b ∈ bs, b < 256)
    (h : ¬ ([0x01, 0x00] <+: bs ∨ [0x2f, 0x00] <+: bs)) :
    parseSmartData (hexOf bs) = scanRecords bs [] := by
  simp only [parseSmartData, byteArrayOf_hexOf bs hb, startIndex_of_no_header bs h, List.drop_zero]

/-- Decoding the hex text of a header followed by `bs` scans `bs` from its first byte. -/
theorem parseSmartData_with_header (b : Nat) (bs : List Nat) (hb : ∀ x ∈ bs, x < 256)
    (h : b = 0x01 ∨ b = 0x2f) :
    parseSmartData (hexOf (b :: 0 :: bs)) = scanRecords bs [] := by
  have hall : ∀ x ∈ b :: 0 :: bs, x < 256 := by
    intro x hx
    simp only [List.mem_cons] at hx
    rcases hx with rfl | rfl | hx
    · rcases h with rfl | rfl <;> decide
    · decide
    · exact hb x hx
  simp only [parseSmartData, byteArrayOf_hexOf _ hall, startIndex_of_header b bs h]
  rfl

/-- C3 (header skip).  For every byte sequence `bs` that does not itself begin with `01 00` or
`2F 00`, decoding the hex text of `01 00 ++ bs` and of `2F 00 ++ bs` gives exactly the attribute
map of decoding the hex text of `bs`, and that map is the result of scanning `bs` from its first
byte: the two header bytes are never read as an attribute id. -/
theorem parseSmartData_header_skip (bs : List Nat) (hb : ∀ b ∈ bs, b < 256)
    (h : ¬ ([0x01, 0x00] <+: bs ∨ [0x2f, 0x00] <+: bs)) :
    parseSmartData (hexOf ([0x01, 0x00] ++ bs)) = parseSmartData (hexOf bs) ∧
      parseSmartData (hexOf ([0x2f, 0x00] ++ bs)) = parseSmartData (hexOf bs) ∧
      parseSmartData (hexOf ([0x01, 0x00] ++ bs)) = scanRecords bs [] := by
  rw [parseSmartData_no_header bs hb h]
  exact ⟨parseSmartData_with_header 1 bs hb (Or.inl rfl),
    parseSmartData_with_header 0x2f bs hb (Or.inr rfl),
    parseSmartData_with_header 1 bs hb (Or.inl rfl)⟩

/-- C3, at a stream holding one `power_on_hours` record: with either header in front the
record is decoded as without it, and no `raw_read_error_rate` entry appears. -/
theorem parseSmartData_header_skip_witness :
    (∀ b ∈ [0x09, 0, 0, 100, 0, 0x10, 0x27, 0, 0, 0, 0], b < 256) ∧
      ¬ ([0x01, 0x00] <+: [0x09, 0, 0, 100, 0, 0x10, 0x27, 0, 0, 0, 0] ∨
          [0x2f, 0x00] <+: [0x09, 0, 0, 100, 0, 0x10, 0x27, 0, 0, 0, 0]) ∧
      parseSmartData (hexOf ([0x01, 0x00] ++ [0x09, 0, 0, 100, 0, 0x10, 0x27, 0, 0, 0, 0])) =
        [("power_on_hours", 10000)] ∧
      (parseSmartData (hexOf ([0x01, 0x00] ++ [0x09, 0, 0, 100, 0, 0x10, 0x27, 0, 0, 0, 0]))).get?
        "raw_read_error_rate" = none :=
  ⟨by decide, by decide,
    (parseSmartData_header_skip [0x09, 0, 0, 100, 0, 0x10, 0x27, 0, 0, 0, 0] (by decide)
      (by decide)).1.trans (by decide),
    by
      rw [(parseSmartData_header_skip [0x09, 0, 0, 100, 0, 0x10, 0x27, 0, 0, 0, 0] (by decide)
        (by decide)).1]
      decide⟩

theorem no_header_insert_zero (rs : List (List Nat)) (B : List Nat)
    (hrec : ∀ r ∈ rs, r.length = 11 ∧ r.headD 0 ≠ 0)
    (h : ¬ ([0x01, 0x00] <+: rs.flatten ++ B ∨ [0x2f, 0x00] <+: rs.flatten ++ B)) :
    ¬ ([0x01, 0x00] <+: rs.flatten ++ [0] ++ B ∨ [0x2f, 0x00] <+: rs.flatten ++ [0] ++ B) := by
  match rs with
  | [] =>
    simp only [List.flatten_nil, List.nil_append, List.singleton_append]
    rintro (⟨t, ht⟩ | ⟨t, ht⟩) <;> simp at ht
  | r :: t =>
    obtain ⟨b0, b1, b2, b3, b4, b5, b6, b7, b8, b9, b10, rfl⟩ :=
      eleven_bytes r (hrec r (List.mem_cons_self _ _)).1
    intro hc
    apply h
    simp only [List.flatten_cons, List.cons_append, List.nil_append, List.cons_prefix_cons,
      List.nil_prefix, and_true] at hc ⊢
    exact hc

/-- C4 (single-byte resynchronisation).  Let `A` be the concatenation of the complete 11-byte
records `rs`, each with a non-zero id byte, and `B` any byte sequence, such that `A ++ B` does
not begin with `01 00` or `2F 00`.  Then decoding `A ++ [00] ++ B` gives the same attribute map
as decoding `A ++ B`: the zero byte at the id position costs one byte of the scan, and all the
records after it are decoded as if it were not there. -/
theorem parseSmartData_resync (rs : List (List Nat)) (B : List Nat)
    (hrec : ∀ r ∈ rs, r.length = 11 ∧ r.headD 0 ≠ 0)
    (hb : ∀ b ∈ rs.flatten ++ B, b < 256)
    (h : ¬ ([0x01, 0x00] <+: rs.flatten ++ B ∨ [0x2f, 0x00] <+: rs.flatten ++ B)) :
    parseSmartData (hexOf (rs.flatten ++ [0] ++ B)) = parseSmartData (hexOf (rs.flatten ++ B)) := by
  have hbA : ∀ b ∈ rs.flatten, b < 256 := fun b hm => hb b (List.mem_append_left _ hm)
  have hb0 : ∀ b ∈ rs.flatten ++ [0] ++ B, b < 256 := by
    intro b hm
    simp only [List.mem_append, List.mem_singleton] at hm
    rcases hm with (hm | rfl) | hm
    · exact hbA b hm
    · decide
    · exact hb b (List.mem_append_right _ hm)
  rw [parseSmartData_no_header _ hb0 (no_header_insert_zero rs B hrec h),
    parseSmartData_no_header _ hb h, List.append_assoc,
    scanRecords_stream rs _ _ hrec hbA, scanRecords_stream rs _ _ hrec hbA,
    List.singleton_append, scanRecords_skip 0 B _ (by omega)]

/-- C4, at a stream with one record before and one record after the inserted zero byte: both
records are decoded. -/
theorem parseSmartData_resync_witness :
    (∀ r ∈ [[0x09, 0, 0, 100, 0, 0x10, 0x27, 0, 0, 0, 0]], r.length = 11 ∧ r.headD 0 ≠ 0) ∧
      parseSmartData (hexOf ([[0x09, 0, 0, 100, 0, 0x10, 0x27, 0, 0, 0, 0]].flatten ++ [0] ++
        [0x0C, 0, 0, 100, 0, 7, 0, 0, 0, 0, 0])) =
        [("power_on_hours", 10000), ("power_cycle_count", 7)] :=
  ⟨by decide,
    (parseSmartData_resync [[0x09, 0, 0, 100, 0, 0x10, 0x27, 0, 0, 0, 0]]
      [0x0C, 0, 0, 100, 0, 7, 0, 0, 0, 0, 0] (by decide) (by decide) (by decide)).trans
      (by decide)⟩

/-- C5 (temperature quirk).  Let `A` be the concatenation of the complete 11-byte records `rs`
with non-zero ids, followed by one more record with id `0xC2` whose six raw bytes are
`v, r6, r7, r8, r9, r10`, the whole stream not beginning with `01 00` or `2F 00`.  Then the
decoded map sends `temperature_celsius` to the first raw byte `v`, a value of at most 255,
whatever the other five raw bytes are. -/
theorem parseSmartData_temperature (rs : List (List Nat))
    (b1 b2 b3 b4 v r6 r7 r8 r9 r10 : Nat)
    (hrec : ∀ r ∈ rs, r.length = 11 ∧ r.headD 0 ≠ 0)
    (hb : ∀ b ∈ rs.flatten ++ [0xC2, b1, b2, b3, b4, v, r6, r7, r8, r9, r10], b < 256)
    (h : ¬ ([0x01, 0x00] <+: rs.flatten ++ [0xC2, b1, b2, b3, b4, v, r6, r7, r8, r9, r10] ∨
        [0x2f, 0x00] <+: rs.flatten ++ [0xC2, b1, b2, b3, b4, v, r6, r7, r8, r9, r10])) :
    (parseSmartData (hexOf (rs.flatten ++ [0xC2, b1, b2, b3, b4, v, r6, r7, r8, r9, r10]))).get?
        "temperature_celsius" = some v ∧ v ≤ 255 := by
  have hbA : ∀ b ∈ rs.flatten, b < 256 := fun b hm => hb b (List.mem_append_left _ hm)
  have hv : v < 256 := hb v (by simp)
  refine ⟨?_, by omega⟩
  rw [parseSmartData_no_header _ hb h, scanRecords_stream rs _ _ hrec hbA, scanRecords]
  have hname : attrName 0xC2 = "temperature_celsius" := by decide
  simp only [emitRecord, hname, scanRecords]
  simp [strMap_get_set]

/-- C5, at the two examples of the claim: raw bytes `28 00 00 00 00 00` and raw bytes
`28 01 00 00 00 00` both give 40 (the 48-bit value of the second would be 296). -/
theorem parseSmartData_temperature_witness :
    (parseSmartData (hexOf ([].flatten ++ [0xC2, 0, 0, 100, 0, 0x28, 0, 0, 0, 0, 0]))).get?
        "temperature_celsius" = some 40 ∧
      (parseSmartData (hexOf ([[0x09, 0, 0, 100, 0, 0x10, 0x27, 0, 0, 0, 0]].flatten ++
        [0xC2, 0, 0, 100, 0, 0x28, 0x01, 0, 0, 0, 0]))).get? "temperature_celsius" = some 40 :=
  ⟨(parseSmartData_temperature [] 0 0 100 0 0x28 0 0 0 0 0 (by decide) (by decide)
      (by decide)).1,
    (parseSmartData_temperature [[0x09, 0, 0, 100, 0, 0x10, 0x27, 0, 0, 0, 0]] 0 0 100 0 0x28 0x01
      0 0 0 0 (by decide) (by decide) (by decide)).1⟩

/-! ## Names and values of a record -/

set_option maxRecDepth 100000 in
theorem attrName_not_wear : ∀ k, k ≤ 255 → k ≠ 0xB1 →
    attrName k ≠ "wear_leveling_count_raw" ∧ attrName k ≠ "wear_leveling_count_value" ∧
      attrName k ≠ "wear_leveling_count" := by
  decide

theorem or_shiftLeft_eq_add (a b k : Nat) (h : a < 2 ^ k) : a ||| (b <<< k) = a + b * 2 ^ k := by
  rw [Nat.shiftLeft_eq, Nat.mul_comm b, Nat.lor_comm, ← Nat.mul_add_lt_is_or h, Nat.add_comm]

/-- The `|=`/`<<` loop over six bytes computes the little-endian 48-bit value. -/
theorem rawValueOf_six (b5 b6 b7 b8 b9 b10 : Nat) (h5 : b5 < 256) (h6 : b6 < 256)
    (h7 : b7 < 256) (h8 : b8 < 256) (h9 : b9 < 256) :
    rawValueOf [b5, b6, b7, b8, b9, b10] =
      b5 + b6 * 2 ^ 8 + b7 * 2 ^ 16 + b8 * 2 ^ 24 + b9 * 2 ^ 32 + b10 * 2 ^ 40 := by
  simp only [rawValueOf, List.enum, List.enumFrom, List.foldl, Nat.zero_mul, Nat.shiftLeft_zero,
    Nat.zero_or, Nat.zero_add, Nat.one_mul, Nat.reduceAdd, Nat.reduceMul]
  rw [or_shiftLeft_eq_add b5 b6 8 (by omega), or_shiftLeft_eq_add _ b7 16 (by omega),
    or_shiftLeft_eq_add _ b8 24 (by omega), or_shiftLeft_eq_add _ b9 32 (by omega),
    or_shiftLeft_eq_add _ b10 40 (by omega)]

theorem emitRecord_wearPaired (m : StrMap Nat) (k nv : Nat) (raw : List Nat) (hk : k ≤ 255)
    (hm : WearPaired m) : WearPaired (emitRecord m k nv raw) := by
  by_cases hB1 : k = 0xB1
  · subst hB1
    have hname : attrName 0xB1 = "wear_leveling_count" := by decide
    simp only [emitRecord, if_true, hname]
    refine ⟨?_, ?_⟩
    · simp [strMap_get_set]
    · rw [strMap_get_set, strMap_get_set, if_neg (by decide), if_neg (by decide)]
      exact hm.2
  · obtain ⟨h1, h2, h3⟩ := attrName_not_wear k hk hB1
    have key : ∀ v, WearPaired (m.set (attrName k) v) := by
      intro v
      unfold WearPaired
      rw [strMap_get_set, strMap_get_set, strMap_get_set, if_neg h1, if_neg h2, if_neg h3]
      exact hm
    simp only [emitRecord, if_neg hB1]
    split_ifs
    · exact key _
    · exact key _

theorem scanRecords_wearPaired (l : List Nat) (m : StrMap Nat) (hm : WearPaired m) :
    WearPaired (scanRecords l m) := by
  induction l, m using scanRecords.induct with
  | case1 b0 b1 b2 b3 b4 b5 b6 b7 b8 b9 b10 rest attributes hid ih =>
    rw [scanRecords, if_pos hid]
    exact ih hm
  | case2 b0 b1 b2 b3 b4 b5 b6 b7 b8 b9 b10 rest attributes hid ih =>
    rw [scanRecords, if_neg hid]
    have hid2 : 1 ≤ b0 ∧ b0 ≤ 255 := not_not.mp hid
    exact ih (emitRecord_wearPaired _ _ _ _ hid2.2 hm)
  | case3 l attributes hne =>
    rw [scanRecords]
    · exact hm
    · exact hne

/-- C6 (wear-levelling pair).  For every input string the decoded map has the key
`wear_leveling_count_raw` if and only if it has `wear_leveling_count_value`, and it never has the
bare key `wear_leveling_count`.  For a stream that is a single 11-byte record with id `0xB1` the
map has exactly these two keys: `_raw` is the little-endian 48-bit value of bytes 5..10 and
`_value` is byte 3. -/
theorem parseSmartData_wear_pair (smartDataHex : String)
    (b1 b2 b3 b4 b5 b6 b7 b8 b9 b10 : Nat)
    (hb : ∀ b ∈ [b1, b2, b3, b4, b5, b6, b7, b8, b9, b10], b < 256) :
    (((parseSmartData smartDataHex).get? "wear_leveling_count_raw").isSome ↔
        ((parseSmartData smartDataHex).get? "wear_leveling_count_value").isSome) ∧
      (parseSmartData smartDataHex).get? "wear_leveling_count" = none ∧
      parseSmartData (hexOf [0xB1, b1, b2, b3, b4, b5, b6, b7, b8, b9, b10]) =
        [("wear_leveling_count_raw",
            b5 + b6 * 2 ^ 8 + b7 * 2 ^ 16 + b8 * 2 ^ 24 + b9 * 2 ^ 32 + b10 * 2 ^ 40),
          ("wear_leveling_count_value", b3)] := by
  have hinv : WearPaired (parseSmartData smartDataHex) :=
    scanRecords_wearPaired _ _ ⟨by simp [StrMap.get?], rfl⟩
  refine ⟨hinv.1, hinv.2, ?_⟩
  have hall : ∀ b ∈ [0xB1, b1, b2, b3, b4, b5, b6, b7, b8, b9, b10], b < 256 := by
    intro b hm
    rcases List.mem_cons.mp hm with rfl | hm
    · decide
    · exact hb b hm
  have hname : attrName 0xB1 = "wear_leveling_count" := by decide
  rw [parseSmartData_no_header _ hall (by
      rintro (⟨t, ht⟩ | ⟨t, ht⟩) <;> simp at ht),
    scanRecords]
  simp only [emitRecord, hname, scanRecords]
  rw [rawValueOf_six b5 b6 b7 b8 b9 b10 (hb b5 (by simp)) (hb b6 (by simp)) (hb b7 (by simp))
    (hb b8 (by simp)) (hb b9 (by simp))]
  simp [StrMap.set]

/-- C6, at a single wear-levelling record with normalised value 99 and raw bytes
`01 02 00 00 00 00`. -/
theorem parseSmartData_wear_pair_witness :
    (∀ b ∈ [0, 0, 99, 0, 1, 2, 0, 0, 0, 0], b < 256) ∧
      parseSmartData (hexOf [0xB1, 0, 0, 99, 0, 1, 2, 0, 0, 0, 0]) =
        [("wear_leveling_count_raw", 513), ("wear_leveling_count_value", 99)] :=
  ⟨by decide,
    (parseSmartData_wear_pair "" 0 0 99 0 1 2 0 0 0 0 (by decide)).2.2.trans (by decide)⟩

set_option maxRecDepth 100000 in
theorem attrName_listed : ∀ k, k ≤ 255 → ∀ entry ∈ attrNameMap, entry.1 = k →
    attrName k = entry.2 := by
  decide

set_option maxRecDepth 100000 in
theorem attrName_unlisted : ∀ k, k ≤ 255 → (∀ entry ∈ attrNameMap, entry.1 ≠ k) →
    attrName k = "unknown_" ++ lowerHexOfId k := by
  decide

/-- C7 (raw value and naming).  For a stream that is a single complete 11-byte record whose id
`k` is in `1..255`, is neither `0xB1` nor `0xC2`, and whose first two bytes are not `01 00` or
`2F 00`, the decoded map has exactly one key, and its value is the little-endian 48-bit value
`b5 + b6*2^8 + b7*2^16 + b8*2^24 + b9*2^32 + b10*2^40` of bytes 5..10, an integer below `2^48`.
The key is the name the table lists for `k` when `k` is one of its 32 ids (`0x09` gives
`power_on_hours`), and otherwise `unknown_` followed by `k` in lowercase hexadecimal without
leading zeros (`0x02` gives `unknown_2`, `0xAB` gives `unknown_ab`). -/
theorem parseSmartData_single_record (k b1 b2 b3 b4 b5 b6 b7 b8 b9 b10 : Nat)
    (hk : 1 ≤ k ∧ k ≤ 255) (hB1 : k ≠ 0xB1) (hC2 : k ≠ 0xC2)
    (hb : ∀ b ∈ [b1, b2, b3, b4, b5, b6, b7, b8, b9, b10], b < 256)
    (h : ¬ ([0x01, 0x00] <+: [k, b1, b2, b3, b4, b5, b6, b7, b8, b9, b10] ∨
        [0x2f, 0x00] <+: [k, b1, b2, b3, b4, b5, b6, b7, b8, b9, b10])) :
    parseSmartData (hexOf [k, b1, b2, b3, b4, b5, b6, b7, b8, b9, b10]) =
        [(attrName k, b5 + b6 * 2 ^ 8 + b7 * 2 ^ 16 + b8 * 2 ^ 24 + b9 * 2 ^ 32 + b10 * 2 ^ 40)] ∧
      b5 + b6 * 2 ^ 8 + b7 * 2 ^ 16 + b8 * 2 ^ 24 + b9 * 2 ^ 32 + b10 * 2 ^ 40 < 2 ^ 48 ∧
      (∀ entry ∈ attrNameMap, entry.1 = k → attrName k = entry.2) ∧
      ((∀ entry ∈ attrNameMap, entry.1 ≠ k) → attrName k = "unknown_" ++ lowerHexOfId k) ∧
      attrNameMap.length = 32 ∧
      attrName 0x09 = "power_on_hours" ∧ attrName 0x02 = "unknown_2" ∧
      attrName 0xAB = "unknown_ab" := by
  have hall : ∀ b ∈ [k, b1, b2, b3, b4, b5, b6, b7, b8, b9, b10], b < 256 := by
    intro b hm
    rcases List.mem_cons.mp hm with rfl | hm
    · omega
    · exact hb b hm
  have h5 := hb b5 (by simp)
  have h6 := hb b6 (by simp)
  have h7 := hb b7 (by simp)
  have h8 := hb b8 (by simp)
  have h9 := hb b9 (by simp)
  have h10 := hb b10 (by simp)
  refine ⟨?_, by omega, attrName_listed k hk.2, attrName_unlisted k hk.2, rfl, by decide,
    by decide, by decide⟩
  rw [parseSmartData_no_header _ hall h, scanRecords, if_neg (not_not.mpr hk)]
  simp only [emitRecord, if_neg hB1, if_neg hC2, scanRecords]
  rw [rawValueOf_six b5 b6 b7 b8 b9 b10 h5 h6 h7 h8 h9]
  rfl

/-- C7, at a `power_on_hours` record, at a record with the unlisted id `0xAB`, and at a record
with id `0x01` whose second byte is not zero. -/
theorem parseSmartData_single_record_witness :
    parseSmartData (hexOf [0x09, 0, 0, 100, 0, 0x10, 0x27, 0, 0, 0, 0]) =
        [("power_on_hours", 10000)] ∧
      parseSmartData (hexOf [0xAB, 0, 0, 100, 0, 0xff, 0xff, 0xff, 0xff, 0xff, 0xff]) =
        [("unknown_ab", 281474976710655)] ∧
      parseSmartData (hexOf [0x01, 0x0b, 0, 100, 0, 1, 0, 0, 0, 0, 1]) =
        [("raw_read_error_rate", 1099511627777)] :=
  ⟨(parseSmartData_single_record 0x09 0 0 100 0 0x10 0x27 0 0 0 0 (by decide) (by decide)
      (by decide) (by decide) (by decide)).1.trans (by decide),
    (parseSmartData_single_record 0xAB 0 0 100 0 0xff 0xff 0xff 0xff 0xff 0xff (by decide)
      (by decide) (by decide) (by decide) (by decide)).1.trans (by decide),
    (parseSmartData_single_record 0x01 0x0b 0 100 0 1 0 0 0 0 1 (by decide) (by decide)
      (by decide) (by decide) (by decide)).1.trans (by decide)⟩

/-! ## Lemmas on the text helpers -/

theorem dropLit?_eq_some (lit s r : List Char) (h : dropLit? lit s = some r) : s = lit ++ r := by
  induction lit generalizing s with
  | nil =>
    simp only [dropLit?, Option.some.injEq] at h
    simp [h]
  | cons a lit ih =>
    cases s with
    | nil => simp [dropLit?] at h
    | cons c s =>
      simp only [dropLit?] at h
      split_ifs at h with hc
      subst hc
      rw [ih s h]
      rfl

theorem dropLit?_append (lit r : List Char) : dropLit? lit (lit ++ r) = some r := by
  induction lit with
  | nil => cases r <;> rfl
  | cons a lit ih => simp [dropLit?, ih]

theorem matchesIdWith_shape (lit : String) (line : List Char) (h : matchesIdWith lit line = true) :
    ∃ rest : List Char, line = lit.data ++ rest ∧ rest ≠ [] ∧ ∀ c ∈ rest, reSpace c = false := by
  unfold matchesIdWith at h
  split at h
  · rename_i rest hrest
    simp only [ne_eq, List.all_eq_true, Bool.not_eq_eq_eq_not, Bool.not_true, Bool.decide_and,
      Bool.and_eq_true, decide_eq_true_eq] at h
    exact ⟨rest, dropLit?_eq_some _ _ _ hrest, by simpa using h.1, h.2⟩
  · simp at h

/-- A line that matches the device pattern is one of the three prefixes followed by one or more
characters outside `\s`. -/
theorem deviceRegexMatch_shape (line : List Char) (h : deviceRegexMatch line = true) :
    ∃ p ∈ ["naa.", "t10.", "mpx."], ∃ rest : List Char,
      line = p.data ++ rest ∧ rest ≠ [] ∧ ∀ c ∈ rest, reSpace c = false := by
  simp only [deviceRegexMatch, Bool.or_eq_true] at h
  rcases h with (h | h) | h
  · exact ⟨"naa.", by simp, matchesIdWith_shape _ _ h⟩
  · exact ⟨"t10.", by simp, matchesIdWith_shape _ _ h⟩
  · exact ⟨"mpx.", by simp, matchesIdWith_shape _ _ h⟩

theorem StrMap.set_ne_nil {α : Type} (m : StrMap α) (k : String) (v : α) : m.set k v ≠ [] := by
  cases m with
  | nil => simp [StrMap.set]
  | cons x t =>
    obtain ⟨a, b⟩ := x
    simp only [StrMap.set]
    split_ifs <;> simp

theorem StrMap.getStr_set (m : StrMap String) (k k' v : String) :
    (m.set k v).getStr k' = if k = k' then v else m.getStr k' := by
  simp only [StrMap.getStr, strMap_get_set]
  split_ifs <;> rfl

/-! ## The completeness invariant of the device scanner -/

theorem flushDevice_good (L : List (List Char)) (st : List (StrMap String) × StrMap String)
    (h : ScanInv L st) : ∀ d ∈ flushDevice st.1 st.2, GoodDevice L d := by
  intro d hd
  simp only [flushDevice] at hd
  split_ifs at hd with hlen hc
  · rcases List.mem_append.mp hd with hd | hd
    · exact h.1 d hd
    · rw [List.mem_singleton] at hd
      rcases h.2 with hnil | hid
      · rw [hnil] at hlen
        simp at hlen
      · exact ⟨_, _, _, _, hd, hid, hc.2⟩
  · exact h.1 d hd
  · exact h.1 d hd

theorem scanLine_inv (lower : Char → Char) (L : List (List Char))
    (st : List (StrMap String) × StrMap String) (l : List Char) (hl : l ∈ L)
    (h : ScanInv L st) : ScanInv L (scanLine lower st l) := by
  have keep : ∀ k v, k ≠ "id" → 0 < st.2.length → ScanInv L (st.1, st.2.set k v) := by
    intro k v hk hlen
    refine ⟨h.1, Or.inr ?_⟩
    rcases h.2 with hnil | hid
    · rw [hnil] at hlen
      simp at hlen
    · show GoodId L ((st.2.set k v).getStr "id")
      rw [StrMap.getStr_set, if_neg hk]
      exact hid
  simp only [scanLine]
  by_cases hdev : deviceRegexMatch (trimSpace l) = true
  · rw [if_pos hdev]
    refine ⟨flushDevice_good L st h, Or.inr ?_⟩
    have hshape := deviceRegexMatch_shape _ hdev
    refine ⟨?_, ⟨l, hl, rfl⟩, hshape⟩
    obtain ⟨p, -, rest, hrest, hne, -⟩ := hshape
    intro hc
    have hdata : trimSpace l = [] := congrArg String.data hc
    rw [hdata] at hrest
    have hlen0 := congrArg List.length hrest
    simp only [List.length_nil, List.length_append] at hlen0
    have hr0 : rest.length = 0 := by omega
    exact hne (List.length_eq_zero.mp hr0)
  · rw [if_neg hdev]
    by_cases hlen : st.2.length > 0
    · rw [if_pos hlen]
      repeat' split
      all_goals first | exact h | exact keep _ _ (by decide) hlen
    · rw [if_neg hlen]
      exact h

theorem scanLines_inv (lower : Char → Char) (L ls : List (List Char))
    (st : List (StrMap String) × StrMap String) (hls : ∀ l ∈ ls, l ∈ L) (h : ScanInv L st) :
    ScanInv L (ls.foldl (scanLine lower) st) := by
  induction ls generalizing st with
  | nil => exact h
  | cons l t ih =>
    exact ih _ (fun x hx => hls x (List.mem_cons_of_mem _ hx))
      (scanLine_inv lower L st l (hls l (List.mem_cons_self _ _)) h)

/-- C8 (completeness invariant).  For every listing text, every device in the returned sequence
has the four fields `id`, `display_name`, `model`, `protocol`, with a non-empty `id` and a
non-empty `display_name`; its `id` is the trimmed form of a line of the input and consists of
`naa.`, `t10.` or `mpx.` followed by one or more characters that are not white space in the
sense of the pattern (`\S`: no tab, newline, form feed, carriage return or space).  So a record
with an identifier but no display name is never emitted. -/
theorem discoverFrom_complete (lower : Char → Char) (output : String) (d : StrMap String)
    (hd : d ∈ discoverFrom lower output) :
    ∃ i n mo pr : String,
      d = [("id", i), ("display_name", n), ("model", mo), ("protocol", pr)] ∧
      i ≠ "" ∧ n ≠ "" ∧
      (∃ line ∈ splitLines output.data, i.data = trimSpace line) ∧
      ∃ p ∈ ["naa.", "t10.", "mpx."], ∃ rest : List Char,
        i.data = p.data ++ rest ∧ rest ≠ [] ∧ ∀ c ∈ rest, reSpace c = false := by
  have hinv := scanLines_inv lower (splitLines output.data) (splitLines output.data) ([], [])
    (fun _ h => h) ⟨by simp, Or.inl rfl⟩
  obtain ⟨i, n, mo, pr, hd, ⟨hi, hline, hshape⟩, hn⟩ := flushDevice_good _ _ hinv d hd
  exact ⟨i, n, mo, pr, hd, hi, hn, hline, hshape⟩

/-- C8, at `sampleListing`: the devices `naa.1` and `naa.2` are returned, and `naa.2` meets the
invariant. -/
theorem discoverFrom_complete_witness :
    [("id", "naa.2"), ("display_name", "Disk B"), ("model", "M"), ("protocol", "")] ∈
        discoverFrom (fun c => c) sampleListing ∧
      discoverFrom (fun c => c) sampleListing =
        [[("id", "naa.1"), ("display_name", "Disk A"), ("model", ""), ("protocol", "")],
          [("id", "naa.2"), ("display_name", "Disk B"), ("model", "M"), ("protocol", "")]] ∧
      ∃ i n mo pr : String,
        [("id", "naa.2"), ("display_name", "Disk B"), ("model", "M"), ("protocol", "")] =
          [("id", i), ("display_name", n), ("model", mo), ("protocol", pr)] ∧
        i ≠ "" ∧ n ≠ "" ∧
        (∃ line ∈ splitLines sampleListing.data, i.data = trimSpace line) ∧
        ∃ p ∈ ["naa.", "t10.", "mpx."], ∃ rest : List Char,
          i.data = p.data ++ rest ∧ rest ≠ [] ∧ ∀ c ∈ rest, reSpace c = false :=
  ⟨by decide, by decide,
    discoverFrom_complete (fun c => c) sampleListing
      [("id", "naa.2"), ("display_name", "Disk B"), ("model", "M"), ("protocol", "")]
      (by decide)⟩

/-! ## Lemmas on trimming and line splitting -/

theorem reSpace_goIsSpace (c : Char) (h : reSpace c = true) : goIsSpace c = true := by
  simp only [reSpace, Bool.decide_or, Bool.or_eq_true, decide_eq_true_eq] at h
  simp only [goIsSpace, Bool.decide_or, Bool.decide_and, Bool.or_eq_true, Bool.and_eq_true,
    decide_eq_true_eq]
  omega

theorem splitLines_no_newline (x : List Char) (h : '\n' ∉ x) : splitLines x = [x] := by
  induction x with
  | nil => rfl
  | cons c t ih =>
    have hc : c ≠ '\n' := fun e => h (e ▸ List.mem_cons_self _ _)
    have ht : '\n' ∉ t := fun e => h (List.mem_cons_of_mem _ e)
    simp only [splitLines, if_neg hc, ih ht]

theorem splitLines_append (x rest : List Char) (h : '\n' ∉ x) :
    splitLines (x ++ '\n' :: rest) = x :: splitLines rest := by
  induction x with
  | nil => simp [splitLines]
  | cons c t ih =>
    have hc : c ≠ '\n' := fun e => h (e ▸ List.mem_cons_self _ _)
    have ht : '\n' ∉ t := fun e => h (List.mem_cons_of_mem _ e)
    have hstep : splitLines (c :: (t ++ '\n' :: rest)) =
        match splitLines (t ++ '\n' :: rest) with
        | [] => [[c]]
        | l :: ls => (c :: l) :: ls := by
      simp only [splitLines, if_neg hc]
    rw [List.cons_append, hstep, ih ht]

theorem trimSpace_core (pre core post : List Char) (hpre : ∀ c ∈ pre, goIsSpace c = true)
    (hpost : ∀ c ∈ post, goIsSpace c = true) (hne : core ≠ []) (ht : Trimmed core) :
    trimSpace (pre ++ core ++ post) = core := by
  have h1 : (pre ++ core ++ post).dropWhile goIsSpace = core ++ post := by
    rw [List.append_assoc, List.dropWhile_append_of_pos hpre, List.dropWhile_append, ht.1]
    simp [hne]
  have hpost2 : ∀ c ∈ post.reverse, goIsSpace c = true := fun c hc =>
    hpost c (List.mem_reverse.mp hc)
  simp only [trimSpace, h1, List.reverse_append]
  rw [List.dropWhile_append_of_pos hpost2, ht.2, List.reverse_reverse]

theorem dropWhile_idem (p : Char → Bool) (l : List Char) :
    (l.dropWhile p).dropWhile p = l.dropWhile p := by
  induction l with
  | nil => rfl
  | cons c t ih =>
    by_cases hc : p c = true
    · simp only [List.dropWhile_cons_of_pos hc, ih]
    · simp only [List.dropWhile_cons_of_neg hc]

theorem dropWhile_initial_self (p : Char → Bool) (u T rest : List Char) (hu : u.dropWhile p = u)
    (hT : u = T ++ rest) (hne : T ≠ []) : T.dropWhile p = T := by
  cases T with
  | nil => exact absurd rfl hne
  | cons t ts =>
    subst hT
    by_cases hc : p t = true
    · exfalso
      simp only [List.cons_append, List.dropWhile_cons_of_pos hc] at hu
      have hlen := congrArg List.length hu
      have hle := (List.dropWhile_sublist p (l := ts ++ rest)).length_le
      simp only [List.length_cons] at hlen
      omega
    · simp only [List.dropWhile_cons_of_neg hc]

/-- Every text is white space, then its trimmed form, then white space. -/
theorem trimSpace_decomp (s : List Char) :
    ∃ pre post, s = pre ++ trimSpace s ++ post ∧ (∀ c ∈ pre, goIsSpace c = true) ∧
      (∀ c ∈ post, goIsSpace c = true) ∧ Trimmed (trimSpace s) := by
  have hu : (s.dropWhile goIsSpace).reverse =
      (s.dropWhile goIsSpace).reverse.takeWhile goIsSpace ++
        (s.dropWhile goIsSpace).reverse.dropWhile goIsSpace :=
    (List.takeWhile_append_dropWhile goIsSpace _).symm
  have hu2 : s.dropWhile goIsSpace =
      trimSpace s ++ ((s.dropWhile goIsSpace).reverse.takeWhile goIsSpace).reverse := by
    have := congrArg List.reverse hu
    rw [List.reverse_reverse, List.reverse_append] at this
    exact this
  refine ⟨s.takeWhile goIsSpace,
    ((s.dropWhile goIsSpace).reverse.takeWhile goIsSpace).reverse, ?_, ?_, ?_, ?_, ?_⟩
  · rw [List.append_assoc, ← hu2, List.takeWhile_append_dropWhile]
  · intro c hc
    exact (List.mem_takeWhile_imp hc)
  · intro c hc
    exact (List.mem_takeWhile_imp (List.mem_reverse.mp hc))
  · by_cases hne : trimSpace s = []
    · rw [hne]
      rfl
    · exact dropWhile_initial_self goIsSpace _ _ _ (dropWhile_idem _ _) hu2 hne
  · simp only [trimSpace, List.reverse_reverse]
    exact dropWhile_idem _ _

/-! ## A display-name line -/

theorem findAfter_at_start {β : Type} (lit r : List Char) (k : List Char → Option β) (g : β)
    (hk : k r = some g) : findAfter lit k (lit ++ r) = some g := by
  cases hl : lit ++ r with
  | nil =>
    have h1 := dropLit?_append lit r
    rw [hl] at h1
    simp [findAfter, h1, hk]
  | cons c t =>
    have h1 := dropLit?_append lit r
    rw [hl] at h1
    simp [findAfter, h1, hk]

theorem trimmed_head_not_reSpace (T : List Char) (hne : T ≠ []) (hT : Trimmed T) :
    T.dropWhile reSpace = T := by
  cases T with
  | nil => exact absurd rfl hne
  | cons t ts =>
    have hg : goIsSpace t ≠ true := by
      intro hc
      have h1 := hT.1
      simp only [List.dropWhile_cons_of_pos hc] at h1
      have hlen := congrArg List.length h1
      have hle := (List.dropWhile_sublist goIsSpace (l := ts)).length_le
      simp only [List.length_cons] at hlen
      omega
    have hr : ¬ reSpace t = true := fun hc => hg (reSpace_goIsSpace t hc)
    simp only [List.dropWhile_cons_of_neg hr]

theorem displayLine_core (pre T post : List Char) (hpre : ∀ c ∈ pre, goIsSpace c = true)
    (hpost : ∀ c ∈ post, goIsSpace c = true) (hne : T ≠ []) (hT : Trimmed T)
    (hnl : '\n' ∉ pre ++ T) :
    trimSpace ("Display Name: ".data ++ (pre ++ T ++ post)) = "Display Name: ".data ++ pre ++ T ∧
      fieldSubmatch "Display Name:" ("Display Name: ".data ++ pre ++ T) =
        some (pre.dropWhile reSpace ++ T) ∧
      trimSpace (pre.dropWhile reSpace ++ T) = T := by
  have hdrop : (pre ++ T).dropWhile reSpace = pre.dropWhile reSpace ++ T := by
    rw [List.dropWhile_append, trimmed_head_not_reSpace T hne hT]
    split_ifs with he
    · rw [List.isEmpty_iff] at he
      rw [he, List.nil_append]
    · rfl
  have hpre2 : ∀ c ∈ pre.dropWhile reSpace, goIsSpace c = true := fun c hc =>
    hpre c ((List.dropWhile_sublist reSpace).subset hc)
  refine ⟨?_, ?_, ?_⟩
  · have hcore : Trimmed ("Display Name: ".data ++ pre ++ T) := by
      refine ⟨rfl, ?_⟩
      rw [List.reverse_append, List.dropWhile_append, hT.2]
      simp [hne]
    have := trimSpace_core [] ("Display Name: ".data ++ pre ++ T) post (by simp) hpost
      (by simp) hcore
    simpa only [List.nil_append, List.append_assoc] using this
  · have hsplit : "Display Name: ".data ++ pre ++ T =
        "Display Name:".data ++ (' ' :: (pre ++ T)) := by
      simp only [List.append_assoc]
      rfl
    rw [fieldSubmatch, hsplit]
    apply findAfter_at_start
    have hspace : reSpace ' ' = true := by decide
    simp only [captureField, List.dropWhile_cons_of_pos hspace, hdrop]
    have hne2 : pre.dropWhile reSpace ++ T ≠ [] := by simp [hne]
    have hnl2 : ∀ x ∈ pre.dropWhile reSpace ++ T, decide (x ≠ '\n') = true := by
      intro x hx
      rw [decide_eq_true_eq]
      rintro rfl
      apply hnl
      rcases List.mem_append.mp hx with h | h
      · exact List.mem_append_left _ ((List.dropWhile_sublist reSpace).subset h)
      · exact List.mem_append_right _ h
    cases hcase : pre.dropWhile reSpace ++ T with
    | nil => exact absurd hcase hne2
    | cons c more =>
      rw [hcase] at hnl2
      simp only [Option.some.injEq]
      exact List.takeWhile_eq_self_iff.mpr hnl2
  · have := trimSpace_core (pre.dropWhile reSpace) T [] hpre2 (by simp) hne hT
    simpa only [List.append_nil] using this

/-- What the scanner reads from the line `Display Name: n` when `n` has no line break and is
not blank: the line is not an identifier line, the field pattern matches, and the trimmed
capture group is the trimmed `n`. -/
theorem displayLine (n : List Char) (hnl : '\n' ∉ n) (hne : trimSpace n ≠ []) :
    deviceRegexMatch (trimSpace ("Display Name: ".data ++ n)) = false ∧
      ∃ g, fieldSubmatch "Display Name:" (trimSpace ("Display Name: ".data ++ n)) = some g ∧
        trimSpace g = trimSpace n := by
  obtain ⟨pre, post, hn, hpre, hpost, hT⟩ := trimSpace_decomp n
  have hnl2 : '\n' ∉ pre ++ trimSpace n := by
    intro hc
    apply hnl
    rw [hn]
    exact List.mem_append_left _ hc
  obtain ⟨h1, h2, h3⟩ := displayLine_core pre (trimSpace n) post hpre hpost hne hT hnl2
  have hL : trimSpace ("Display Name: ".data ++ n) = "Display Name: ".data ++ pre ++ trimSpace n := by
    rw [← h1]
    congr 2
  rw [hL]
  refine ⟨?_, _, h2, h3⟩
  simp only [List.append_assoc]
  rfl

/-! ## The scanner against the block reading of the listing -/

theorem flushDevice_append (devs : List (StrMap String)) (cur : StrMap String) :
    flushDevice devs cur = devs ++ flushDevice [] cur := by
  simp only [flushDevice]
  split_ifs <;> simp

theorem scanLine_append (lower : Char → Char) (devs : List (StrMap String))
    (cur : StrMap String) (l : List Char) :
    scanLine lower (devs, cur) l =
      (devs ++ (scanLine lower ([], cur) l).1, (scanLine lower ([], cur) l).2) := by
  simp only [scanLine]
  by_cases hdev : deviceRegexMatch (trimSpace l) = true
  · simp only [if_pos hdev]
    rw [flushDevice_append]
  · simp only [if_neg hdev]
    repeat' split
    all_goals simp

theorem scanFrom_append (lower : Char → Char) (devs : List (StrMap String))
    (cur : StrMap String) (ls : List (List Char)) :
    scanFrom lower (devs, cur) ls = devs ++ scanFrom lower ([], cur) ls := by
  induction ls generalizing devs cur with
  | nil => exact flushDevice_append devs cur
  | cons l t ih =>
    have h1 : scanFrom lower (devs, cur) (l :: t) = scanFrom lower (scanLine lower (devs, cur) l) t :=
      rfl
    have h2 : scanFrom lower ([], cur) (l :: t) = scanFrom lower (scanLine lower ([], cur) l) t :=
      rfl
    rw [h1, h2, scanLine_append, ih, ih (scanLine lower ([], cur) l).1, List.append_assoc]

theorem expectedIds_dropWhile (ls : List (List Char)) :
    expectedIds (ls.dropWhile (fun x => !isIdLine x)) = expectedIds ls := by
  induction ls with
  | nil => rfl
  | cons l t ih =>
    by_cases hl : isIdLine l = true
    · simp [List.dropWhile, hl]
    · simp only [Bool.not_eq_true] at hl
      simp only [List.dropWhile, hl, Bool.not_false, expectedIds, ih, Bool.false_eq_true,
        if_false]

/-- A non-identifier line leaves the devices alone and changes the record's display name as
`displayNameAfter` says, without touching its id. -/
theorem scanLine_field (lower : Char → Char) (cur : StrMap String) (l : List Char)
    (hl : isIdLine l = false) (hcur : cur ≠ []) :
    (scanLine lower ([], cur) l).1 = [] ∧ (scanLine lower ([], cur) l).2 ≠ [] ∧
      (scanLine lower ([], cur) l).2.getStr "id" = cur.getStr "id" ∧
      (scanLine lower ([], cur) l).2.getStr "display_name" =
        displayNameAfter (cur.getStr "display_name") [l] := by
  have hdev : ¬ deviceRegexMatch (trimSpace l) = true := by
    simpa [isIdLine] using hl
  have hlen : cur.length > 0 := List.length_pos.mpr hcur
  simp only [scanLine, if_neg hdev, if_pos hlen, displayNameAfter, List.foldl]
  cases hd : fieldSubmatch "Display Name:" (trimSpace l) with
  | some g =>
    simp only
    exact ⟨trivial, StrMap.set_ne_nil _ _ _, by rw [StrMap.getStr_set, if_neg (by decide)],
      by rw [StrMap.getStr_set, if_pos rfl]⟩
  | none =>
    simp only
    repeat' split
    all_goals
      first
      | exact ⟨rfl, hcur, rfl, rfl⟩
      | exact ⟨rfl, StrMap.set_ne_nil _ _ _,
          (StrMap.getStr_set _ _ _ _).trans (if_neg (by decide)),
          (StrMap.getStr_set _ _ _ _).trans (if_neg (by decide))⟩

theorem isIdLine_ne_nil (l : List Char) (h : isIdLine l = true) :
    String.mk (trimSpace l) ≠ "" := by
  obtain ⟨p, -, rest, hrest, hne, -⟩ := deviceRegexMatch_shape _ h
  intro hc
  have hdata : trimSpace l = [] := congrArg String.data hc
  rw [hdata] at hrest
  have hlen0 := congrArg List.length hrest
  simp only [List.length_nil, List.length_append] at hlen0
  have hr0 : rest.length = 0 := by omega
  exact hne (List.length_eq_zero.mp hr0)

theorem deviceIds_flush (cur : StrMap String) (hid : cur.getStr "id" ≠ "") (hcur : cur ≠ []) :
    deviceIds (flushDevice [] cur) =
      if cur.getStr "display_name" ≠ "" then [cur.getStr "id"] else [] := by
  have hlen : cur.length > 0 := List.length_pos.mpr hcur
  simp only [flushDevice, if_pos hlen]
  by_cases hdn : cur.getStr "display_name" = ""
  · simp [hdn, deviceIds]
  · rw [if_pos ⟨hid, hdn⟩, if_pos hdn]
    simp [deviceIds, StrMap.getStr, StrMap.get?]

theorem scanFrom_started (lower : Char → Char) (ls : List (List Char)) (cur : StrMap String)
    (hcur : cur ≠ []) (hid : cur.getStr "id" ≠ "") :
    deviceIds (scanFrom lower ([], cur) ls) =
      (if displayNameAfter (cur.getStr "display_name") (ls.takeWhile (fun x => !isIdLine x)) ≠ ""
        then [cur.getStr "id"] else []) ++ expectedIds ls := by
  induction ls generalizing cur with
  | nil =>
    simp only [scanFrom, List.foldl, List.takeWhile, displayNameAfter, expectedIds,
      List.append_nil]
    exact deviceIds_flush cur hid hcur
  | cons l t ih =>
    have h2 : scanFrom lower ([], cur) (l :: t) = scanFrom lower (scanLine lower ([], cur) l) t :=
      rfl
    by_cases hl : isIdLine l = true
    · have hdev : deviceRegexMatch (trimSpace l) = true := hl
      have hstep : scanLine lower ([], cur) l =
          (flushDevice [] cur, [("id", String.mk (trimSpace l))]) := by
        simp only [scanLine, if_pos hdev]
      have hnew : StrMap.getStr [("id", String.mk (trimSpace l))] "id" = String.mk (trimSpace l) := by
        simp [StrMap.getStr, StrMap.get?]
      have hnewdn : StrMap.getStr [("id", String.mk (trimSpace l))] "display_name" = "" := by
        simp [StrMap.getStr, StrMap.get?]
      rw [h2, hstep, scanFrom_append, deviceIds, List.map_append, ← deviceIds, ← deviceIds,
        ih _ (by simp) (by rw [hnew]; exact isIdLine_ne_nil l hl), deviceIds_flush cur hid hcur,
        hnew, hnewdn]
      simp [List.takeWhile, hl, displayNameAfter, expectedIds]
    · simp only [Bool.not_eq_true] at hl
      obtain ⟨h1, hne, hid2, hdn⟩ := scanLine_field lower cur l hl hcur
      have hst : scanLine lower ([], cur) l = ([], (scanLine lower ([], cur) l).2) :=
        Prod.ext h1 rfl
      rw [h2, hst, ih _ hne (by rw [hid2]; exact hid), hid2, hdn]
      simp [List.takeWhile, hl, displayNameAfter, expectedIds]

theorem scanFrom_fresh (lower : Char → Char) (ls : List (List Char)) :
    deviceIds (scanFrom lower ([], []) ls) = expectedIds ls := by
  induction ls with
  | nil => rfl
  | cons l t ih =>
    have h2 : scanFrom lower ([], []) (l :: t) = scanFrom lower (scanLine lower ([], []) l) t :=
      rfl
    by_cases hl : isIdLine l = true
    · have hdev : deviceRegexMatch (trimSpace l) = true := hl
      have hstep : scanLine lower ([], []) l = ([], [("id", String.mk (trimSpace l))]) := by
        simp only [scanLine, if_pos hdev]
        rfl
      have hnew : StrMap.getStr [("id", String.mk (trimSpace l))] "id" = String.mk (trimSpace l) := by
        simp [StrMap.getStr, StrMap.get?]
      have hnewdn : StrMap.getStr [("id", String.mk (trimSpace l))] "display_name" = "" := by
        simp [StrMap.getStr, StrMap.get?]
      rw [h2, hstep, scanFrom_started lower t _ (by simp)
        (by rw [hnew]; exact isIdLine_ne_nil l hl), hnew, hnewdn]
      simp [expectedIds, hl]
    · simp only [Bool.not_eq_true] at hl
      have hdev : ¬ deviceRegexMatch (trimSpace l) = true := by
        simpa [isIdLine] using hl
      have hstep : scanLine lower ([], []) l = ([], []) := by
        simp [scanLine, if_neg hdev]
      rw [h2, hstep, ih]
      simp [expectedIds, hl]

/-! ## The scanner on the listings of the claims -/

theorem idLine_facts (a : List Char) (ha : deviceRegexMatch a = true) :
    a ≠ [] ∧ '\n' ∉ a := by
  obtain ⟨p, hp, rest, hrest, hne, hall⟩ := deviceRegexMatch_shape a ha
  have hnr : '\n' ∉ rest := fun hc => by
    have := hall _ hc
    revert this
    decide
  subst hrest
  simp only [List.mem_cons, List.mem_singleton, List.not_mem_nil, or_false] at hp
  refine ⟨by simp [hne], ?_⟩
  rcases hp with rfl | rfl | rfl <;>
    · intro hc
      rcases List.mem_append.mp hc with h | h
      · revert h
        decide
      · exact hnr h

theorem scanLine_id (lower : Char → Char) (st : List (StrMap String) × StrMap String)
    (a : List Char) (ht : trimSpace a = a) (ha : deviceRegexMatch a = true) :
    scanLine lower st a = (flushDevice st.1 st.2, [("id", String.mk a)]) := by
  simp only [scanLine, ht, if_pos ha]

theorem scanLine_display (lower : Char → Char) (st : List (StrMap String) × StrMap String)
    (n : List Char) (hst : st.2 ≠ []) (hnl : '\n' ∉ n) (hne : trimSpace n ≠ []) :
    scanLine lower st ("Display Name: ".data ++ n) =
      (st.1, st.2.set "display_name" (String.mk (stripParenSuffix (trimSpace n)))) := by
  obtain ⟨hdev, g, hg, hgt⟩ := displayLine n hnl hne
  have hlen : st.2.length > 0 := List.length_pos.mpr hst
  simp only [scanLine, hdev, Bool.false_eq_true, if_false, if_pos hlen, hg, hgt]

theorem stripParenSuffix_nil : stripParenSuffix [] = [] := rfl

/-- The listing `[a, b, "Display Name: n"]`. -/
theorem discoverFrom_two_ids (lower : Char → Char) (a b n : String)
    (hat : trimSpace a.data = a.data) (ha : deviceRegexMatch a.data = true)
    (hbt : trimSpace b.data = b.data) (hb : deviceRegexMatch b.data = true)
    (hnl : '\n' ∉ n.data) (hclean : stripParenSuffix (trimSpace n.data) ≠ []) :
    discoverFrom lower (a ++ "\n" ++ b ++ "\n" ++ "Display Name: " ++ n) =
      [[("id", b), ("display_name", String.mk (stripParenSuffix (trimSpace n.data))),
        ("model", ""), ("protocol", "")]] := by
  have hne : trimSpace n.data ≠ [] := fun h => hclean (by rw [h]; rfl)
  have hbne : b ≠ "" := fun h => (idLine_facts _ hb).1 (congrArg String.data h)
  have hdn : String.mk (stripParenSuffix (trimSpace n.data)) ≠ "" := fun h =>
    hclean (congrArg String.data h)
  have hlines : splitLines (a ++ "\n" ++ b ++ "\n" ++ "Display Name: " ++ n).data =
      [a.data, b.data, "Display Name: ".data ++ n.data] := by
    have hL : '\n' ∉ "Display Name: ".data ++ n.data := by
      intro hc
      rcases List.mem_append.mp hc with h | h
      · revert h
        decide
      · exact hnl h
    have hd : (a ++ "\n" ++ b ++ "\n" ++ "Display Name: " ++ n).data =
        a.data ++ '\n' :: (b.data ++ '\n' :: ("Display Name: ".data ++ n.data)) := by
      simp only [String.data_append, List.append_assoc]
      rfl
    rw [hd, splitLines_append _ _ (idLine_facts _ ha).2,
      splitLines_append _ _ (idLine_facts _ hb).2, splitLines_no_newline _ hL]
  simp only [discoverFrom, hlines, List.foldl, scanLine_id lower _ _ hat ha,
    scanLine_id lower _ _ hbt hb]
  rw [scanLine_display lower _ _ (by simp) hnl hne]
  simp [flushDevice, StrMap.getStr, StrMap.get?, StrMap.set, hbne, hdn]

/-- The listing `[a, "Display Name: n", a, "Display Name: n"]`. -/
theorem discoverFrom_repeated_id (lower : Char → Char) (a n : String)
    (hat : trimSpace a.data = a.data) (ha : deviceRegexMatch a.data = true)
    (hnl : '\n' ∉ n.data) (hclean : stripParenSuffix (trimSpace n.data) ≠ []) :
    discoverFrom lower
        (a ++ "\n" ++ "Display Name: " ++ n ++ "\n" ++ a ++ "\n" ++ "Display Name: " ++ n) =
      [[("id", a), ("display_name", String.mk (stripParenSuffix (trimSpace n.data))),
          ("model", ""), ("protocol", "")],
        [("id", a), ("display_name", String.mk (stripParenSuffix (trimSpace n.data))),
          ("model", ""), ("protocol", "")]] := by
  have hne : trimSpace n.data ≠ [] := fun h => hclean (by rw [h]; rfl)
  have hane : a ≠ "" := fun h => (idLine_facts _ ha).1 (congrArg String.data h)
  have hdn : String.mk (stripParenSuffix (trimSpace n.data)) ≠ "" := fun h =>
    hclean (congrArg String.data h)
  have hL : '\n' ∉ "Display Name: ".data ++ n.data := by
    intro hc
    rcases List.mem_append.mp hc with h | h
    · revert h
      decide
    · exact hnl h
  have hlines : splitLines
      (a ++ "\n" ++ "Display Name: " ++ n ++ "\n" ++ a ++ "\n" ++ "Display Name: " ++ n).data =
      [a.data, "Display Name: ".data ++ n.data, a.data, "Display Name: ".data ++ n.data] := by
    have hd : (a ++ "\n" ++ "Display Name: " ++ n ++ "\n" ++ a ++ "\n" ++ "Display Name: " ++
        n).data = a.data ++ '\n' :: (("Display Name: ".data ++ n.data) ++ '\n' ::
          (a.data ++ '\n' :: ("Display Name: ".data ++ n.data))) := by
      simp only [String.data_append, List.append_assoc]
      rfl
    rw [hd, splitLines_append _ _ (idLine_facts _ ha).2, splitLines_append _ _ hL,
      splitLines_append _ _ (idLine_facts _ ha).2, splitLines_no_newline _ hL]
  simp only [discoverFrom, hlines, List.foldl, scanLine_id lower _ _ hat ha]
  rw [scanLine_display lower _ _ (by simp) hnl hne]
  simp only [scanLine_id lower _ _ hat ha]
  rw [scanLine_display lower _ _ (by simp) hnl hne]
  simp [flushDevice, StrMap.getStr, StrMap.get?, StrMap.set, hane, hdn]

/-- C9 as stated fails: for the identifier lines `naa.1`, `naa.2` and the display name `(x)`,
the listing `[a, b, "Display Name: n"]` returns no device at all, because the whole name is
removed as a parenthesised suffix and the record is dropped as incomplete. -/
theorem discoverFrom_order_counterexample :
    deviceRegexMatch "naa.1".data = true ∧ deviceRegexMatch "naa.2".data = true ∧
      discoverFrom (fun c => c) ("naa.1" ++ "\n" ++ "naa.2" ++ "\n" ++ "Display Name: " ++ "(x)") =
        [] := by
  decide

/-- C9, amended (order and non-deduplication).  For every listing text, the ids of the returned
devices are, in input order, exactly the identifier lines whose in-progress record holds a
non-empty display name when the next identifier line or the end of the input is reached
(`expectedIds`).  Hence, for identifier lines `a`, `b` (trimmed lines that match the device
pattern) and a display name `n` without line break that is not empty once it is trimmed and a
trailing parenthesised suffix is removed, the listing `[a, b, "Display Name: n"]` returns
exactly one device, with id `b`, and the listing `[a, "Display Name: n", a, "Display Name: n"]`
returns two devices with the same id `a`. -/
theorem discoverFrom_order (lower : Char → Char) (output a b n : String)
    (hat : trimSpace a.data = a.data) (ha : deviceRegexMatch a.data = true)
    (hbt : trimSpace b.data = b.data) (hb : deviceRegexMatch b.data = true)
    (hnl : '\n' ∉ n.data) (hclean : stripParenSuffix (trimSpace n.data) ≠ []) :
    deviceIds (discoverFrom lower output) = expectedIds (splitLines output.data) ∧
      discoverFrom lower (a ++ "\n" ++ b ++ "\n" ++ "Display Name: " ++ n) =
        [[("id", b), ("display_name", String.mk (stripParenSuffix (trimSpace n.data))),
          ("model", ""), ("protocol", "")]] ∧
      discoverFrom lower
          (a ++ "\n" ++ "Display Name: " ++ n ++ "\n" ++ a ++ "\n" ++ "Display Name: " ++ n) =
        [[("id", a), ("display_name", String.mk (stripParenSuffix (trimSpace n.data))),
            ("model", ""), ("protocol", "")],
          [("id", a), ("display_name", String.mk (stripParenSuffix (trimSpace n.data))),
            ("model", ""), ("protocol", "")]] :=
  ⟨scanFrom_fresh lower (splitLines output.data),
    discoverFrom_two_ids lower a b n hat ha hbt hb hnl hclean,
    discoverFrom_repeated_id lower a n hat ha hnl hclean⟩

/-- C9, amended, at `sampleListing` and at the identifier lines `naa.1`, `naa.2` with the
display name `Local Disk (naa.2)`. -/
theorem discoverFrom_order_witness :
    deviceIds (discoverFrom (fun c => c) sampleListing) = ["naa.1", "naa.2"] ∧
      discoverFrom (fun c => c)
          ("naa.1" ++ "\n" ++ "naa.2" ++ "\n" ++ "Display Name: " ++ "Local Disk (naa.2)") =
        [[("id", "naa.2"), ("display_name", "Local Disk"), ("model", ""), ("protocol", "")]] ∧
      (discoverFrom (fun c => c)
          ("naa.1" ++ "\n" ++ "Display Name: " ++ "Local Disk (naa.2)" ++ "\n" ++ "naa.1" ++ "\n" ++
            "Display Name: " ++ "Local Disk (naa.2)")).length = 2 :=
  ⟨(discoverFrom_order (fun c => c) sampleListing "naa.1" "naa.2" "Local Disk (naa.2)"
      (by decide) (by decide) (by decide) (by decide) (by decide) (by decide)).1.trans
      (by decide),
    (discoverFrom_order (fun c => c) sampleListing "naa.1" "naa.2" "Local Disk (naa.2)"
      (by decide) (by decide) (by decide) (by decide) (by decide) (by decide)).2.1.trans
      (by decide),
    (congrArg List.length
      (discoverFrom_order (fun c => c) sampleListing "naa.1" "naa.2" "Local Disk (naa.2)"
        (by decide) (by decide) (by decide) (by decide) (by decide) (by decide)).2.2).trans
      (by decide)⟩

/-- C10 fails on the code: the SSD pattern `Is SSD:\s*true` is case-sensitive but is matched
against the lowered line, which has no capital letter, so it never matches.  For the listing
`[a, "Display Name: n", "Is SSD: true"]` with `a = naa.1` and `n = Local Disk`, in three letter
cases of the SSD line, the device comes back with an empty protocol, not with `SSD`. -/
theorem discoverFrom_ssd_line_ignored (lower : Char → Char) :
    discoverFrom lower "naa.1\nDisplay Name: Local Disk\nIs SSD: true" =
        [[("id", "naa.1"), ("display_name", "Local Disk"), ("model", ""), ("protocol", "")]] ∧
      discoverFrom lower "naa.1\nDisplay Name: Local Disk\n   is ssd: true" =
        [[("id", "naa.1"), ("display_name", "Local Disk"), ("model", ""), ("protocol", "")]] ∧
      discoverFrom lower "naa.1\nDisplay Name: Local Disk\nIS SSD: TRUE" =
        [[("id", "naa.1"), ("display_name", "Local Disk"), ("model", ""), ("protocol", "")]] ∧
      ssdRegexMatch "Is SSD: true".data = true ∧
      ssdRegexMatch (toLower lower "Is SSD: true".data) = false :=
  ⟨rfl, rfl, rfl, rfl, rfl⟩

/-! ## Steps of a cycle that stay clear of the fallback indicator -/

theorem sink_get_set {F : Type} (s : Sink F) (g g' : Gauge) (l l' : List (String × String))
    (v : F) :
    (s.set g l v).get? g' l' = if g = g' ∧ l = l' then some v else s.get? g' l' := by
  induction s with
  | nil => simp [Sink.set, Sink.get?]
  | cons x t ih =>
    simp only [Sink.set]
    by_cases h1 : x.gauge = g ∧ x.labels = l
    · rw [if_pos h1]
      by_cases h2 : g = g' ∧ l = l'
      · simp [Sink.get?, h2]
      · have h3 : ¬ (x.gauge = g' ∧ x.labels = l') := by
          rw [h1.1, h1.2]
          exact h2
        simp [Sink.get?, h2, h3]
    · rw [if_neg h1]
      by_cases h3 : x.gauge = g' ∧ x.labels = l'
      · have h2 : ¬ (g = g' ∧ l = l') := by
          rw [← h3.1, ← h3.2]
          exact fun h => h1 ⟨h.1.symm, h.2.symm⟩
        simp [Sink.get?, h2, h3]
      · simp only [Sink.get?, if_neg h3, ih]

theorem bind_run {σ F α β : Type} (m : Cycle σ F α) (f : α → Cycle σ F β) (w : World σ F) :
    (m >>= f) w = match m w with
      | (some a, w1) => f a w1
      | (none, w1) => (none, w1) := rfl

theorem avoids_pure {σ F α : Type} (a : α) : Avoids (pure a : Cycle σ F α) :=
  fun _ => ⟨fun _ => rfl, [], (List.append_nil _).symm, List.not_mem_nil _⟩

theorem avoids_bind {σ F α β : Type} (m : Cycle σ F α) (f : α → Cycle σ F β) (hm : Avoids m)
    (hf : ∀ a, Avoids (f a)) : Avoids (m >>= f) := by
  intro w
  rw [bind_run]
  obtain ⟨h1, e1, h2, h3⟩ := hm w
  cases hmw : m w with
  | mk r w1 =>
    rw [hmw] at h1 h2
    cases r with
    | none => exact ⟨h1, e1, h2, h3⟩
    | some a =>
      obtain ⟨k1, e2, k2, k3⟩ := hf a w1
      refine ⟨fun labels => (k1 labels).trans (h1 labels), e1 ++ e2, ?_, ?_⟩
      · show ((f a w1).2).calls = w.calls ++ (e1 ++ e2)
        rw [k2, h2, List.append_assoc]
      · intro hc
        rcases List.mem_append.mp hc with h | h
        · exact h3 h
        · exact k3 h

theorem avoids_orPanic {σ F α : Type} (o : Option α) : Avoids (orPanic o : Cycle σ F α) := by
  cases o <;> exact fun _ => ⟨fun _ => rfl, [], (List.append_nil _).symm, List.not_mem_nil _⟩

theorem avoids_setGauge {σ F : Type} (g : Gauge) (labels : List (String × String)) (v : F)
    (hg : g ≠ .smartctl_info) : Avoids (setGauge g labels v : Cycle σ F Unit) := by
  intro w
  refine ⟨fun l => ?_, [], (List.append_nil _).symm, List.not_mem_nil _⟩
  show (w.sink.set g labels v).get? .smartctl_info l = _
  rw [sink_get_set, if_neg (fun h => hg h.1)]

theorem avoids_runCmd {σ F : Type} (run : Runner σ) (command : String)
    (hc : command ≠ discoveryCmd) : Avoids (runCmd run command : Cycle σ F (Option String)) := by
  intro w
  refine ⟨fun _ => rfl, [command], rfl, ?_⟩
  simpa using fun h => hc h.symm

theorem avoids_forEach {σ F β : Type} (f : β → Cycle σ F Unit) (xs : List β)
    (hf : ∀ x, Avoids (f x)) : Avoids (forEach f xs) := by
  induction xs with
  | nil => exact avoids_pure ()
  | cons x t ih => exact avoids_bind _ _ (hf x) (fun _ => ih)

theorem total_pure {σ F α : Type} (a : α) : Total (pure a : Cycle σ F α) := fun _ => ⟨a, rfl⟩

theorem total_bind {σ F α β : Type} (m : Cycle σ F α) (f : α → Cycle σ F β) (hm : Total m)
    (hf : ∀ a, Total (f a)) : Total (m >>= f) := by
  intro w
  rw [bind_run]
  obtain ⟨a, ha⟩ := hm w
  cases hmw : m w with
  | mk r w1 =>
    rw [hmw] at ha
    simp only at ha
    subst ha
    exact hf a w1

theorem total_setGauge {σ F : Type} (g : Gauge) (labels : List (String × String)) (v : F) :
    Total (setGauge g labels v : Cycle σ F Unit) := fun _ => ⟨(), rfl⟩

theorem total_runCmd {σ F : Type} (run : Runner σ) (command : String) :
    Total (runCmd run command : Cycle σ F (Option String)) := fun _ => ⟨_, rfl⟩

theorem total_forEach {σ F β : Type} (f : β → Cycle σ F Unit) (xs : List β)
    (hf : ∀ x, Total (f x)) : Total (forEach f xs) := by
  induction xs with
  | nil => exact total_pure ()
  | cons x t ih => exact total_bind _ _ (hf x) (fun _ => ih)

theorem perccli_smart_cmd_ne (drivePath : String) :
    "cd /opt/lsi/perccli && ./perccli " ++ drivePath ++ " show smart" ≠ discoveryCmd := by
  intro h
  have hd := congrArg String.data h
  simp only [String.data_append] at hd
  revert hd
  simp [discoveryCmd]

theorem smartctl_cmd_ne (deviceID : String) :
    "cd /opt/smartmontools && ./smartctl -a -d sat /dev/disks/" ++ deviceID ++
      " | awk \x27/ID# ATTRIBUTE_NAME/,/Total_LBAs_Written/\x27" ≠ discoveryCmd := by
  intro h
  have hd := congrArg String.data h
  simp only [String.data_append] at hd
  revert hd
  simp [discoveryCmd]

theorem avoids_getPerccliSmart {σ F : Type} (run : Runner σ) (drivePath : String) :
    Avoids (getPerccliSmart run drivePath : Cycle σ F String) := by
  unfold getPerccliSmart
  apply avoids_bind
  · exact avoids_runCmd _ _ (perccli_smart_cmd_ne drivePath)
  · intro a
    split <;> exact avoids_pure _

theorem avoids_parseEsxcliSmart {σ F : Type} (lib : Lib F) (run : Runner σ) (deviceID : String) :
    Avoids (parseEsxcliSmart lib run deviceID : Cycle σ F (StrMap F)) := by
  unfold parseEsxcliSmart
  apply avoids_bind
  · exact avoids_runCmd _ _ (smartctl_cmd_ne deviceID)
  · intro a
    split <;> exact avoids_pure _

theorem total_parseEsxcliSmart {σ F : Type} (lib : Lib F) (run : Runner σ) (deviceID : String) :
    Total (parseEsxcliSmart lib run deviceID : Cycle σ F (StrMap F)) := by
  unfold parseEsxcliSmart
  apply total_bind
  · exact total_runCmd _ _
  · intro a
    split <;> exact total_pure _

theorem avoids_handleCommonController {σ F : Type} (lib : Lib F) (response : StrMap (JVal F)) :
    Avoids (handleCommonController lib response : Cycle σ F Unit) := by
  unfold handleCommonController
  repeat' first
    | exact avoids_pure _
    | exact avoids_orPanic _
    | exact avoids_setGauge _ _ _ (by decide)
    | refine avoids_bind _ _ ?_ (fun _ => ?_)
    | split

theorem avoids_createMetricsOfPhysicalDrive {σ F : Type} (lib : Lib F)
    (physicalDrive : StrMap (JVal F)) (controllerIndex : String) (smartAttributes : StrMap Nat) :
    Avoids (createMetricsOfPhysicalDrive lib physicalDrive controllerIndex smartAttributes :
      Cycle σ F Unit) := by
  unfold createMetricsOfPhysicalDrive
  repeat' first
    | exact avoids_pure _
    | exact avoids_orPanic _
    | exact avoids_setGauge _ _ _ (by decide)
    | exact avoids_forEach _ _ (fun _ => avoids_setGauge _ _ _ (by decide))
    | refine avoids_bind _ _ ?_ (fun _ => ?_)
    | split
    | dsimp only

theorem avoids_handlePhysicalDrive {σ F : Type} (lib : Lib F) (run : Runner σ)
    (controllerIndex : String) (drive : JVal F) :
    Avoids (handlePhysicalDrive lib run controllerIndex drive : Cycle σ F Unit) := by
  unfold handlePhysicalDrive
  repeat' first
    | exact avoids_pure _
    | exact avoids_orPanic _
    | exact avoids_getPerccliSmart _ _
    | exact avoids_createMetricsOfPhysicalDrive _ _ _ _
    | refine avoids_bind _ _ ?_ (fun _ => ?_)
    | split

theorem avoids_handleVirtualDrive {σ F : Type} (lib : Lib F) (controllerIndex : String)
    (vd : JVal F) : Avoids (handleVirtualDrive lib controllerIndex vd : Cycle σ F Unit) := by
  unfold handleVirtualDrive
  repeat' first
    | exact avoids_pure _
    | exact avoids_orPanic _
    | exact avoids_setGauge _ _ _ (by decide)
    | refine avoids_bind _ _ ?_ (fun _ => ?_)
    | split

theorem avoids_handleMegaraidController {σ F : Type} (lib : Lib F) (run : Runner σ)
    (response : StrMap (JVal F)) :
    Avoids (handleMegaraidController lib run response : Cycle σ F Unit) := by
  unfold handleMegaraidController
  repeat' first
    | exact avoids_pure _
    | exact avoids_orPanic _
    | exact avoids_setGauge _ _ _ (by decide)
    | exact avoids_forEach _ _ (fun _ => avoids_handlePhysicalDrive _ _ _ _)
    | exact avoids_forEach _ _ (fun _ => avoids_handleVirtualDrive _ _ _)
    | refine avoids_bind _ _ ?_ (fun _ => ?_)
    | split

theorem avoids_handleController {σ F : Type} (lib : Lib F) (run : Runner σ)
    (controller : JVal F) : Avoids (handleController lib run controller : Cycle σ F Unit) := by
  unfold handleController
  repeat' first
    | exact avoids_pure _
    | exact avoids_orPanic _
    | exact avoids_handleCommonController _ _
    | exact avoids_handleMegaraidController _ _ _
    | refine avoids_bind _ _ ?_ (fun _ => ?_)
    | split
    | dsimp only

theorem avoids_primaryPath {σ F : Type} (lib : Lib F) (run : Runner σ)
    (perccliData : StrMap (JVal F)) :
    Avoids (primaryPath lib run perccliData : Cycle σ F Unit) := by
  unfold primaryPath
  exact avoids_bind _ _ (avoids_orPanic _)
    (fun _ => avoids_forEach _ _ (fun _ => avoids_handleController _ _ _))

theorem avoids_publishEsxcliDevice {σ F : Type} (lib : Lib F) (run : Runner σ)
    (device : StrMap String) :
    Avoids (publishEsxcliDevice lib run device : Cycle σ F Unit) := by
  unfold publishEsxcliDevice
  repeat' first
    | exact avoids_pure _
    | exact avoids_setGauge _ _ _ (by decide)
    | exact avoids_parseEsxcliSmart _ _ _
    | exact avoids_forEach _ _ (fun _ => avoids_setGauge _ _ _ (by decide))
    | refine avoids_bind _ _ ?_ (fun _ => ?_)

theorem total_publishEsxcliDevice {σ F : Type} (lib : Lib F) (run : Runner σ)
    (device : StrMap String) :
    Total (publishEsxcliDevice lib run device : Cycle σ F Unit) := by
  unfold publishEsxcliDevice
  repeat' first
    | exact total_pure _
    | exact total_setGauge _ _ _
    | exact total_parseEsxcliSmart _ _ _
    | exact total_forEach _ _ (fun _ => total_setGauge _ _ _)
    | refine total_bind _ _ ?_ (fun _ => ?_)

/-! ## The source decision -/

theorem findAfter_infix (lit pre post : List Char) :
    (findAfter lit (fun _ => some ()) (pre ++ (lit ++ post))).isSome = true := by
  induction pre with
  | nil =>
    rw [List.nil_append, findAfter_at_start lit post (fun _ => some ()) () rfl]
    rfl
  | cons c t ih =>
    rw [List.cons_append, findAfter]
    split
    · rfl
    · exact ih

theorem containsLit_of_infix (lit : String) (s : List Char) (h : lit.data <:+: s) :
    containsLit lit s = true := by
  obtain ⟨pre, post, rfl⟩ := h
  rw [List.append_assoc]
  exact findAfter_infix lit.data pre post

theorem sourceDecision_unusable {F : Type} (lib : Lib F) (outcome : Option String)
    (h : SourceUnusable lib outcome) : ∃ data, sourceDecision lib outcome = some (true, data) := by
  rcases h with rfl | ⟨stdout, rfl, h⟩
  · exact ⟨[], rfl⟩
  · rcases h with h | ⟨data, hd, h⟩
    · exact ⟨[], by simp only [sourceDecision, h]⟩
    · refine ⟨data, ?_⟩
      rcases h with h | h | ⟨fc, cs, rest, d, h1, h2, h3, h4, h5⟩
      · simp only [sourceDecision, hd]
        cases hc : data.get? "Controllers" with
        | none => rfl
        | some v =>
          cases v with
          | arr items => exact absurd hc (h items)
          | _ => rfl
      · simp only [sourceDecision, hd, h, asArr?]
      · simp only [sourceDecision, hd, h1, asArr?, asObj?, h2, h3, isStr, h4, asStr?,
          decide_True, if_true, containsLit_of_infix _ _ h5]

theorem sourceDecision_usable {F : Type} (lib : Lib F) (outcome : Option String)
    (h : SourceUsable lib outcome) : ∃ data, sourceDecision lib outcome = some (false, data) := by
  obtain ⟨stdout, data, first, rest, rfl, hd, hc, hno⟩ := h
  refine ⟨data, ?_⟩
  simp only [sourceDecision, hd, hc, asArr?]
  cases hfo : asObj? (some first) with
  | none => rfl
  | some fc =>
    have hfirst : first = .obj fc := by
      cases first <;> simp [asObj?] at hfo
      rw [hfo]
    simp only
    cases hcso : asObj? (StrMap.get? fc "Command Status") with
    | none => rfl
    | some cs =>
      have hcs : StrMap.get? fc "Command Status" = some (.obj cs) := by
        cases hv : StrMap.get? fc "Command Status" with
        | none => simp [hv, asObj?] at hcso
        | some v =>
          rw [hv] at hcso
          cases v <;> simp [asObj?] at hcso
          rw [hcso]
      have hs := hno fc cs hfirst hcs
      have hfalse : isStr (StrMap.get? cs "Status") "Failure" = false := by
        cases hst : StrMap.get? cs "Status" with
        | none => rfl
        | some sv =>
          cases sv with
          | str s =>
            have hne : s ≠ "Failure" := fun e => hs (by rw [hst, e])
            simp [isStr, hne]
          | _ => rfl
      simp only [hfalse, Bool.false_eq_true, if_false]

/-! ## The two paths of a cycle -/

theorem CollectMetrics_run {σ F : Type} (lib : Lib F) (run : Runner σ) (ext : σ)
    (calls : List String) (sink : Sink F) (b : Bool) (data : StrMap (JVal F))
    (h : sourceDecision lib (run perccliCmd ext).1 = some (b, data)) :
    CollectMetrics lib run ⟨ext, calls, sink⟩ =
      (if b = false then primaryPath lib run data else fallbackPath lib run)
        ⟨(run perccliCmd ext).2, calls ++ [perccliCmd], []⟩ := by
  simp only [CollectMetrics, bind_run, resetMetrics, runCmd, Sink.resetAll, h, orPanic]

theorem fallbackPath_run {σ F : Type} (lib : Lib F) (run : Runner σ) (w : World σ F) :
    (fallbackPath lib run w).1 = some () ∧
      (fallbackPath lib run w).2.sink.get? .smartctl_info [("host", host)] =
        some (lib.ofNat 1) ∧
      discoveryCmd ∈ (fallbackPath lib run w).2.calls := by
  have hdisc : ∃ devs, discoverEsxcliDevices lib run
      ⟨w.ext, w.calls, w.sink.set .smartctl_info [("host", host)] (lib.ofNat 1)⟩ =
        (some devs, ⟨(run discoveryCmd w.ext).2, w.calls ++ [discoveryCmd],
          w.sink.set .smartctl_info [("host", host)] (lib.ofNat 1)⟩) := by
    simp only [discoverEsxcliDevices, bind_run, runCmd]
    cases (run discoveryCmd w.ext).1 with
    | none => exact ⟨[], rfl⟩
    | some output => exact ⟨_, rfl⟩
  obtain ⟨devs, hdevs⟩ := hdisc
  have hrun : fallbackPath lib run w =
      forEach (publishEsxcliDevice lib run) devs
        ⟨(run discoveryCmd w.ext).2, w.calls ++ [discoveryCmd],
          w.sink.set .smartctl_info [("host", host)] (lib.ofNat 1)⟩ := by
    simp only [fallbackPath, bind_run, setGauge, hdevs]
  rw [hrun]
  obtain ⟨a, ha⟩ := total_forEach _ devs (total_publishEsxcliDevice lib run) (⟨(run discoveryCmd w.ext).2, w.calls ++ [discoveryCmd],
          w.sink.set .smartctl_info [("host", host)] (lib.ofNat 1)⟩ : World σ F)
  obtain ⟨hs, extra, hc, -⟩ := avoids_forEach _ devs (avoids_publishEsxcliDevice lib run) (⟨(run discoveryCmd w.ext).2, w.calls ++ [discoveryCmd],
          w.sink.set .smartctl_info [("host", host)] (lib.ofNat 1)⟩ : World σ F)
  refine ⟨ha, ?_, ?_⟩
  · rw [hs, sink_get_set, if_pos ⟨rfl, rfl⟩]
  · rw [hc]
    simp

/-- C1 (source selection).  Let the cycle start with no command recorded.  If the structured
source is unusable (`SourceUnusable`: the command fails, or its output is not decodable, or the
`Controllers` list is missing or empty, or its first entry has a `Command Status` with `Status`
`Failure` and a `Description` containing `No Controller found`), the cycle takes the fallback
path: it does not panic, `smartctl_info` is 1 for the host, and the discovery command was run.
If the source is usable (`SourceUsable`: a non-empty `Controllers` list whose first entry has no
failing `Command Status`, as for one valid controller with `Controller Status` `Optimal`), the
cycle takes the primary path: `smartctl_info` has no child and the discovery command was never
run, whether or not the cycle runs to its end. -/
theorem CollectMetrics_source_selection {σ F : Type} (lib : Lib F) (run : Runner σ) (ext : σ)
    (sink : Sink F) :
    (SourceUnusable lib (run perccliCmd ext).1 →
        (CollectMetrics lib run ⟨ext, [], sink⟩).1 = some () ∧
          (CollectMetrics lib run ⟨ext, [], sink⟩).2.sink.get? .smartctl_info [("host", host)] =
            some (lib.ofNat 1) ∧
          discoveryCmd ∈ (CollectMetrics lib run ⟨ext, [], sink⟩).2.calls) ∧
      (SourceUsable lib (run perccliCmd ext).1 →
        (∀ labels,
            (CollectMetrics lib run ⟨ext, [], sink⟩).2.sink.get? .smartctl_info labels = none) ∧
          discoveryCmd ∉ (CollectMetrics lib run ⟨ext, [], sink⟩).2.calls) := by
  refine ⟨fun h => ?_, fun h => ?_⟩
  · obtain ⟨data, hd⟩ := sourceDecision_unusable lib _ h
    rw [CollectMetrics_run lib run ext [] sink true data hd]
    exact fallbackPath_run lib run _
  · obtain ⟨data, hd⟩ := sourceDecision_usable lib _ h
    rw [CollectMetrics_run lib run ext [] sink false data hd]
    obtain ⟨hs, extra, hc, hne⟩ := avoids_primaryPath lib run data
      (⟨(run perccliCmd ext).2, [] ++ [perccliCmd], []⟩ : World σ F)
    refine ⟨fun labels => ?_, ?_⟩
    · rw [if_pos rfl, hs]
      rfl
    · rw [if_pos rfl, hc]
      intro hmem
      rcases List.mem_append.mp hmem with h1 | h1
      · have h2 : discoveryCmd ∈ [perccliCmd] := h1
        revert h2
        decide
      · exact hne h1

/-- C2 (reset, then repopulate).  For every command runner, machine state and record of calls,
a cycle started with one sink and a cycle started with another end in the same result and the
same world, sink included; in particular the outcome is that of a cycle started with the empty
sink, so a label set from before the cycle is in the sink afterwards only if the cycle set it. -/
theorem CollectMetrics_resets {σ F : Type} (lib : Lib F) (run : Runner σ) (ext : σ)
    (calls : List String) (sink1 sink2 : Sink F) :
    CollectMetrics lib run ⟨ext, calls, sink1⟩ = CollectMetrics lib run ⟨ext, calls, sink2⟩ ∧
      CollectMetrics lib run ⟨ext, calls, sink1⟩ = CollectMetrics lib run ⟨ext, calls, []⟩ :=
  ⟨rfl, rfl⟩

/-- C1, at `sampleLib` and `sampleRun`: without a controller the cycle sets `smartctl_info` and
runs the discovery command; with one optimal controller it does neither. -/
theorem CollectMetrics_source_selection_witness :
    SourceUnusable sampleLib (sampleRun perccliCmd false).1 ∧
      SourceUsable sampleLib (sampleRun perccliCmd true).1 ∧
      ((CollectMetrics sampleLib sampleRun ⟨false, [], []⟩).1 = some () ∧
        (CollectMetrics sampleLib sampleRun ⟨false, [], []⟩).2.sink.get? .smartctl_info
          [("host", host)] = some 1 ∧
        discoveryCmd ∈ (CollectMetrics sampleLib sampleRun ⟨false, [], []⟩).2.calls) ∧
      ((∀ labels, (CollectMetrics sampleLib sampleRun ⟨true, [], []⟩).2.sink.get? .smartctl_info
          labels = none) ∧
        discoveryCmd ∉ (CollectMetrics sampleLib sampleRun ⟨true, [], []⟩).2.calls) ∧
      (CollectMetrics sampleLib sampleRun ⟨true, [], []⟩).2.calls = [perccliCmd] :=
  ⟨Or.inr ⟨"no-controller", rfl, Or.inr ⟨_, rfl, Or.inr (Or.inr
      ⟨_, _, _, _, rfl, rfl, rfl, rfl, [], [], rfl⟩)⟩⟩,
    ⟨"one-controller", _, _, _, rfl, rfl, rfl, by
      intro fc cs h1 h2
      cases h1
      cases h2
      simp [StrMap.get?]⟩,
    (CollectMetrics_source_selection sampleLib sampleRun false []).1
      (Or.inr ⟨"no-controller", rfl, Or.inr ⟨_, rfl, Or.inr (Or.inr
        ⟨_, _, _, _, rfl, rfl, rfl, rfl, [], [], rfl⟩)⟩⟩),
    (CollectMetrics_source_selection sampleLib sampleRun true []).2
      ⟨"one-controller", _, _, _, rfl, rfl, rfl, by
        intro fc cs h1 h2
        cases h1
        cases h2
        simp [StrMap.get?]⟩,
    by decide⟩

/-! ## Truncated tails -/

theorem hexPairs_odd_digit (bs : List Nat) (c : Char) :
    hexPairs (bs.flatMap hexOfByte ++ [c]) = hexPairs (bs.flatMap hexOfByte) := by
  induction bs with
  | nil => rfl
  | cons b t ih =>
    rw [List.flatMap_cons, List.append_assoc, hexPairs_hexOfByte_append,
      hexPairs_hexOfByte_append, ih]

/-- One more hex digit after the hex text of a byte sequence does not change the bytes read. -/
theorem byteArrayOf_hexOf_digit (bs : List Nat) (c : Char) (hb : ∀ b ∈ bs, b < 256)
    (hc : isHexChar c = true) :
    byteArrayOf (hexOf bs ++ String.singleton c) = bs := by
  have hd : (hexOf bs ++ String.singleton c).data = bs.flatMap hexOfByte ++ [c] := by
    simp [hexOf, String.data_append, String.singleton]
  simp only [byteArrayOf, hd, List.filter_append, hexOf_filter bs hb]
  have hf : List.filter isHexChar [c] = [c] := by simp [hc]
  rw [hf, hexPairs_odd_digit, hexPairs_hexOf bs hb]

theorem parseSmartData_of_bytes (s : String) (bs : List Nat) (h : byteArrayOf s = bs) :
    parseSmartData s = scanRecords (bs.drop (startIndex bs)) [] := by
  simp only [parseSmartData, h]

theorem scan_stream_tail (rs : List (List Nat)) (T : List Nat)
    (hrec : ∀ r ∈ rs, r.length = 11 ∧ r.headD 0 ≠ 0) (hb : ∀ b ∈ rs.flatten ++ T, b < 256)
    (hh : ¬ ([0x01, 0x00] <+: rs.flatten ∨ [0x2f, 0x00] <+: rs.flatten))
    (hT : T.length < 11) :
    scanRecords ((rs.flatten ++ T).drop (startIndex (rs.flatten ++ T))) [] = emitAll rs [] := by
  have hbA : ∀ b ∈ rs.flatten, b < 256 := fun b hm => hb b (List.mem_append_left _ hm)
  match rs, hrec, hb, hh, hbA with
  | [], _, _, _, _ =>
    simp only [List.flatten_nil, List.nil_append]
    exact scanRecords_short _ _ (by
      have := List.length_drop (startIndex T) T
      omega)
  | r :: t, hrec, hb, hh, hbA =>
    have hno : ¬ ([0x01, 0x00] <+: (r :: t).flatten ++ T ∨
        [0x2f, 0x00] <+: (r :: t).flatten ++ T) := by
      obtain ⟨b0, b1, b2, b3, b4, b5, b6, b7, b8, b9, b10, rfl⟩ :=
        eleven_bytes r (hrec r (List.mem_cons_self _ _)).1
      intro hc
      apply hh
      simp only [List.flatten_cons, List.cons_append, List.nil_append, List.cons_prefix_cons,
        List.nil_prefix, and_true] at hc ⊢
      exact hc
    rw [startIndex_of_no_header _ hno, List.drop_zero,
      scanRecords_stream (r :: t) T [] hrec hbA, scanRecords_short _ _ hT]

/-- C20 (truncated tail).  Let `A` be the concatenation of the complete 11-byte records `rs`,
each with a non-zero id byte, not beginning with `01 00` or `2F 00`, and let `T` be fewer than
11 bytes.  Decoding `A ++ T` gives the attribute map of decoding `A`; decoding `T` alone gives
the empty map; and both hold as well when one more hex digit `c` follows the hex text. -/
theorem parseSmartData_truncated_tail (rs : List (List Nat)) (T : List Nat) (c : Char)
    (hrec : ∀ r ∈ rs, r.length = 11 ∧ r.headD 0 ≠ 0) (hb : ∀ b ∈ rs.flatten ++ T, b < 256)
    (hh : ¬ ([0x01, 0x00] <+: rs.flatten ∨ [0x2f, 0x00] <+: rs.flatten))
    (hT : T.length < 11) (hc : isHexChar c = true) :
    parseSmartData (hexOf (rs.flatten ++ T)) = parseSmartData (hexOf rs.flatten) ∧
      parseSmartData (hexOf T) = [] ∧
      parseSmartData (hexOf (rs.flatten ++ T) ++ String.singleton c) =
        parseSmartData (hexOf rs.flatten) ∧
      parseSmartData (hexOf T ++ String.singleton c) = [] := by
  have hbA : ∀ b ∈ rs.flatten, b < 256 := fun b hm => hb b (List.mem_append_left _ hm)
  have hbT : ∀ b ∈ T, b < 256 := fun b hm => hb b (List.mem_append_right _ hm)
  have hA : parseSmartData (hexOf rs.flatten) = emitAll rs [] := by
    rw [parseSmartData_no_header _ hbA hh]
    have := scanRecords_stream rs [] [] hrec hbA
    rw [List.append_nil] at this
    rw [this]
    rfl
  have hshort : scanRecords (T.drop (startIndex T)) [] = [] :=
    scanRecords_short _ _ (by
      have := List.length_drop (startIndex T) T
      omega)
  refine ⟨?_, ?_, ?_, ?_⟩
  · rw [hA, parseSmartData_of_bytes _ _ (byteArrayOf_hexOf _ hb)]
    exact scan_stream_tail rs T hrec hb hh hT
  · rw [parseSmartData_of_bytes _ _ (byteArrayOf_hexOf _ hbT)]
    exact hshort
  · rw [hA, parseSmartData_of_bytes _ _ (byteArrayOf_hexOf_digit _ c hb hc)]
    exact scan_stream_tail rs T hrec hb hh hT
  · rw [parseSmartData_of_bytes _ _ (byteArrayOf_hexOf_digit _ c hbT hc)]
    exact hshort

/-- C20, at one `power_on_hours` record followed by the first ten bytes of a second record,
and at that text with the digit `7` appended. -/
theorem parseSmartData_truncated_tail_witness :
    parseSmartData (hexOf ([[0x09, 0, 0, 100, 0, 0x10, 0x27, 0, 0, 0, 0]].flatten ++
        [0x0C, 0, 0, 100, 0, 7, 0, 0, 0, 0])) = [("power_on_hours", 10000)] ∧
      parseSmartData (hexOf ([[0x09, 0, 0, 100, 0, 0x10, 0x27, 0, 0, 0, 0]].flatten ++
        [0x0C, 0, 0, 100, 0, 7, 0, 0, 0, 0]) ++ String.singleton '7') =
        [("power_on_hours", 10000)] ∧
      parseSmartData (hexOf [0x0C, 0, 0, 100, 0, 7, 0, 0, 0, 0]) = [] :=
  ⟨(parseSmartData_truncated_tail [[0x09, 0, 0, 100, 0, 0x10, 0x27, 0, 0, 0, 0]]
      [0x0C, 0, 0, 100, 0, 7, 0, 0, 0, 0] '7' (by decide) (by decide) (by decide) (by decide)
      (by decide)).1.trans (by decide),
    (parseSmartData_truncated_tail [[0x09, 0, 0, 100, 0, 0x10, 0x27, 0, 0, 0, 0]]
      [0x0C, 0, 0, 100, 0, 7, 0, 0, 0, 0] '7' (by decide) (by decide) (by decide) (by decide)
      (by decide)).2.2.1.trans (by decide),
    (parseSmartData_truncated_tail [[0x09, 0, 0, 100, 0, 0x10, 0x27, 0, 0, 0, 0]]
      [0x0C, 0, 0, 100, 0, 7, 0, 0, 0, 0] '7' (by decide) (by decide) (by decide) (by decide)
      (by decide)).2.1⟩

/-! ## The tabular parser -/

theorem dropLit?_isSome_iff (lit s : List Char) : (dropLit? lit s).isSome = true ↔ lit <+: s := by
  constructor
  · intro h
    cases hd : dropLit? lit s with
    | none => simp [hd] at h
    | some r => exact ⟨r, (dropLit?_eq_some _ _ _ hd).symm⟩
  · rintro ⟨r, rfl⟩
    simp [dropLit?_append]

theorem getD_last (tokens : List (List Char)) :
    tokens.getD (tokens.length - 1) [] = tokens.getLastD [] := by
  simp [List.getLast?_eq_getElem?]

/-- A header line or an empty line leaves the attributes alone. -/
theorem parseSmartRow_skip {F : Type} (lower : Char → Char) (parseFloat : String → Option F)
    (m : StrMap F) (l : List Char) (h : "ID#".data <+: trimSpace l ∨ trimSpace l = []) :
    parseSmartRow lower parseFloat m l = m := by
  have hc : (dropLit? "ID#".data (trimSpace l)).isSome = true ∨ trimSpace l = [] :=
    h.imp (dropLit?_isSome_iff _ _).mpr id
  simp only [parseSmartRow, if_pos hc]

/-- What one data row does to the attributes, case by case. -/
theorem parseSmartRow_data {F : Type} (lower : Char → Char) (parseFloat : String → Option F)
    (m : StrMap F) (l : List Char) (tokens : List (List Char))
    (htok : splitWs (trimSpace l) = tokens)
    (hd : ¬ "ID#".data <+: trimSpace l) (hne : trimSpace l ≠ []) :
    parseSmartRow lower parseFloat m l =
      if tokens.length < 10 then m
      else
        match parseFloat (String.mk (tokens.getLastD [])) with
        | none => m
        | some rawFloat =>
          if attrKeyOf lower (tokens.getD 1 []) = "wear_leveling_count" then
            match parseFloat (String.mk (tokens.getD 3 [])) with
            | some valueFloat =>
              (m.set "wear_leveling_count_value" valueFloat).set "wear_leveling_count_raw"
                rawFloat
            | none => m
          else m.set (attrKeyOf lower (tokens.getD 1 [])) rawFloat := by
  have hc : ¬ ((dropLit? "ID#".data (trimSpace l)).isSome = true ∨ trimSpace l = []) := by
    rintro (h | h)
    · exact hd ((dropLit?_isSome_iff _ _).mp h)
    · exact hne h
  simp only [parseSmartRow, if_neg hc, htok, getD_last]

/-- C12 (row acceptance).  Take a text made of a header line (a line that, trimmed, begins
with `ID#`) followed by a single non-empty data row (a line that, trimmed, is not empty and
does not begin with `ID#`), and let `tokens` be the pieces of the trimmed row between runs of
white space.  The result is empty when there are fewer than 10 tokens, and when the last token
does not parse as a number.  Otherwise, when the canonical name `c` (token 1 with every `-`
replaced by `_`, lowered) is not `wear_leveling_count`, the result is exactly the one-entry map
that sends `c` to the parsed last token; token 3 plays no part. -/
theorem parseSmartTable_single_row {F : Type} (lower : Char → Char)
    (parseFloat : String → Option F) (header row : String) (tokens : List (List Char))
    (hh1 : '\n' ∉ header.data) (hh2 : "ID#".data <+: trimSpace header.data)
    (hr1 : '\n' ∉ row.data) (hr2 : trimSpace row.data ≠ [])
    (hr3 : ¬ "ID#".data <+: trimSpace row.data)
    (htok : splitWs (trimSpace row.data) = tokens) :
    (tokens.length < 10 → parseSmartTable lower parseFloat (header ++ "\n" ++ row) = []) ∧
      (parseFloat (String.mk (tokens.getLastD [])) = none →
        parseSmartTable lower parseFloat (header ++ "\n" ++ row) = []) ∧
      (∀ rawFloat, 10 ≤ tokens.length →
        parseFloat (String.mk (tokens.getLastD [])) = some rawFloat →
        attrKeyOf lower (tokens.getD 1 []) ≠ "wear_leveling_count" →
        parseSmartTable lower parseFloat (header ++ "\n" ++ row) =
          [(attrKeyOf lower (tokens.getD 1 []), rawFloat)]) := by
  have hlines : splitLines (header ++ "\n" ++ row).data = [header.data, row.data] := by
    have hd : (header ++ "\n" ++ row).data = header.data ++ '\n' :: row.data := by
      simp only [String.data_append, List.append_assoc]
      rfl
    rw [hd, splitLines_append _ _ hh1, splitLines_no_newline _ hr1]
  have hres : parseSmartTable lower parseFloat (header ++ "\n" ++ row) =
      parseSmartRow lower parseFloat [] row.data := by
    simp only [parseSmartTable, hlines, List.foldl, parseSmartRow_skip _ _ _ _ (Or.inl hh2)]
  rw [hres, parseSmartRow_data lower parseFloat [] row.data tokens htok hr3 hr2]
  refine ⟨fun h => by rw [if_pos h], fun h => ?_, fun rawFloat h10 hp hk => ?_⟩
  · by_cases h10 : tokens.length < 10
    · rw [if_pos h10]
    · rw [if_neg h10, h]
  · rw [if_neg (by omega), hp]
    simp only [if_neg hk]
    rfl

/-- C12, at a header and a `Power_On_Hours` row, with `parseDigits` for the number parser. -/
theorem parseSmartTable_single_row_witness :
    parseSmartTable (fun c => c) parseDigits
        ("ID# ATTRIBUTE_NAME FLAG VALUE WORST THRESH TYPE UPDATED WHEN_FAILED RAW_VALUE" ++ "\n" ++
          "  9 Power-On_Hours 0x0032 099 099 000 Old_age Always - 1234") =
      [("power_on_hours", 1234)] :=
  ((parseSmartTable_single_row (fun c => c) parseDigits
      "ID# ATTRIBUTE_NAME FLAG VALUE WORST THRESH TYPE UPDATED WHEN_FAILED RAW_VALUE"
      "  9 Power-On_Hours 0x0032 099 099 000 Old_age Always - 1234"
      (splitWs (trimSpace "  9 Power-On_Hours 0x0032 099 099 000 Old_age Always - 1234".data))
      (by decide) (by decide) (by decide) (by decide) (by decide) rfl).2.2 1234 (by decide)
      (by decide) (by decide)).trans (by decide)

theorem strMap_get_set_isSome {α : Type} (m : StrMap α) (k k' : String) (v : α)
    (h : (m.get? k').isSome = true) : ((m.set k v).get? k').isSome = true := by
  rw [strMap_get_set]
  split_ifs
  · rfl
  · exact h

/-- A row never removes a key. -/
theorem parseSmartRow_keeps_key {F : Type} (lower : Char → Char)
    (parseFloat : String → Option F) (m : StrMap F) (l : List Char) (k : String)
    (h : (m.get? k).isSome = true) : ((parseSmartRow lower parseFloat m l).get? k).isSome = true := by
  simp only [parseSmartRow]
  repeat' split
  all_goals
    first
    | exact h
    | exact strMap_get_set_isSome _ _ _ _ h
    | exact strMap_get_set_isSome _ _ _ _ (strMap_get_set_isSome _ _ _ _ h)

theorem parseSmartRows_keep_key {F : Type} (lower : Char → Char)
    (parseFloat : String → Option F) (ls : List (List Char)) (m : StrMap F) (k : String)
    (h : (m.get? k).isSome = true) :
    ((ls.foldl (parseSmartRow lower parseFloat) m).get? k).isSome = true := by
  induction ls generalizing m with
  | nil => exact h
  | cons l t ih => exact ih _ (parseSmartRow_keeps_key lower parseFloat m l k h)

/-- A line that stores nothing under `k` when read on an empty map stores nothing under `k`
in any map: reading the line alone tells which keys it writes. -/
theorem parseSmartRow_unwritten {F : Type} (lower : Char → Char)
    (parseFloat : String → Option F) (m : StrMap F) (l : List Char) (k : String)
    (h : (parseSmartRow lower parseFloat [] l).get? k = none) :
    (parseSmartRow lower parseFloat m l).get? k = m.get? k := by
  by_cases hs : "ID#".data <+: trimSpace l ∨ trimSpace l = []
  · rw [parseSmartRow_skip _ _ _ _ hs]
  · have hd : ¬ "ID#".data <+: trimSpace l := fun hp => hs (Or.inl hp)
    have hne : trimSpace l ≠ [] := fun hp => hs (Or.inr hp)
    rw [parseSmartRow_data lower parseFloat [] l _ rfl hd hne] at h
    rw [parseSmartRow_data lower parseFloat m l _ rfl hd hne]
    by_cases h10 : (splitWs (trimSpace l)).length < 10
    · rw [if_pos h10]
    · rw [if_neg h10] at h ⊢
      cases hraw : parseFloat (String.mk ((splitWs (trimSpace l)).getLastD [])) with
      | none => rfl
      | some rawFloat =>
        rw [hraw] at h
        by_cases hkey : attrKeyOf lower ((splitWs (trimSpace l)).getD 1 []) =
            "wear_leveling_count"
        · simp only [if_pos hkey] at h ⊢
          cases hval : parseFloat (String.mk ((splitWs (trimSpace l)).getD 3 [])) with
          | none => rfl
          | some valueFloat =>
            rw [hval] at h
            simp only [strMap_get_set] at h ⊢
            split_ifs at h with h1 h2
            rw [if_neg h1, if_neg h2]
        · simp only [if_neg hkey, strMap_get_set] at h ⊢
          split_ifs at h with h1
          rw [if_neg h1]

theorem parseSmartRows_unwritten {F : Type} (lower : Char → Char)
    (parseFloat : String → Option F) (ls : List (List Char)) (m : StrMap F) (k : String)
    (h : ∀ l ∈ ls, (parseSmartRow lower parseFloat [] l).get? k = none) :
    (ls.foldl (parseSmartRow lower parseFloat) m).get? k = m.get? k := by
  induction ls generalizing m with
  | nil => rfl
  | cons l t ih =>
    rw [List.foldl_cons, ih _ (fun x hx => h x (List.mem_cons_of_mem _ hx)),
      parseSmartRow_unwritten lower parseFloat m l k (h l (List.mem_cons_self _ _))]

/-- C11 as stated fails: in `wearRowBadValue` the only data row has ten tokens, its token 1
canonicalises to `wear_leveling_count` and its last token `5` parses as a number, but its
token 3 (`---`) does not, and the row yields nothing. -/
theorem parseSmartTable_wear_counterexample :
    (splitLines wearRowBadValue.data).getD 1 [] =
        "177 Wear_Leveling_Count 0x0013 --- 099 000 Pre-fail Always - 5".data ∧
      (splitWs (trimSpace ((splitLines wearRowBadValue.data).getD 1 []))).length = 10 ∧
      attrKeyOf (fun c => c)
        ((splitWs (trimSpace ((splitLines wearRowBadValue.data).getD 1 []))).getD 1 []) =
          "wear_leveling_count" ∧
      parseDigits (String.mk
        ((splitWs (trimSpace ((splitLines wearRowBadValue.data).getD 1 []))).getLastD [])) =
          some 5 ∧
      parseSmartTable (fun c => c) parseDigits wearRowBadValue = [] := by
  decide

/-- C11, amended (wear-levelling pair of the tabular parser).  In every table text, take a
data row (a line that, trimmed, is not empty and does not begin with `ID#`) with at least 10
tokens whose token 1 canonicalises to `wear_leveling_count` and whose last token parses as the
number `rawFloat`.  If token 3 parses as a number `valueFloat`, the result contains both
`wear_leveling_count_raw` and `wear_leveling_count_value`, never just one of them or none; the
value under `wear_leveling_count_raw` is `rawFloat` unless a later line writes that key, and
the value under `wear_leveling_count_value` is `valueFloat` unless a later line writes that
key, where a line writes a key when, read on an empty map, it stores a value under it.  If
token 3 does not parse as a number, the row stores nothing, whatever the map it is read into:
the result is that of the table without this line. -/
theorem parseSmartTable_wear_pair {F : Type} (lower : Char → Char)
    (parseFloat : String → Option F) (output : String) (before after : List (List Char))
    (row : List Char) (tokens : List (List Char)) (rawFloat : F)
    (hlines : splitLines output.data = before ++ row :: after)
    (hr2 : trimSpace row ≠ []) (hr3 : ¬ "ID#".data <+: trimSpace row)
    (htok : splitWs (trimSpace row) = tokens) (h10 : 10 ≤ tokens.length)
    (hkey : attrKeyOf lower (tokens.getD 1 []) = "wear_leveling_count")
    (hraw : parseFloat (String.mk (tokens.getLastD [])) = some rawFloat) :
    (∀ valueFloat, parseFloat (String.mk (tokens.getD 3 [])) = some valueFloat →
        (((parseSmartTable lower parseFloat output).get? "wear_leveling_count_raw").isSome =
            true ∧
          ((parseSmartTable lower parseFloat output).get? "wear_leveling_count_value").isSome =
            true) ∧
        ((∀ l ∈ after,
            (parseSmartRow lower parseFloat [] l).get? "wear_leveling_count_raw" = none) →
          (parseSmartTable lower parseFloat output).get? "wear_leveling_count_raw" =
            some rawFloat) ∧
        ((∀ l ∈ after,
            (parseSmartRow lower parseFloat [] l).get? "wear_leveling_count_value" = none) →
          (parseSmartTable lower parseFloat output).get? "wear_leveling_count_value" =
            some valueFloat)) ∧
      (parseFloat (String.mk (tokens.getD 3 [])) = none →
        (∀ m : StrMap F, parseSmartRow lower parseFloat m row = m) ∧
          parseSmartTable lower parseFloat output =
            (before ++ after).foldl (parseSmartRow lower parseFloat) []) := by
  have hdata : ∀ m : StrMap F, parseSmartRow lower parseFloat m row =
      match parseFloat (String.mk (tokens.getD 3 [])) with
      | some valueFloat =>
        (m.set "wear_leveling_count_value" valueFloat).set "wear_leveling_count_raw" rawFloat
      | none => m := by
    intro m
    rw [parseSmartRow_data lower parseFloat m row tokens htok hr3 hr2, if_neg (by omega), hraw]
    simp only [hkey, if_true]
  refine ⟨fun valueFloat hval => ?_, fun hval => ?_⟩
  · have hres : parseSmartTable lower parseFloat output =
        after.foldl (parseSmartRow lower parseFloat)
          (((before.foldl (parseSmartRow lower parseFloat) []).set "wear_leveling_count_value"
            valueFloat).set "wear_leveling_count_raw" rawFloat) := by
      simp only [parseSmartTable, hlines, List.foldl_append, List.foldl_cons, hdata, hval]
    have hr : ∀ m : StrMap F,
        ((m.set "wear_leveling_count_value" valueFloat).set "wear_leveling_count_raw"
          rawFloat).get? "wear_leveling_count_raw" = some rawFloat := by
      intro m
      rw [strMap_get_set, if_pos rfl]
    have hv : ∀ m : StrMap F,
        ((m.set "wear_leveling_count_value" valueFloat).set "wear_leveling_count_raw"
          rawFloat).get? "wear_leveling_count_value" = some valueFloat := by
      intro m
      rw [strMap_get_set, if_neg (by decide), strMap_get_set, if_pos rfl]
    rw [hres]
    refine ⟨⟨?_, ?_⟩, fun hafter => ?_, fun hafter => ?_⟩
    · exact parseSmartRows_keep_key _ _ _ _ _ (by rw [hr]; rfl)
    · exact parseSmartRows_keep_key _ _ _ _ _ (by rw [hv]; rfl)
    · rw [parseSmartRows_unwritten _ _ _ _ _ hafter, hr]
    · rw [parseSmartRows_unwritten _ _ _ _ _ hafter, hv]
  · have hrow : ∀ m : StrMap F, parseSmartRow lower parseFloat m row = m := by
      intro m
      rw [hdata m, hval]
    refine ⟨hrow, ?_⟩
    simp only [parseSmartTable, hlines, List.foldl_append, List.foldl_cons, hrow]

/-- C11, amended, at a table with two wear-levelling rows, of which the second has a token 3
that is not a number: the pair holds the values 98 and 5 of the first row, and the second row
stores nothing; at `wearRowBadValue`, whose only row stores nothing; and at `sampleTable`. -/
theorem parseSmartTable_wear_pair_witness :
    (parseSmartTable (fun c => c) parseDigits
        ("ID# ATTRIBUTE_NAME FLAG VALUE WORST THRESH TYPE UPDATED WHEN_FAILED RAW_VALUE\n" ++
          "177 Wear_Leveling_Count 0x0013 098 098 000 Pre-fail Always - 5\n" ++
          "177 Wear_Leveling_Count 0x0013 --- 099 000 Pre-fail Always - 7")).get?
        "wear_leveling_count_raw" = some 5 ∧
      (parseSmartTable (fun c => c) parseDigits
        ("ID# ATTRIBUTE_NAME FLAG VALUE WORST THRESH TYPE UPDATED WHEN_FAILED RAW_VALUE\n" ++
          "177 Wear_Leveling_Count 0x0013 098 098 000 Pre-fail Always - 5\n" ++
          "177 Wear_Leveling_Count 0x0013 --- 099 000 Pre-fail Always - 7")).get?
        "wear_leveling_count_value" = some 98 ∧
      parseSmartTable (fun c => c) parseDigits
        ("ID# ATTRIBUTE_NAME FLAG VALUE WORST THRESH TYPE UPDATED WHEN_FAILED RAW_VALUE\n" ++
          "177 Wear_Leveling_Count 0x0013 098 098 000 Pre-fail Always - 5\n" ++
          "177 Wear_Leveling_Count 0x0013 --- 099 000 Pre-fail Always - 7") =
        [("wear_leveling_count_value", 98), ("wear_leveling_count_raw", 5)] ∧
      parseSmartTable (fun c => c) parseDigits wearRowBadValue =
        ["ID# ATTRIBUTE_NAME FLAG VALUE WORST THRESH TYPE UPDATED WHEN_FAILED RAW_VALUE".data].foldl
          (parseSmartRow (fun c => c) parseDigits) [] ∧
      (parseSmartTable (fun c => c) parseDigits sampleTable).get? "wear_leveling_count_raw" =
        some 5 ∧
      parseSmartTable (fun c => c) parseDigits sampleTable =
        [("power_on_hours", 1234), ("wear_leveling_count_value", 98),
          ("wear_leveling_count_raw", 5)] :=
  have first := (parseSmartTable_wear_pair (fun c => c) parseDigits
    ("ID# ATTRIBUTE_NAME FLAG VALUE WORST THRESH TYPE UPDATED WHEN_FAILED RAW_VALUE\n" ++
      "177 Wear_Leveling_Count 0x0013 098 098 000 Pre-fail Always - 5\n" ++
      "177 Wear_Leveling_Count 0x0013 --- 099 000 Pre-fail Always - 7")
    ["ID# ATTRIBUTE_NAME FLAG VALUE WORST THRESH TYPE UPDATED WHEN_FAILED RAW_VALUE".data]
    ["177 Wear_Leveling_Count 0x0013 --- 099 000 Pre-fail Always - 7".data]
    "177 Wear_Leveling_Count 0x0013 098 098 000 Pre-fail Always - 5".data
    (splitWs (trimSpace "177 Wear_Leveling_Count 0x0013 098 098 000 Pre-fail Always - 5".data))
    5 (by decide) (by decide) (by decide) rfl (by decide) (by decide) (by decide)).1 98
    (by decide)
  have second := (parseSmartTable_wear_pair (fun c => c) parseDigits wearRowBadValue
    ["ID# ATTRIBUTE_NAME FLAG VALUE WORST THRESH TYPE UPDATED WHEN_FAILED RAW_VALUE".data] []
    "177 Wear_Leveling_Count 0x0013 --- 099 000 Pre-fail Always - 5".data
    (splitWs (trimSpace "177 Wear_Leveling_Count 0x0013 --- 099 000 Pre-fail Always - 5".data))
    5 (by decide) (by decide) (by decide) rfl (by decide) (by decide) (by decide)).2
    (by decide)
  have third := (parseSmartTable_wear_pair (fun c => c) parseDigits sampleTable
    ["ID# ATTRIBUTE_NAME FLAG VALUE WORST THRESH TYPE UPDATED WHEN_FAILED RAW_VALUE".data,
      "  9 Power_On_Hours 0x0032 099 099 000 Old_age Always - 1234".data]
    [[]] "177 Wear_Leveling_Count 0x0013 098 098 000 Pre-fail Always - 5".data
    (splitWs (trimSpace "177 Wear_Leveling_Count 0x0013 098 098 000 Pre-fail Always - 5".data))
    5 (by decide) (by decide) (by decide) rfl (by decide) (by decide) (by decide)).1 98
    (by decide)
  ⟨first.2.1 (by decide), first.2.2 (by decide), by decide, second.2, third.2.1 (by decide),
    by decide⟩

/-! ## Steps and frames -/

theorem steps_pure {σ F α : Type} (R : World σ F → World σ F → Prop) (hrefl : ∀ w, R w w)
    (a : α) : Steps R (pure a : Cycle σ F α) := fun w => hrefl w

theorem steps_orPanic {σ F α : Type} (R : World σ F → World σ F → Prop) (hrefl : ∀ w, R w w)
    (o : Option α) : Steps R (orPanic o : Cycle σ F α) := by
  cases o <;> exact fun w => hrefl w

theorem steps_bind {σ F α β : Type} (R : World σ F → World σ F → Prop)
    (htrans : ∀ a b c, R a b → R b c → R a c) (m : Cycle σ F α) (f : α → Cycle σ F β)
    (hm : Steps R m) (hf : ∀ a, Steps R (f a)) : Steps R (m >>= f) := by
  intro w
  rw [bind_run]
  have h1 := hm w
  cases hmw : m w with
  | mk r w1 =>
    rw [hmw] at h1
    cases r with
    | none => exact h1
    | some a => exact htrans _ _ _ h1 (hf a w1)

theorem steps_forEach {σ F β : Type} (R : World σ F → World σ F → Prop)
    (hrefl : ∀ w, R w w) (htrans : ∀ a b c, R a b → R b c → R a c)
    (f : β → Cycle σ F Unit) (xs : List β) (hf : ∀ x ∈ xs, Steps R (f x)) :
    Steps R (forEach f xs) := by
  induction xs with
  | nil => exact steps_pure R hrefl ()
  | cons x t ih =>
    exact steps_bind R htrans _ _ (hf x (List.mem_cons_self _ _))
      (fun _ => ih (fun y hy => hf y (List.mem_cons_of_mem _ hy)))

theorem frame_refl {σ F : Type} (gs : List Gauge) (w : World σ F) : Frame gs w w :=
  ⟨rfl, fun _ _ _ => rfl⟩

theorem frame_trans {σ F : Type} (gs : List Gauge) (a b c : World σ F) (h1 : Frame gs a b)
    (h2 : Frame gs b c) : Frame gs a c :=
  ⟨h2.1.trans h1.1, fun g l hg => (h2.2 g l hg).trans (h1.2 g l hg)⟩

theorem frame_setGauge {σ F : Type} (gs : List Gauge) (g : Gauge)
    (labels : List (String × String)) (v : F) (hg : g ∈ gs) :
    Steps (Frame gs) (setGauge g labels v : Cycle σ F Unit) := by
  intro w
  refine ⟨rfl, fun g1 l1 hg1 => ?_⟩
  show (w.sink.set g labels v).get? g1 l1 = _
  rw [sink_get_set, if_neg (by rintro ⟨rfl, -⟩; exact hg1 hg)]

theorem frame_controllerTemperatureStep {σ F : Type} (lib : Lib F) (response : StrMap (JVal F))
    (controllerIndex : String) :
    Steps (Frame [.controller_temperature])
      (controllerTemperatureStep lib response controllerIndex : Cycle σ F Unit) := by
  unfold controllerTemperatureStep
  repeat' first
    | exact steps_pure _ (frame_refl _) _
    | exact steps_orPanic _ (frame_refl _) _
    | exact frame_setGauge _ _ _ _ (by decide)
    | refine steps_bind _ (frame_trans _) _ _ ?_ (fun _ => ?_)
    | split

/-- With a `Basics` and a `Version` group, `handleCommonController` sets `controller_info`,
then `controller_status`, then runs the temperature step. -/
theorem handleCommonController_run {σ F : Type} (lib : Lib F)
    (response basics version : StrMap (JVal F)) (w : World σ F)
    (hB : response.get? "Basics" = some (.obj basics))
    (hV : response.get? "Version" = some (.obj version)) :
    handleCommonController lib response w =
      controllerTemperatureStep lib response (GetString basics "Controller" "Unknown")
        ⟨w.ext, w.calls,
          (w.sink.set .controller_info
            [("controller", GetString basics "Controller" "Unknown"),
              ("model", GetString basics "Model" "Unknown"),
              ("serial", GetString basics "Serial Number" "Unknown"),
              ("fwversion", GetString version "Firmware Version" "Unknown")] (lib.ofNat 1)).set
            .controller_status [("controller", GetString basics "Controller" "Unknown")]
            (controllerStatusValue lib response)⟩ := by
  simp only [handleCommonController, hB, hV, asObj?, bind_run, orPanic, setGauge,
    controllerStatusValue, controllerTemperatureStep]
  cases hS : response.get? "Status" with
  | none => rfl
  | some sv =>
    cases sv with
    | obj statusMap =>
      simp only
      split_ifs <;> rfl
    | _ => rfl

theorem controllerStatusValue_optimal {F : Type} (lib : Lib F) (response : StrMap (JVal F))
    (h : ∃ statusMap : StrMap (JVal F), response.get? "Status" = some (.obj statusMap) ∧
      statusMap.get? "Controller Status" = some (.str "Optimal")) :
    controllerStatusValue lib response = lib.ofNat 1 := by
  obtain ⟨statusMap, h1, h2⟩ := h
  simp [controllerStatusValue, h1, asObj?, h2, isStr]

theorem controllerStatusValue_other {F : Type} (lib : Lib F) (response : StrMap (JVal F))
    (h : ¬ ∃ statusMap : StrMap (JVal F), response.get? "Status" = some (.obj statusMap) ∧
      statusMap.get? "Controller Status" = some (.str "Optimal")) :
    controllerStatusValue lib response = lib.ofNat 0 := by
  unfold controllerStatusValue
  cases hS : response.get? "Status" with
  | none => rfl
  | some sv =>
    cases sv with
    | obj statusMap =>
      simp only [asObj?]
      cases hc : StrMap.get? statusMap "Controller Status" with
      | none => rfl
      | some cv =>
        cases cv with
        | str s =>
          have hne : s ≠ "Optimal" := fun e => h ⟨statusMap, hS, by rw [hc, e]⟩
          simp [isStr, hne]
        | _ => rfl
    | _ => rfl

/-- After `handleCommonController` on a response with `Basics` and `Version` groups, the child
of `controller_status` for the controller holds `controllerStatusValue`, also when the
temperature step panics. -/
theorem commonController_sets_status {σ F : Type} (lib : Lib F)
    (response basics version : StrMap (JVal F)) (w : World σ F)
    (hB : response.get? "Basics" = some (.obj basics))
    (hV : response.get? "Version" = some (.obj version)) :
    (handleCommonController lib response w).2.sink.get? .controller_status
        [("controller", GetString basics "Controller" "Unknown")] =
      some (controllerStatusValue lib response) := by
  rw [handleCommonController_run lib response basics version w hB hV,
    (frame_controllerTemperatureStep lib response _ _).2 .controller_status _ (by decide)]
  show (Sink.set _ _ _ _).get? _ _ = _
  rw [sink_get_set, if_pos ⟨rfl, rfl⟩]

/-- C15 (controller status).  For every controller response with `Basics` and `Version`
groups, `handleCommonController` publishes `controller_status` for the controller with value 1
if the `Status` group exists and its `Controller Status` field is exactly the string `Optimal`,
and with value 0 in every other case (no `Status` group, no such field, any other value). -/
theorem handleCommonController_status {σ F : Type} (lib : Lib F)
    (response basics version : StrMap (JVal F)) (w : World σ F)
    (hB : response.get? "Basics" = some (.obj basics))
    (hV : response.get? "Version" = some (.obj version)) :
    ((∃ statusMap : StrMap (JVal F), response.get? "Status" = some (.obj statusMap) ∧
          statusMap.get? "Controller Status" = some (.str "Optimal")) →
        (handleCommonController lib response w).2.sink.get? .controller_status
          [("controller", GetString basics "Controller" "Unknown")] = some (lib.ofNat 1)) ∧
      ((¬ ∃ statusMap : StrMap (JVal F), response.get? "Status" = some (.obj statusMap) ∧
          statusMap.get? "Controller Status" = some (.str "Optimal")) →
        (handleCommonController lib response w).2.sink.get? .controller_status
          [("controller", GetString basics "Controller" "Unknown")] = some (lib.ofNat 0)) := by
  rw [commonController_sets_status lib response basics version w hB hV]
  exact ⟨fun h => by rw [controllerStatusValue_optimal lib response h],
    fun h => by rw [controllerStatusValue_other lib response h]⟩

/-- C15, at a controller whose `Controller Status` is `Optimal` and at one where it is
`optimal`. -/
theorem handleCommonController_status_witness :
    (handleCommonController sampleLib
        [("Basics", .obj [("Controller", .str "0")]), ("Version", .obj []),
          ("Status", .obj [("Controller Status", .str "Optimal")])]
        (⟨true, [], []⟩ : World Bool Nat)).2.sink.get? .controller_status
          [("controller", "0")] = some 1 ∧
      (handleCommonController sampleLib
        [("Basics", .obj [("Controller", .str "0")]), ("Version", .obj []),
          ("Status", .obj [("Controller Status", .str "optimal")])]
        (⟨true, [], []⟩ : World Bool Nat)).2.sink.get? .controller_status
          [("controller", "0")] = some 0 :=
  ⟨(handleCommonController_status sampleLib
      [("Basics", .obj [("Controller", .str "0")]), ("Version", .obj []),
        ("Status", .obj [("Controller Status", .str "Optimal")])]
      [("Controller", .str "0")] [] ⟨true, [], []⟩ rfl rfl).1 ⟨_, rfl, rfl⟩,
    (handleCommonController_status sampleLib
      [("Basics", .obj [("Controller", .str "0")]), ("Version", .obj []),
        ("Status", .obj [("Controller Status", .str "optimal")])]
      [("Controller", .str "0")] [] ⟨true, [], []⟩ rfl rfl).2 (by
        rintro ⟨statusMap, h1, h2⟩
        simp only [StrMap.get?] at h1
        simp at h1
        subst h1
        simp [StrMap.get?] at h2)⟩

/-- C13 fails on the code: a response with a `Basics` group and no `Version` group makes
`handleCommonController` panic at the type assertion on `response["Version"]`, before anything
is published; with an empty `Version` group the same response is published with
`fwversion="Unknown"`. -/
theorem handleCommonController_no_version {σ F : Type} (lib : Lib F) (w : World σ F) :
    handleCommonController lib
        [("Basics", .obj [("Controller", .str "0"), ("Model", .str "PERC H730"),
          ("Serial Number", .str "SN1")])] w = (none, w) ∧
      handleCommonController lib
        [("Basics", .obj [("Controller", .str "0"), ("Model", .str "PERC H730"),
          ("Serial Number", .str "SN1")]), ("Version", .obj [])] w =
        (some (), ⟨w.ext, w.calls,
          (w.sink.set .controller_info
            [("controller", "0"), ("model", "PERC H730"), ("serial", "SN1"),
              ("fwversion", "Unknown")] (lib.ofNat 1)).set .controller_status
            [("controller", "0")] (lib.ofNat 0)⟩) :=
  ⟨rfl, rfl⟩

/-! ## Panics of the controller handlers -/

/-- C14 fails on the code: for a `PD LIST` of three entries whose second has an `EID:Slt`
without a colon, `handleMegaraidController` panics at `parts[1]`; `drive_status` is published
for the first drive only, the third drive is never reached, and the cycle that holds this
response panics as well. -/
theorem handleMegaraidController_bad_slot :
    (handleMegaraidController fixtureLib fixtureRun badSlotResponse ⟨"bad-slot", [], []⟩).1 =
        none ∧
      (handleMegaraidController fixtureLib fixtureRun badSlotResponse
        ⟨"bad-slot", [], []⟩).2.sink.get? .drive_status
          [("controller", "0"), ("drive", "Drive /c0/e32/s0"), ("model_name", "Unknown"),
            ("protocol", "Unknown")] = some 1 ∧
      (handleMegaraidController fixtureLib fixtureRun badSlotResponse
        ⟨"bad-slot", [], []⟩).2.sink.get? .drive_status
          [("controller", "0"), ("drive", "Drive /c0/e32/s1"), ("model_name", "Unknown"),
            ("protocol", "Unknown")] = none ∧
      (handleMegaraidController fixtureLib fixtureRun badSlotResponse
        ⟨"bad-slot", [], []⟩).2.calls =
          ["cd /opt/lsi/perccli && ./perccli /c0/e32/s0 show smart"] ∧
      (CollectMetrics fixtureLib fixtureRun ⟨"bad-slot", [], []⟩).1 = none := by
  decide

/-- C16 fails on the code: when `BBU Status` is present and is a JSON number (here inside a
response with `Basics` and `Status` groups and no drive lists), `handleMegaraidController`
panics at the type assertion `bbuStatus.(string)` and publishes nothing, although the field is
present and is not the string `NA`. -/
theorem handleMegaraidController_numeric_bbu {σ F : Type} (lib : Lib F) (run : Runner σ)
    (w : World σ F) (x : F) :
    handleMegaraidController lib run
        [("Basics", .obj [("Controller", .str "0")]),
          ("Status", .obj [("BBU Status", .num x)])] w = (none, w) ∧
      handleMegaraidController lib run
        [("Basics", .obj [("Controller", .str "0")]),
          ("Status", .obj [("BBU Status", .str "NA")])] w = (some (), w) :=
  ⟨rfl, rfl⟩

/-! ## Publication on the fallback path -/

theorem keepsOne_refl {σ F : Type} (lib : Lib F) (g : Gauge) (labels : List (String × String))
    (w : World σ F) : KeepsOne lib g labels w w := fun h => h

theorem keepsOne_trans {σ F : Type} (lib : Lib F) (g : Gauge) (labels : List (String × String))
    (a b c : World σ F) (h1 : KeepsOne lib g labels a b) (h2 : KeepsOne lib g labels b c) :
    KeepsOne lib g labels a c := fun h => h2 (h1 h)

theorem keepsOne_setGauge {σ F : Type} (lib : Lib F) (g g1 : Gauge)
    (labels labels1 : List (String × String)) (v : F) (h : g1 ≠ g ∨ v = lib.ofNat 1) :
    Steps (KeepsOne lib g labels) (setGauge g1 labels1 v : Cycle σ F Unit) := by
  intro w hw
  show (w.sink.set g1 labels1 v).get? g labels = _
  rw [sink_get_set]
  split_ifs with hc
  · rcases h with h | h
    · exact absurd hc.1 h
    · rw [h]
  · exact hw

theorem sink_get_set_same {F : Type} (s : Sink F) (g g1 : Gauge)
    (l l1 : List (String × String)) (v : F) (h : s.get? g l = some v) :
    (s.set g1 l1 v).get? g l = some v := by
  rw [sink_get_set]
  by_cases hc : g1 = g ∧ l1 = l
  · rw [if_pos hc]
  · rw [if_neg hc]
    exact h

theorem keepsOne_runCmd {σ F : Type} (lib : Lib F) (g : Gauge)
    (labels : List (String × String)) (run : Runner σ) (command : String) :
    Steps (KeepsOne lib g labels) (runCmd run command : Cycle σ F (Option String)) :=
  fun _ hw => hw

theorem keepsOne_publishSmartStep {σ F : Type} (lib : Lib F) (run : Runner σ) (g : Gauge)
    (labels : List (String × String)) (deviceID displayName : String)
    (hg : g ≠ .drive_smart) :
    Steps (KeepsOne lib g labels)
      (publishSmartStep lib run deviceID displayName : Cycle σ F Unit) := by
  unfold publishSmartStep parseEsxcliSmart
  repeat' first
    | exact steps_pure _ (keepsOne_refl _ _ _) _
    | exact keepsOne_runCmd _ _ _ _ _
    | exact steps_forEach _ (keepsOne_refl _ _ _) (keepsOne_trans _ _ _) _ _
        (fun _ _ => keepsOne_setGauge _ _ _ _ _ _ (Or.inl (Ne.symm hg)))
    | refine steps_bind _ (keepsOne_trans _ _ _) _ _ ?_ (fun _ => ?_)
    | split

theorem publishEsxcliDevice_run {σ F : Type} (lib : Lib F) (run : Runner σ)
    (device : StrMap String) (w : World σ F) :
    publishEsxcliDevice lib run device w =
      publishSmartStep lib run (device.getStr "id") (device.getStr "display_name")
        ⟨w.ext, w.calls,
          (w.sink.set .smartctl_drive
            [("host", host), ("drive", device.getStr "display_name"),
              ("device_id", device.getStr "id"),
              ("model_name",
                if device.getStr "model" = "" then "Unknown" else device.getStr "model"),
              ("protocol",
                if device.getStr "protocol" = "" then "Unknown" else device.getStr "protocol")]
            (lib.ofNat 1)).set .drive_status
            [("controller", "esxcli"), ("drive", device.getStr "display_name"),
              ("model_name",
                if device.getStr "model" = "" then "Unknown" else device.getStr "model"),
              ("protocol",
                if device.getStr "protocol" = "" then "Unknown" else device.getStr "protocol")]
            (lib.ofNat 1)⟩ := rfl

theorem keepsOne_publishEsxcliDevice {σ F : Type} (lib : Lib F) (run : Runner σ) (g : Gauge)
    (labels : List (String × String)) (device : StrMap String) (hg : g ≠ .drive_smart) :
    Steps (KeepsOne lib g labels) (publishEsxcliDevice lib run device : Cycle σ F Unit) := by
  intro w hw
  rw [publishEsxcliDevice_run]
  apply keepsOne_publishSmartStep lib run g labels _ _ hg
  exact sink_get_set_same _ _ _ _ _ _ (sink_get_set_same _ _ _ _ _ _ hw)

/-- The two children one device gets on the fallback path when its model and protocol are
empty. -/
theorem publishEsxcliDevice_unknown {σ F : Type} (lib : Lib F) (run : Runner σ)
    (device : StrMap String) (w : World σ F) (hm : device.getStr "model" = "")
    (hp : device.getStr "protocol" = "") :
    (publishEsxcliDevice lib run device w).2.sink.get? .smartctl_drive
        [("host", host), ("drive", device.getStr "display_name"),
          ("device_id", device.getStr "id"), ("model_name", "Unknown"),
          ("protocol", "Unknown")] = some (lib.ofNat 1) ∧
      (publishEsxcliDevice lib run device w).2.sink.get? .drive_status
        [("controller", "esxcli"), ("drive", device.getStr "display_name"),
          ("model_name", "Unknown"), ("protocol", "Unknown")] = some (lib.ofNat 1) := by
  rw [publishEsxcliDevice_run]
  simp only [hm, hp, if_true]
  constructor
  · apply keepsOne_publishSmartStep lib run _ _ _ _ (by decide)
    show ((w.sink.set _ _ _).set _ _ _).get? _ _ = _
    rw [sink_get_set, if_neg (fun h => absurd h.1 (by decide)), sink_get_set, if_pos ⟨rfl, rfl⟩]
  · apply keepsOne_publishSmartStep lib run _ _ _ _ (by decide)
    show ((w.sink.set _ _ _).set _ _ _).get? _ _ = _
    rw [sink_get_set, if_pos ⟨rfl, rfl⟩]

theorem forEach_cons_total {σ F β : Type} (f : β → Cycle σ F Unit) (x : β) (t : List β)
    (w : World σ F) (hf : Total (f x)) : forEach f (x :: t) w = forEach f t (f x w).2 := by
  obtain ⟨a, ha⟩ := hf w
  show (f x >>= fun _ => forEach f t) w = _
  rw [bind_run]
  cases hfx : f x w with
  | mk r w1 =>
    rw [hfx] at ha
    simp only at ha
    subst ha
    rfl

theorem forEach_publish_unknown {σ F : Type} (lib : Lib F) (run : Runner σ)
    (devs : List (StrMap String)) (device : StrMap String) (w : World σ F)
    (hd : device ∈ devs) (hm : device.getStr "model" = "")
    (hp : device.getStr "protocol" = "") :
    (forEach (publishEsxcliDevice lib run) devs w).2.sink.get? .smartctl_drive
        [("host", host), ("drive", device.getStr "display_name"),
          ("device_id", device.getStr "id"), ("model_name", "Unknown"),
          ("protocol", "Unknown")] = some (lib.ofNat 1) ∧
      (forEach (publishEsxcliDevice lib run) devs w).2.sink.get? .drive_status
        [("controller", "esxcli"), ("drive", device.getStr "display_name"),
          ("model_name", "Unknown"), ("protocol", "Unknown")] = some (lib.ofNat 1) := by
  induction devs generalizing w with
  | nil => exact absurd hd (List.not_mem_nil _)
  | cons x t ih =>
    rw [forEach_cons_total _ x t w (total_publishEsxcliDevice lib run x)]
    rcases List.mem_cons.mp hd with rfl | hd
    · obtain ⟨h1, h2⟩ := publishEsxcliDevice_unknown lib run device w hm hp
      exact ⟨steps_forEach _ (keepsOne_refl lib _ _) (keepsOne_trans lib _ _) _ t
          (fun y _ => keepsOne_publishEsxcliDevice lib run _ _ y (by decide)) _ h1,
        steps_forEach _ (keepsOne_refl lib _ _) (keepsOne_trans lib _ _) _ t
          (fun y _ => keepsOne_publishEsxcliDevice lib run _ _ y (by decide)) _ h2⟩
    · exact ih _ hd

theorem fallbackPath_devices {σ F : Type} (lib : Lib F) (run : Runner σ) (w : World σ F)
    (output : String) (hout : (run discoveryCmd w.ext).1 = some output) :
    fallbackPath lib run w =
      forEach (publishEsxcliDevice lib run) (discoverFrom lib.unicodeLower output)
        ⟨(run discoveryCmd w.ext).2, w.calls ++ [discoveryCmd],
          w.sink.set .smartctl_info [("host", host)] (lib.ofNat 1)⟩ := by
  simp only [fallbackPath, discoverEsxcliDevices, bind_run, setGauge, runCmd, hout]

/-- C17 (end-to-end fallback publication).  On the fallback path, for every discovered device
whose model and protocol are empty, with display name `n` and id `d`, the sink after the cycle
holds `smartctl_drive{host, drive=n, device_id=d, model_name="Unknown", protocol="Unknown"}=1`
and `drive_status{controller="esxcli", drive=n, model_name="Unknown", protocol="Unknown"}=1`. -/
theorem CollectMetrics_fallback_publication {σ F : Type} (lib : Lib F) (run : Runner σ) (ext : σ)
    (sink : Sink F) (output : String) (device : StrMap String)
    (hsrc : SourceUnusable lib (run perccliCmd ext).1)
    (hout : (run discoveryCmd (run perccliCmd ext).2).1 = some output)
    (hd : device ∈ discoverFrom lib.unicodeLower output)
    (hm : device.getStr "model" = "") (hp : device.getStr "protocol" = "") :
    (CollectMetrics lib run ⟨ext, [], sink⟩).2.sink.get? .smartctl_drive
        [("host", host), ("drive", device.getStr "display_name"),
          ("device_id", device.getStr "id"), ("model_name", "Unknown"),
          ("protocol", "Unknown")] = some (lib.ofNat 1) ∧
      (CollectMetrics lib run ⟨ext, [], sink⟩).2.sink.get? .drive_status
        [("controller", "esxcli"), ("drive", device.getStr "display_name"),
          ("model_name", "Unknown"), ("protocol", "Unknown")] = some (lib.ofNat 1) := by
  obtain ⟨data, hdec⟩ := sourceDecision_unusable lib _ hsrc
  rw [CollectMetrics_run lib run ext [] sink true data hdec]
  simp only [Bool.true_eq_false, if_false]
  rw [fallbackPath_devices lib run _ output hout]
  exact forEach_publish_unknown lib run _ device _ hd hm hp

/-- C17, at `fixtureRun` on a machine whose structured command prints undecodable text: the
device `naa.1` of `sampleListing` has no model and no protocol. -/
theorem CollectMetrics_fallback_publication_witness :
    (CollectMetrics fixtureLib fixtureRun ⟨"garbage", [], []⟩).2.sink.get? .smartctl_drive
        [("host", "localhost"), ("drive", "Disk A"), ("device_id", "naa.1"),
          ("model_name", "Unknown"), ("protocol", "Unknown")] = some 1 ∧
      (CollectMetrics fixtureLib fixtureRun ⟨"garbage", [], []⟩).2.sink.get? .drive_status
        [("controller", "esxcli"), ("drive", "Disk A"), ("model_name", "Unknown"),
          ("protocol", "Unknown")] = some 1 :=
  CollectMetrics_fallback_publication fixtureLib fixtureRun "garbage" [] sampleListing
    [("id", "naa.1"), ("display_name", "Disk A"), ("model", ""), ("protocol", "")]
    (Or.inr ⟨"garbage", rfl, Or.inl rfl⟩) rfl (by decide) rfl rfl

/-! ## The primary path -/

theorem infix_of_findAfter (lit s : List Char)
    (h : (findAfter lit (fun _ => some ()) s).isSome = true) : lit <:+: s := by
  induction s with
  | nil =>
    simp only [findAfter] at h
    cases hd : dropLit? lit [] with
    | none => simp [hd] at h
    | some r => exact ⟨[], r, by rw [List.nil_append]; exact (dropLit?_eq_some _ _ _ hd).symm⟩
  | cons c t ih =>
    simp only [findAfter] at h
    cases hd : dropLit? lit (c :: t) with
    | some r => exact ⟨[], r, by rw [List.nil_append]; exact (dropLit?_eq_some _ _ _ hd).symm⟩
    | none =>
      rw [hd] at h
      simp only [Option.bind] at h
      obtain ⟨pre, post, hp⟩ := ih h
      exact ⟨c :: pre, post, by simp [← hp]⟩

theorem containsLit_eq_false (lit : String) (s : List Char) (h : ¬ lit.data <:+: s) :
    containsLit lit s = false := by
  cases hc : containsLit lit s with
  | false => rfl
  | true => exact absurd (infix_of_findAfter _ _ hc) h

/-- The decision is for the primary path whenever the `Controllers` list is not empty and its
first entry does not report that there is no controller. -/
theorem sourceDecision_primary {F : Type} (lib : Lib F) (stdout : String)
    (data : StrMap (JVal F)) (first : JVal F) (rest : List (JVal F))
    (hjson : lib.jsonUnmarshal stdout = some data)
    (hC : data.get? "Controllers" = some (.arr (first :: rest)))
    (hgate : ¬ ReportsNoController first) :
    sourceDecision lib (some stdout) = some (false, data) := by
  simp only [sourceDecision, hjson, hC, asArr?]
  cases hfo : asObj? (some first) with
  | none => rfl
  | some fc =>
    have hfirst : first = .obj fc := by
      cases first <;> simp [asObj?] at hfo
      rw [hfo]
    simp only
    cases hcso : asObj? (StrMap.get? fc "Command Status") with
    | none => rfl
    | some cs =>
      have hcs : StrMap.get? fc "Command Status" = some (.obj cs) := by
        cases hv : StrMap.get? fc "Command Status" with
        | none => simp [hv, asObj?] at hcso
        | some v =>
          rw [hv] at hcso
          cases v <;> simp [asObj?] at hcso
          rw [hcso]
      simp only
      by_cases hfail : isStr (StrMap.get? cs "Status") "Failure" = true
      · have hst : StrMap.get? cs "Status" = some (.str "Failure") := by
          cases hv : StrMap.get? cs "Status" with
          | none => simp [hv, isStr] at hfail
          | some v =>
            rw [hv] at hfail
            cases v <;> simp [isStr] at hfail
            rw [hfail]
        rw [if_pos hfail]
        cases hdesc : StrMap.get? cs "Description" with
        | none =>
          exact absurd ⟨fc, cs, hfirst, hcs, hst, fun d hd => by rw [hdesc] at hd; cases hd⟩ hgate
        | some dv =>
          cases dv with
          | str d =>
            have hno : ¬ "No Controller found".data <:+: d.data := fun hin =>
              hgate ⟨fc, cs, hfirst, hcs, hst, fun d1 hd1 => by
                rw [hdesc] at hd1
                cases hd1
                exact hin⟩
            simp only [asStr?, containsLit_eq_false _ _ hno]
          | null =>
            exact absurd ⟨fc, cs, hfirst, hcs, hst, fun d hd => by rw [hdesc] at hd; cases hd⟩
              hgate
          | bool b =>
            exact absurd ⟨fc, cs, hfirst, hcs, hst, fun d hd => by rw [hdesc] at hd; cases hd⟩
              hgate
          | num x =>
            exact absurd ⟨fc, cs, hfirst, hcs, hst, fun d hd => by rw [hdesc] at hd; cases hd⟩
              hgate
          | arr items =>
            exact absurd ⟨fc, cs, hfirst, hcs, hst, fun d hd => by rw [hdesc] at hd; cases hd⟩
              hgate
          | obj fields =>
            exact absurd ⟨fc, cs, hfirst, hcs, hst, fun d hd => by rw [hdesc] at hd; cases hd⟩
              hgate
      · rw [if_neg hfail]

theorem handleController_obj {σ F : Type} (lib : Lib F) (run : Runner σ)
    (cm : StrMap (JVal F)) :
    (handleController lib run (.obj cm) : Cycle σ F Unit) =
      match asObj? (cm.get? "Response Data") with
      | none => pure ()
      | some response => handleResponse lib run response := by
  funext w
  simp only [handleController, handleResponse, asObj?, orPanic, bind_run]

theorem primaryPath_run {σ F : Type} (lib : Lib F) (run : Runner σ) (data : StrMap (JVal F))
    (controllers : List (JVal F)) (hC : data.get? "Controllers" = some (.arr controllers)) :
    (primaryPath lib run data : Cycle σ F Unit) = forEach (handleController lib run) controllers := by
  funext w
  simp only [primaryPath, hC, asArr?, orPanic, bind_run]

theorem getString_gated {F : Type} (version : StrMap (JVal F)) (h : DriverGated version) :
    ¬ (GetString version "Driver Name" "Unknown" = "megaraid_sas" ∨
      GetString version "Driver Name" "Unknown" = "lsi-mr3") := by
  unfold GetString
  cases hv : version.get? "Driver Name" with
  | none => simp
  | some v =>
    cases v with
    | str s =>
      obtain ⟨h1, h2⟩ := h s hv
      simp [h1, h2]
    | _ => simp

theorem frame_handleCommonController {σ F : Type} (lib : Lib F) (response : StrMap (JVal F)) :
    Steps (Frame [.controller_info, .controller_status, .controller_temperature])
      (handleCommonController lib response : Cycle σ F Unit) := by
  unfold handleCommonController
  repeat' first
    | exact steps_pure _ (frame_refl _) _
    | exact steps_orPanic _ (frame_refl _) _
    | exact frame_setGauge _ _ _ _ (by decide)
    | refine steps_bind _ (frame_trans _) _ _ ?_ (fun _ => ?_)
    | split

/-- For a response whose driver is not on the allow-list, the loop body runs no command and
writes only `controller_info`, `controller_status` and `controller_temperature`. -/
theorem frame_handleResponse {σ F : Type} (lib : Lib F) (run : Runner σ)
    (response : StrMap (JVal F))
    (hgate : ∀ version : StrMap (JVal F),
      response.get? "Version" = some (.obj version) → DriverGated version) :
    Steps (Frame [.controller_info, .controller_status, .controller_temperature])
      (handleResponse lib run response : Cycle σ F Unit) := by
  intro w
  have h1 := frame_handleCommonController lib response w
  simp only [handleResponse, bind_run]
  cases hc : handleCommonController lib response w with
  | mk r w1 =>
    rw [hc] at h1
    cases r with
    | none => exact h1
    | some u =>
      simp only
      cases hv : StrMap.get? response "Version" with
      | none => exact h1
      | some v =>
        cases v with
        | obj version =>
          simp only [asObj?, orPanic, if_neg (getString_gated version (hgate version hv))]
          exact h1
        | _ => exact h1

theorem frame_handleController {σ F : Type} (lib : Lib F) (run : Runner σ)
    (cm : StrMap (JVal F))
    (hgate : ∀ response version : StrMap (JVal F),
      cm.get? "Response Data" = some (.obj response) →
      response.get? "Version" = some (.obj version) → DriverGated version) :
    Steps (Frame [.controller_info, .controller_status, .controller_temperature])
      (handleController lib run (.obj cm) : Cycle σ F Unit) := by
  rw [handleController_obj]
  cases hrd : StrMap.get? cm "Response Data" with
  | none => exact steps_pure _ (frame_refl _) _
  | some v =>
    cases v with
    | obj response => exact frame_handleResponse lib run response (fun ver hv => hgate _ ver hrd hv)
    | _ => exact steps_pure _ (frame_refl _) _

/-- C19 (driver gating on the primary path).  Take a controller entry whose `Version` group
has a `Driver Name` that is missing or is not one of `megaraid_sas` and `lsi-mr3`
(`ControllerGated`).  Handling it runs no command (so no per-drive SMART command) and changes no
child of any gauge other than `controller_info`, `controller_status` and
`controller_temperature`, whatever `PD LIST`, `VD LIST` and `BBU Status` hold.  Hence a cycle
on the primary path all of whose controllers are such entries runs the structured command only
and ends with no `drive_status`, `drive_temp`, `drive_smart`, `virtual_drive_status`,
`bbu_health` (or `smartctl_*`) measurement in the sink. -/
theorem handleController_driver_gating {σ F : Type} (lib : Lib F) (run : Runner σ) (ext : σ)
    (sink : Sink F) (stdout : String) (data : StrMap (JVal F)) (first : JVal F)
    (rest : List (JVal F)) (controller : JVal F) (w : World σ F)
    (hctrl : ControllerGated controller)
    (hout : (run perccliCmd ext).1 = some stdout)
    (hjson : lib.jsonUnmarshal stdout = some data)
    (hC : data.get? "Controllers" = some (.arr (first :: rest)))
    (hnf : ¬ ReportsNoController first)
    (hall : ∀ c ∈ first :: rest, ControllerGated c) :
    ((handleController lib run controller w).2.calls = w.calls ∧
        ∀ g labels, g ∉ [Gauge.controller_info, .controller_status, .controller_temperature] →
          (handleController lib run controller w).2.sink.get? g labels = w.sink.get? g labels) ∧
      (CollectMetrics lib run ⟨ext, [], sink⟩).2.calls = [perccliCmd] ∧
      ∀ g labels, g ∉ [Gauge.controller_info, .controller_status, .controller_temperature] →
        (CollectMetrics lib run ⟨ext, [], sink⟩).2.sink.get? g labels = none := by
  have hstep : ∀ c, ControllerGated c →
      Steps (Frame [.controller_info, .controller_status, .controller_temperature])
        (handleController lib run c : Cycle σ F Unit) := by
    rintro c ⟨cm, rfl, hg⟩
    exact frame_handleController lib run cm hg
  have hdec : sourceDecision lib (run perccliCmd ext).1 = some (false, data) := by
    rw [hout]
    exact sourceDecision_primary lib stdout data first rest hjson hC hnf
  have hcycle := steps_forEach _ (frame_refl _) (frame_trans _) (handleController lib run)
    (first :: rest) (fun c hc => hstep c (hall c hc))
    (⟨(run perccliCmd ext).2, [] ++ [perccliCmd], []⟩ : World σ F)
  rw [CollectMetrics_run lib run ext [] sink false data hdec, if_pos rfl,
    primaryPath_run lib run data _ hC]
  exact ⟨hstep controller hctrl w, hcycle.1, fun g labels hg => (hcycle.2 g labels hg).trans rfl⟩

/-- C19, at `fixtureRun` on a machine whose controller has the driver `mpt3sas`, one physical
drive, one virtual drive and a battery status: the cycle publishes the two controller
measurements and nothing about drives or battery, and runs the structured command only. -/
theorem handleController_driver_gating_witness :
    (CollectMetrics fixtureLib fixtureRun ⟨"gated", [], []⟩).2.calls = [perccliCmd] ∧
      (∀ g labels, g ∉ [Gauge.controller_info, .controller_status, .controller_temperature] →
        (CollectMetrics fixtureLib fixtureRun ⟨"gated", [], []⟩).2.sink.get? g labels = none) ∧
      (CollectMetrics fixtureLib fixtureRun ⟨"gated", [], []⟩).2.sink.get? .controller_status
        [("controller", "1")] = some 1 ∧
      (CollectMetrics fixtureLib fixtureRun ⟨"gated", [], []⟩).1 = some () :=
  ⟨(handleController_driver_gating fixtureLib fixtureRun "gated" [] "gated"
      [("Controllers", .arr [.obj [("Response Data", .obj gatedResponse)]])]
      (.obj [("Response Data", .obj gatedResponse)]) []
      (.obj [("Response Data", .obj gatedResponse)]) ⟨"gated", [], []⟩
      ⟨_, rfl, by
        intro response version h1 h2 s h3
        simp only [StrMap.get?] at h1
        simp at h1
        subst h1
        simp [gatedResponse, StrMap.get?] at h2
        subst h2
        simp [StrMap.get?] at h3
        subst h3
        decide⟩
      rfl rfl rfl
      (by
        rintro ⟨fc, cs, h1, h2, -⟩
        cases h1
        simp [StrMap.get?] at h2)
      (by
        intro c hc
        rw [List.mem_singleton] at hc
        subst hc
        refine ⟨_, rfl, ?_⟩
        intro response version h1 h2 s h3
        simp only [StrMap.get?] at h1
        simp at h1
        subst h1
        simp [gatedResponse, StrMap.get?] at h2
        subst h2
        simp [StrMap.get?] at h3
        subst h3
        decide)).2.1,
    (handleController_driver_gating fixtureLib fixtureRun "gated" [] "gated"
      [("Controllers", .arr [.obj [("Response Data", .obj gatedResponse)]])]
      (.obj [("Response Data", .obj gatedResponse)]) []
      (.obj [("Response Data", .obj gatedResponse)]) ⟨"gated", [], []⟩
      ⟨_, rfl, by
        intro response version h1 h2 s h3
        simp only [StrMap.get?] at h1
        simp at h1
        subst h1
        simp [gatedResponse, StrMap.get?] at h2
        subst h2
        simp [StrMap.get?] at h3
        subst h3
        decide⟩
      rfl rfl rfl
      (by
        rintro ⟨fc, cs, h1, h2, -⟩
        cases h1
        simp [StrMap.get?] at h2)
      (by
        intro c hc
        rw [List.mem_singleton] at hc
        subst hc
        refine ⟨_, rfl, ?_⟩
        intro response version h1 h2 s h3
        simp only [StrMap.get?] at h1
        simp at h1
        subst h1
        simp [gatedResponse, StrMap.get?] at h2
        subst h2
        simp [StrMap.get?] at h3
        subst h3
        decide)).2.2,
    by decide, by decide⟩

/-! ## One optimal controller, end to end -/

/-- C21 (header ambiguity).  A complete 11-byte record with id `0x01` or `0x2F` whose second
byte is `00` is a well-formed record: scanned from its first byte it publishes one key, the
name of its id (`raw_read_error_rate` for `0x01`).  But `parseSmartData` takes its first two
bytes for a header: whatever the nine other bytes are, the decoded map of the one-record
stream is empty, so it holds no `raw_read_error_rate` key; and in a longer stream the scan
starts at the third byte of that record. -/
theorem parseSmartData_header_ambiguity (h : Nat) (t rest : List Nat)
    (hh : h = 0x01 ∨ h = 0x2f) (ht : t.length = 9) (hb : ∀ b ∈ t ++ rest, b < 256) :
    scanRecords (h :: 0x00 :: t) [] = [(attrName h, rawValueOf (t.drop 3))] ∧
      (attrName 0x01 = "raw_read_error_rate" ∧ attrName 0x2f = "unknown_2f") ∧
      parseSmartData (hexOf (h :: 0x00 :: t)) = [] ∧
      (parseSmartData (hexOf (h :: 0x00 :: t))).get? "raw_read_error_rate" = none ∧
      parseSmartData (hexOf (h :: 0x00 :: t ++ rest)) = scanRecords (t ++ rest) [] := by
  have hbt : ∀ b ∈ t, b < 256 := fun b hm => hb b (List.mem_append_left _ hm)
  have hempty : parseSmartData (hexOf (h :: 0x00 :: t)) = [] := by
    rw [parseSmartData_with_header h t hbt hh]
    exact scanRecords_short t [] (by omega)
  refine ⟨?_, ⟨by decide, by decide⟩, hempty, by rw [hempty]; rfl, ?_⟩
  · obtain ⟨b2, b3, b4, b5, b6, b7, b8, b9, b10, rfl⟩ :
        ∃ b2 b3 b4 b5 b6 b7 b8 b9 b10, t = [b2, b3, b4, b5, b6, b7, b8, b9, b10] := by
      match t, ht with
      | [b2, b3, b4, b5, b6, b7, b8, b9, b10], _ => exact ⟨_, _, _, _, _, _, _, _, _, rfl⟩
    rcases hh with rfl | rfl <;> rfl
  · exact parseSmartData_with_header h (t ++ rest) hb hh

/-- C21, at the record `01 00 00 64 00 2a 00 00 00 00 00` (raw read error rate 42): alone it
decodes to the empty map, although scanned from its first byte it gives the value 42. -/
theorem parseSmartData_header_ambiguity_witness :
    scanRecords [0x01, 0x00, 0x00, 0x64, 0x00, 0x2a, 0, 0, 0, 0, 0] [] =
        [("raw_read_error_rate", 42)] ∧
      parseSmartData (hexOf [0x01, 0x00, 0x00, 0x64, 0x00, 0x2a, 0, 0, 0, 0, 0]) = [] ∧
      (parseSmartData (hexOf [0x01, 0x00, 0x00, 0x64, 0x00, 0x2a, 0, 0, 0, 0, 0])).get?
        "raw_read_error_rate" = none :=
  have key := parseSmartData_header_ambiguity 0x01 [0x00, 0x64, 0x00, 0x2a, 0, 0, 0, 0, 0] []
    (Or.inl rfl) rfl (by decide)
  ⟨key.1.trans (by decide), key.2.2.1, key.2.2.2.1⟩

/-! ## Keys of distinct ids -/

set_option maxRecDepth 100000 in
theorem idOfName_attrName : ∀ a, a ≤ 255 → idOfName (attrName a) = a := by
  decide

theorem attrName_injective (a b : Nat) (ha : a ≤ 255) (hb : b ≤ 255)
    (h : attrName a = attrName b) : a = b := by
  rw [← idOfName_attrName a ha, ← idOfName_attrName b hb, h]

theorem recordKeys_wear :
    recordKeys 0xB1 = ["wear_leveling_count_raw", "wear_leveling_count_value"] := by
  decide

theorem recordKeys_other (a : Nat) (h : a ≠ 0xB1) : recordKeys a = [attrName a] := by
  rw [recordKeys, if_neg h]

theorem emitRecord_keys (a nv : Nat) (raw : List Nat) :
    (emitRecord [] a nv raw).keys = recordKeys a := by
  by_cases hB1 : a = 0xB1
  · subst hB1
    rw [recordKeys_wear]
    have hname : attrName 0xB1 = "wear_leveling_count" := by decide
    simp only [emitRecord, if_true, hname]
    rfl
  · rw [recordKeys_other a hB1]
    simp only [emitRecord, if_neg hB1]
    split_ifs <;> rfl

theorem recordKeys_disjoint (a b : Nat) (ha : a ≤ 255) (hb : b ≤ 255) (hab : a ≠ b) :
    ∀ k ∈ recordKeys a, k ∉ recordKeys b := by
  intro k hka hkb
  by_cases hA : a = 0xB1
  · subst hA
    obtain ⟨h1, h2, -⟩ := attrName_not_wear b hb (Ne.symm hab)
    rw [recordKeys_other b (Ne.symm hab), List.mem_singleton] at hkb
    rw [recordKeys_wear] at hka
    simp only [List.mem_cons, List.mem_singleton, List.not_mem_nil, or_false] at hka
    rcases hka with rfl | rfl
    · exact h1 hkb.symm
    · exact h2 hkb.symm
  · rw [recordKeys_other a hA, List.mem_singleton] at hka
    by_cases hB : b = 0xB1
    · subst hB
      obtain ⟨h1, h2, -⟩ := attrName_not_wear a ha hA
      rw [recordKeys_wear] at hkb
      simp only [List.mem_cons, List.mem_singleton, List.not_mem_nil, or_false] at hkb
      rcases hkb with rfl | rfl
      · exact h1 hka.symm
      · exact h2 hka.symm
    · rw [recordKeys_other b hB, List.mem_singleton] at hkb
      exact hab (attrName_injective a b ha hb (hka.symm.trans hkb))

/-- A record changes no entry outside its own keys. -/
theorem emitRecord_get_other (m : StrMap Nat) (a nv : Nat) (raw : List Nat) (k : String)
    (hk : k ∉ recordKeys a) : (emitRecord m a nv raw).get? k = m.get? k := by
  by_cases hB1 : a = 0xB1
  · subst hB1
    rw [recordKeys_wear] at hk
    simp only [List.mem_cons, List.mem_singleton, List.not_mem_nil, or_false, not_or] at hk
    have hname : attrName 0xB1 = "wear_leveling_count" := by decide
    simp only [emitRecord, if_true, hname]
    rw [strMap_get_set, strMap_get_set, if_neg (fun h => hk.2 h.symm),
      if_neg (fun h => hk.1 h.symm)]
  · rw [recordKeys_other a hB1, List.mem_singleton] at hk
    simp only [emitRecord, if_neg hB1]
    split_ifs <;> rw [strMap_get_set, if_neg (fun h => hk h.symm)]

/-- The value a record gives to one of its keys does not depend on the map it is written to. -/
theorem emitRecord_get_own (m : StrMap Nat) (a nv : Nat) (raw : List Nat) (k : String)
    (hk : k ∈ recordKeys a) :
    (emitRecord m a nv raw).get? k = (emitRecord [] a nv raw).get? k := by
  by_cases hB1 : a = 0xB1
  · subst hB1
    rw [recordKeys_wear] at hk
    simp only [List.mem_cons, List.mem_singleton, List.not_mem_nil, or_false] at hk
    have hraw : attrName 0xB1 ++ "_raw" = "wear_leveling_count_raw" := by decide
    have hval : attrName 0xB1 ++ "_value" = "wear_leveling_count_value" := by decide
    have hne : ¬ "wear_leveling_count_value" = "wear_leveling_count_raw" := by decide
    simp only [emitRecord, if_true, hraw, hval, strMap_get_set]
    rcases hk with rfl | rfl
    · rw [if_neg hne, if_neg hne, if_pos rfl, if_pos rfl]
    · rw [if_pos rfl, if_pos rfl]
  · rw [recordKeys_other a hB1, List.mem_singleton] at hk
    subst hk
    simp only [emitRecord, if_neg hB1]
    split_ifs <;> simp only [strMap_get_set, if_pos]

/-- Records whose ids all differ from `a` leave the keys of `a` as they were. -/
theorem emitAll_get_other (post : List (List Nat)) (m : StrMap Nat) (a : Nat) (k : String)
    (ha : a ≤ 255) (hk : k ∈ recordKeys a)
    (hpost : ∀ x ∈ post, x.getD 0 0 ≤ 255 ∧ x.getD 0 0 ≠ a) :
    (emitAll post m).get? k = m.get? k := by
  induction post generalizing m with
  | nil => rfl
  | cons x t ih =>
    obtain ⟨hx1, hx2⟩ := hpost x (List.mem_cons_self _ _)
    have hstep : emitAll (x :: t) m =
        emitAll t (emitRecord m (x.getD 0 0) (x.getD 3 0) (x.drop 5)) := rfl
    rw [hstep, ih _ (fun y hy => hpost y (List.mem_cons_of_mem _ hy)),
      emitRecord_get_other _ _ _ _ _
        (fun h => recordKeys_disjoint a (x.getD 0 0) ha hx1 (Ne.symm hx2) k hk h)]

theorem emitAll_append (pre post : List (List Nat)) (m : StrMap Nat) :
    emitAll (pre ++ post) m = emitAll post (emitAll pre m) := by
  simp only [emitAll, List.foldl_append]

theorem getD_zero_eq_headD (x : List Nat) : x.getD 0 0 = x.headD 0 := by
  cases x <;> rfl

/-- The id byte of a complete record of a stream of bytes is a byte. -/
theorem record_id_byte (rs : List (List Nat)) (x : List Nat) (hx : x ∈ rs)
    (hlen : x.length = 11) (hb : ∀ b ∈ rs.flatten, b < 256) : x.headD 0 ≤ 255 := by
  obtain ⟨b0, b1, b2, b3, b4, b5, b6, b7, b8, b9, b10, rfl⟩ := eleven_bytes x hlen
  have := hb b0 (List.mem_flatten.mpr ⟨_, hx, List.mem_cons_self _ _⟩)
  simp only [List.headD_cons]
  omega

/-- C22 (collision-free naming).  The keys written for a record with id `a` are the list
`recordKeys a`: the `_raw` and `_value` keys for `0xB1`, and otherwise the one name of the id
(the table name, or `unknown_` and the id in hexadecimal).  For every two distinct ids `a` and
`b` in `1..255` the keys of `a` and the keys of `b` have nothing in common, and a record with
id `b` leaves every entry under a key of `a` as it was.  Hence, in a headerless stream of
complete records with non-zero ids, the value decoded under each key of a record `r` is the
value `r` itself wrote, as long as no later record of the stream has the same id as `r`: an
entry can only be overwritten by a later record with the same id. -/
theorem parseSmartData_collision_free (pre post : List (List Nat)) (r : List Nat)
    (hrec : ∀ x ∈ pre ++ r :: post, x.length = 11 ∧ x.headD 0 ≠ 0)
    (hb : ∀ b ∈ (pre ++ r :: post).flatten, b < 256)
    (hh : ¬ ([0x01, 0x00] <+: (pre ++ r :: post).flatten ∨
      [0x2f, 0x00] <+: (pre ++ r :: post).flatten))
    (hlater : ∀ x ∈ post, x.headD 0 ≠ r.headD 0) :
    (∀ a nv raw, (emitRecord [] a nv raw).keys = recordKeys a) ∧
      recordKeys 0xB1 = ["wear_leveling_count_raw", "wear_leveling_count_value"] ∧
      (∀ a, a ≠ 0xB1 → recordKeys a = [attrName a]) ∧
      (∀ a b, 1 ≤ a ∧ a ≤ 255 → 1 ≤ b ∧ b ≤ 255 → a ≠ b →
        ∀ k ∈ recordKeys a, k ∉ recordKeys b) ∧
      (∀ a b, 1 ≤ a ∧ a ≤ 255 → 1 ≤ b ∧ b ≤ 255 → a ≠ b →
        ∀ (m : StrMap Nat) (nv : Nat) (raw : List Nat), ∀ k ∈ recordKeys a,
          (emitRecord m b nv raw).get? k = m.get? k) ∧
      (∀ k ∈ recordKeys (r.headD 0),
        (parseSmartData (hexOf (pre ++ r :: post).flatten)).get? k =
          (emitRecord [] (r.headD 0) (r.getD 3 0) (r.drop 5)).get? k) := by
  refine ⟨emitRecord_keys, recordKeys_wear, recordKeys_other,
    fun a b ha hb hab => recordKeys_disjoint a b ha.2 hb.2 hab,
    fun a b ha hb hab m nv raw k hk =>
      emitRecord_get_other m b nv raw k (recordKeys_disjoint a b ha.2 hb.2 hab k hk),
    fun k hk => ?_⟩
  have hr : r ∈ pre ++ r :: post := List.mem_append_right _ (List.mem_cons_self _ _)
  have hid : r.headD 0 ≤ 255 := record_id_byte _ r hr (hrec r hr).1 hb
  have hpost : ∀ x ∈ post, x.getD 0 0 ≤ 255 ∧ x.getD 0 0 ≠ r.headD 0 := by
    intro x hx
    have hxm : x ∈ pre ++ r :: post := List.mem_append_right _ (List.mem_cons_of_mem _ hx)
    rw [getD_zero_eq_headD]
    exact ⟨record_id_byte _ x hxm (hrec x hxm).1 hb, hlater x hx⟩
  have hscan : parseSmartData (hexOf (pre ++ r :: post).flatten) =
      emitAll (pre ++ r :: post) [] := by
    rw [parseSmartData_no_header _ hb hh]
    have := scanRecords_stream (pre ++ r :: post) [] [] hrec hb
    rw [List.append_nil] at this
    rw [this]
    exact scanRecords_short [] _ (by decide)
  have hsplit : emitAll (pre ++ r :: post) [] =
      emitAll post (emitRecord (emitAll pre []) (r.headD 0) (r.getD 3 0) (r.drop 5)) := by
    rw [emitAll_append, ← getD_zero_eq_headD]
    rfl
  rw [hscan, hsplit, emitAll_get_other post _ (r.headD 0) k hid hk hpost,
    emitRecord_get_own _ _ _ _ k hk]

/-- C22, at a stream of four records with ids `09`, `B1`, `09`, `AB`: the wear-levelling pair
of the second record is decoded as written (raw 5, value 98), and `power_on_hours` holds the
value of the later record with the same id. -/
theorem parseSmartData_collision_free_witness :
    (parseSmartData (hexOf ([[0x09, 0, 0, 100, 0, 1, 0, 0, 0, 0, 0]] ++
        [0xB1, 0, 0, 98, 0, 5, 0, 0, 0, 0, 0] ::
          [[0x09, 0, 0, 100, 0, 2, 0, 0, 0, 0, 0],
            [0xAB, 0, 0, 100, 0, 7, 0, 0, 0, 0, 0]]).flatten)).get?
        "wear_leveling_count_raw" = some 5 ∧
      (parseSmartData (hexOf ([[0x09, 0, 0, 100, 0, 1, 0, 0, 0, 0, 0]] ++
        [0xB1, 0, 0, 98, 0, 5, 0, 0, 0, 0, 0] ::
          [[0x09, 0, 0, 100, 0, 2, 0, 0, 0, 0, 0],
            [0xAB, 0, 0, 100, 0, 7, 0, 0, 0, 0, 0]]).flatten)).get?
        "wear_leveling_count_value" = some 98 ∧
      parseSmartData (hexOf ([[0x09, 0, 0, 100, 0, 1, 0, 0, 0, 0, 0]] ++
        [0xB1, 0, 0, 98, 0, 5, 0, 0, 0, 0, 0] ::
          [[0x09, 0, 0, 100, 0, 2, 0, 0, 0, 0, 0],
            [0xAB, 0, 0, 100, 0, 7, 0, 0, 0, 0, 0]]).flatten) =
        [("power_on_hours", 2), ("wear_leveling_count_raw", 5),
          ("wear_leveling_count_value", 98), ("unknown_ab", 7)] :=
  have key := (parseSmartData_collision_free [[0x09, 0, 0, 100, 0, 1, 0, 0, 0, 0, 0]]
    [[0x09, 0, 0, 100, 0, 2, 0, 0, 0, 0, 0], [0xAB, 0, 0, 100, 0, 7, 0, 0, 0, 0, 0]]
    [0xB1, 0, 0, 98, 0, 5, 0, 0, 0, 0, 0] (by decide) (by decide) (by decide)
    (by decide)).2.2.2.2.2
  ⟨(key "wear_leveling_count_raw" (by decide)).trans (by decide),
    (key "wear_leveling_count_value" (by decide)).trans (by decide), by decide⟩

end EsxiExporter
